import Mathlib

/-!
# LedControl (MAX7219/MAX7221 driver): shallow embedding and verified properties

The driver of `src/LedControl.cpp` is embedded as pure functions on an explicit
object state.  Conventions of the embedding:

* `int` and `char` values are `Int`: the model computes on unbounded integers
  (signed overflow is undefined in C++).  `byte` values are `Nat`, with an
  explicit `% 256` wherever the source converts to `byte`.
* The arrays `status[64]` and `spidata[16]` are lists; a store through an index
  outside the array sets the sticky flag `fault` instead of writing, and a load
  through such an index yields 0.  The indices of all accesses, loads included,
  are recorded by the functions of the section "Recorded runs".
* Calls to the Arduino primitives (`pinMode`, `digitalWrite`, `shiftOut`,
  `delay`) are appended to `log` in program order.
-/

set_option linter.dupNamespace false

namespace LedControl

/-! ## Opcodes -/

def OP_NOOP : Nat := 0
def OP_DIGIT0 : Nat := 1
def OP_DIGIT1 : Nat := 2
def OP_DIGIT2 : Nat := 3
def OP_DIGIT3 : Nat := 4
def OP_DIGIT4 : Nat := 5
def OP_DIGIT5 : Nat := 6
def OP_DIGIT6 : Nat := 7
def OP_DIGIT7 : Nat := 8
def OP_DECODEMODE : Nat := 9
def OP_INTENSITY : Nat := 10
def OP_SCANLIMIT : Nat := 11
def OP_SHUTDOWN : Nat := 12
def OP_DISPLAYTEST : Nat := 15

/-! ## State -/

/-- One call to an Arduino primitive. `pinMode p` is `pinMode(p,OUTPUT)`;
`digitalWrite p true` is `digitalWrite(p,HIGH)`; `shiftOut d c v` is
`shiftOut(d,c,MSBFIRST,v)`; `delay t` is `delay(t)`. -/
inductive Event where
  | pinMode (pin : Int)
  | digitalWrite (pin : Int) (high : Bool)
  | shiftOut (dataPin clockPin : Int) (value : Nat)
  | delay (ms : Int)
  deriving DecidableEq, Repr

/-- Modelled from the spec: the member declarations live in `LedControl.h`, which
is absent; the fields are the members the source file uses (`SPI_MOSI`,
`SPI_CLK`, `SPI_CS`, `maxDevices`, the shadow array `status` of 64 bytes written
by the constructor loop, the transfer buffer `spidata` of 16 bytes for a chain of
at most 8 devices).  `log` and `fault` are ghost fields. -/
structure State where
  SPI_MOSI : Int
  SPI_CLK : Int
  SPI_CS : Int
  maxDevices : Int
  status : List Nat
  spidata : List Nat
  log : List Event
  fault : Bool
  deriving DecidableEq, Repr

/-- Conversion of an `int` (or `char`) value to `byte`. -/
def toByte (x : Int) : Nat := (x % 256).toNat

/-- Store `status[i] = v`. -/
def stStatus (s : State) (i : Int) (v : Nat) : State :=
  if 0 ≤ i ∧ i < 64 then { s with status := s.status.set i.toNat v }
  else { s with fault := true }

/-- Load `status[i]`. -/
def ldStatus (s : State) (i : Int) : Nat :=
  if 0 ≤ i ∧ i < 64 then s.status.getD i.toNat 0 else 0

/-- Store `spidata[i] = v`. -/
def stSpidata (s : State) (i : Int) (v : Nat) : State :=
  if 0 ≤ i ∧ i < 16 then { s with spidata := s.spidata.set i.toNat v }
  else { s with fault := true }

/-- Load `spidata[i]`. -/
def ldSpidata (s : State) (i : Int) : Nat :=
  if 0 ≤ i ∧ i < 16 then s.spidata.getD i.toNat 0 else 0

/-- Record a call to an Arduino primitive. -/
def emit (s : State) (e : Event) : State :=
  { s with log := s.log ++ [e] }

/-- A state of a live driver object: the arrays have their declared sizes and
hold bytes, and the device count is the clamped one. -/
def WF (s : State) : Prop :=
  s.status.length = 64 ∧ s.spidata.length = 16 ∧
  (∀ b ∈ s.status, b < 256) ∧ 1 ≤ s.maxDevices ∧ s.maxDevices ≤ 8

instance (s : State) : Decidable (WF s) := by
  unfold WF; infer_instance

/-! ## Serial transport -/

/-- `LedControl::spiTransfer`. The first loop runs `i = 0 .. maxbytes-1`, the
second `i = maxbytes .. 1`. -/
def spiTransfer (s : State) (addr : Int) (opcode data : Nat) : State :=
  let offset := addr * 2
  let maxbytes := s.maxDevices * 2
  let s := (List.range maxbytes.toNat).foldl (fun s (i : Nat) => stSpidata s (i : Int) 0) s
  let s := stSpidata s (offset + 1) opcode
  let s := stSpidata s offset data
  let s := emit s (.digitalWrite s.SPI_CS false)
  let s := ((List.range' 1 maxbytes.toNat).reverse).foldl
    (fun s (i : Nat) => emit s (.shiftOut s.SPI_MOSI s.SPI_CLK (ldSpidata s ((i : Int) - 1)))) s
  emit s (.digitalWrite s.SPI_CS true)

/-- The bytes of one transaction as the chain sees them, in the order they are
shifted out: for a chain of `N` devices, byte `k` is the opcode when
`k = 2*(N-1-addr)`, the data when `k = 2*(N-1-addr)+1`, and 0 otherwise. -/
def frame (N addr : Int) (opcode data : Nat) : List Nat :=
  (List.range (2 * N).toNat).map fun (k : Nat) =>
    if (k : Int) = 2 * (N - 1 - addr) then opcode
    else if (k : Int) = 2 * (N - 1 - addr) + 1 then data
    else 0

/-- One serial transaction addressed to device `addr`: chip-select low, the
`2*N` bytes of the frame, chip-select high. -/
def transaction (s : State) (addr : Int) (opcode data : Nat) : List Event :=
  [Event.digitalWrite s.SPI_CS false]
    ++ (frame s.maxDevices addr opcode data).map (Event.shiftOut s.SPI_MOSI s.SPI_CLK)
    ++ [Event.digitalWrite s.SPI_CS true]

/-! ## Device chain manager -/

/-- `LedControl::getDeviceCount`. -/
def getDeviceCount (s : State) : Int := s.maxDevices

/-- `LedControl::shutdown`. -/
def shutdown (s : State) (addr : Int) (b : Bool) : State :=
  if addr < 0 ∨ addr ≥ s.maxDevices then s
  else if b then spiTransfer s addr OP_SHUTDOWN 0
  else spiTransfer s addr OP_SHUTDOWN 1

/-- `LedControl::setScanLimit`. -/
def setScanLimit (s : State) (addr limit : Int) : State :=
  if addr < 0 ∨ addr ≥ s.maxDevices then s
  else if limit ≥ 0 ∨ limit < 8 then spiTransfer s addr OP_SCANLIMIT (toByte limit)
  else s

/-- `LedControl::setIntensity`. -/
def setIntensity (s : State) (addr intensity : Int) : State :=
  if addr < 0 ∨ addr ≥ s.maxDevices then s
  else if intensity ≥ 0 ∨ intensity < 16 then spiTransfer s addr OP_INTENSITY (toByte intensity)
  else s

/-- `LedControl::clearDisplay`. -/
def clearDisplay (s : State) (addr : Int) : State :=
  if addr < 0 ∨ addr ≥ s.maxDevices then s
  else
    let offset := addr * 8
    (List.range 8).foldl (fun s (i : Nat) =>
      let s := stStatus s (offset + (i : Int)) 0
      spiTransfer s addr (toByte ((i : Int) + 1)) (ldStatus s (offset + (i : Int)))) s

/-- `LedControl::setLed`. `B10000000 >> column` is `0x80 >>> column`, and the
byte `~val` is `val ^^^ 0xFF`. -/
def setLed (s : State) (addr row column : Int) (state : Bool) : State :=
  if addr < 0 ∨ addr ≥ s.maxDevices then s
  else if row < 0 ∨ row > 7 ∨ column < 0 ∨ column > 7 then s
  else
    let offset := addr * 8
    let val := (0x80 >>> column.toNat) % 256
    let s :=
      if state then stStatus s (offset + row) ((ldStatus s (offset + row) ||| val) % 256)
      else
        let val := val ^^^ 0xFF
        stStatus s (offset + row) ((ldStatus s (offset + row) &&& val) % 256)
    spiTransfer s addr (toByte (row + 1)) (ldStatus s (offset + row))

/-- `LedControl::setRow`. -/
def setRow (s : State) (addr row : Int) (value : Nat) : State :=
  if addr < 0 ∨ addr ≥ s.maxDevices then s
  else if row < 0 ∨ row > 7 then s
  else
    let offset := addr * 8
    let s := stStatus s (offset + row) value
    spiTransfer s addr (toByte (row + 1)) (ldStatus s (offset + row))

/-- `LedControl::setColumn`. The byte `val` is passed to `setLed` as its
`boolean state`, which is true when it is not zero. -/
def setColumn (s : State) (addr col : Int) (value : Nat) : State :=
  if addr < 0 ∨ addr ≥ s.maxDevices then s
  else if col < 0 ∨ col > 7 then s
  else
    (List.range 8).foldl (fun s (row : Nat) =>
      let val := (value >>> (7 - row)) % 256
      let val := val &&& 0x01
      setLed s addr (row : Int) col (val != 0)) s

/-- `LedControl::setDigit`. The table `charTable` is declared in the absent
header and is a parameter: `charTable i` is the byte read at `charTable[i]`. -/
def setDigit (charTable : Nat → Nat) (s : State) (addr digit : Int) (value : Nat)
    (dp : Bool) : State :=
  if addr < 0 ∨ addr ≥ s.maxDevices then s
  else if digit < 0 ∨ digit > 7 ∨ value > 15 then s
  else
    let offset := addr * 8
    let v := charTable value
    let v := if dp then (v ||| 0x80) % 256 else v
    let s := stStatus s (offset + digit) v
    spiTransfer s addr (toByte (digit + 1)) v

/-- `LedControl::setChar`. The assignment `value=32` of the source changes the
parameter `value` only; the table is read at `index`. -/
def setChar (charTable : Nat → Nat) (s : State) (addr digit : Int) (value : Int)
    (dp : Bool) : State :=
  if addr < 0 ∨ addr ≥ s.maxDevices then s
  else if digit < 0 ∨ digit > 7 then s
  else
    let offset := addr * 8
    let index := toByte value
    let _value : Int := if index > 127 then 32 else value
    let v := charTable index
    let v := if dp then (v ||| 0x80) % 256 else v
    let s := stStatus s (offset + digit) v
    spiTransfer s addr (toByte (digit + 1)) v

/-- `LedControl::LedControl`. The storage of the object is not initialised
before the constructor runs: `status0` and `spidata0` are the contents the two
arrays happen to have. -/
def LedControl (status0 spidata0 : List Nat) (dataPin clkPin csPin numDevices : Int) :
    State :=
  let numDevices := if numDevices ≤ 0 ∨ numDevices > 8 then 8 else numDevices
  let s : State :=
    { SPI_MOSI := dataPin, SPI_CLK := clkPin, SPI_CS := csPin, maxDevices := numDevices,
      status := status0, spidata := spidata0, log := [], fault := false }
  let s := emit s (.pinMode s.SPI_MOSI)
  let s := emit s (.pinMode s.SPI_CLK)
  let s := emit s (.pinMode s.SPI_CS)
  let s := emit s (.digitalWrite s.SPI_CS true)
  let s := { s with SPI_MOSI := dataPin }
  let s := (List.range 64).foldl (fun s (i : Nat) => stStatus s (i : Int) 0x00) s
  (List.range s.maxDevices.toNat).foldl (fun s (i : Nat) =>
    let s := spiTransfer s (i : Int) OP_DISPLAYTEST 0
    let s := setScanLimit s (i : Int) 7
    let s := spiTransfer s (i : Int) OP_DECODEMODE 0
    let s := clearDisplay s (i : Int)
    shutdown s (i : Int) true) s

/-! ## Character renderer -/

/-- The five bytes `sRow[1] .. sRow[5]` that one `case` of the switch in
`printChar` assigns. -/
structure Glyph where
  r1 : Nat
  r2 : Nat
  r3 : Nat
  r4 : Nat
  r5 : Nat
  deriving DecidableEq, Repr

/-- The `case` labels of the switch in `printChar`, in source order, each with
the bytes it assigns.  Labels are character codes; the last label is written in
the source as a character literal of two bytes (0xC2 0xBA), whose value 0xC2BA
is not the value of any `char`. -/
def glyphCases : List (Int × Glyph) := [
  (32, Glyph.mk 0x00 0x00 0x00 0x00 0x00),   -- space
  (33, Glyph.mk 0x00 0x00 0x2f 0x00 0x00),   -- !
  (34, Glyph.mk 0x00 0x07 0x00 0x07 0x00),   -- double quote
  (35, Glyph.mk 0x14 0x7f 0x14 0x7f 0x14),   -- #
  (36, Glyph.mk 0x24 0x2a 0x7f 0x2a 0x12),   -- $
  (37, Glyph.mk 0x62 0x64 0x08 0x13 0x23),   -- %
  (38, Glyph.mk 0x36 0x49 0x55 0x22 0x50),   -- &
  (40, Glyph.mk 0x00 0x1c 0x22 0x41 0x00),   -- (
  (41, Glyph.mk 0x00 0x41 0x22 0x1c 0x00),   -- )
  (42, Glyph.mk 0x14 0x08 0x3E 0x08 0x14),   -- *
  (43, Glyph.mk 0x08 0x08 0x3E 0x08 0x08),   -- +
  (44, Glyph.mk 0x00 0xA0 0x60 0x00 0x00),   -- ,
  (45, Glyph.mk 0x08 0x08 0x08 0x08 0x08),   -- -
  (46, Glyph.mk 0x00 0x60 0x60 0x00 0x00),   -- .
  (47, Glyph.mk 0x20 0x10 0x08 0x04 0x02),   -- /
  (48, Glyph.mk 0x3E 0x51 0x49 0x45 0x3E),   -- 0
  (49, Glyph.mk 0x00 0x42 0x7F 0x40 0x00),   -- 1
  (50, Glyph.mk 0x42 0x61 0x51 0x49 0x46),   -- 2
  (51, Glyph.mk 0x21 0x41 0x45 0x4B 0x31),   -- 3
  (52, Glyph.mk 0x18 0x14 0x12 0x7F 0x10),   -- 4
  (53, Glyph.mk 0x27 0x45 0x45 0x45 0x39),   -- 5
  (54, Glyph.mk 0x3C 0x4A 0x49 0x49 0x30),   -- 6
  (55, Glyph.mk 0x01 0x71 0x09 0x05 0x03),   -- 7
  (56, Glyph.mk 0x36 0x49 0x49 0x49 0x36),   -- 8
  (57, Glyph.mk 0x06 0x49 0x49 0x29 0x1E),   -- 9
  (58, Glyph.mk 0x00 0x36 0x36 0x00 0x00),   -- :
  (59, Glyph.mk 0x00 0x56 0x36 0x00 0x00),   -- ;
  (60, Glyph.mk 0x08 0x14 0x22 0x41 0x00),   -- <
  (61, Glyph.mk 0x14 0x14 0x14 0x14 0x14),   -- =
  (62, Glyph.mk 0x00 0x41 0x22 0x14 0x08),   -- >
  (63, Glyph.mk 0x02 0x01 0x51 0x09 0x06),   -- ?
  (64, Glyph.mk 0x32 0x49 0x59 0x51 0x3E),   -- @
  (65, Glyph.mk 0x7C 0x12 0x11 0x12 0x7C),   -- A
  (66, Glyph.mk 0x7F 0x49 0x49 0x49 0x36),   -- B
  (67, Glyph.mk 0x3E 0x41 0x41 0x41 0x22),   -- C
  (68, Glyph.mk 0x7F 0x41 0x41 0x22 0x1C),   -- D
  (69, Glyph.mk 0x7F 0x49 0x49 0x49 0x41),   -- E
  (70, Glyph.mk 0x7F 0x09 0x09 0x09 0x01),   -- F
  (71, Glyph.mk 0x3E 0x41 0x49 0x49 0x7A),   -- G
  (72, Glyph.mk 0x7F 0x08 0x08 0x08 0x7F),   -- H
  (73, Glyph.mk 0x00 0x41 0x7F 0x41 0x00),   -- I
  (74, Glyph.mk 0x20 0x40 0x41 0x3F 0x01),   -- J
  (75, Glyph.mk 0x7F 0x08 0x14 0x22 0x41),   -- K
  (76, Glyph.mk 0x7F 0x40 0x40 0x40 0x40),   -- L
  (77, Glyph.mk 0x7F 0x02 0x0C 0x02 0x7F),   -- M
  (78, Glyph.mk 0x7F 0x04 0x08 0x10 0x7F),   -- N
  (79, Glyph.mk 0x3E 0x41 0x41 0x41 0x3E),   -- O
  (80, Glyph.mk 0x7F 0x09 0x09 0x09 0x06),   -- P
  (81, Glyph.mk 0x3E 0x41 0x51 0x21 0x5E),   -- Q
  (82, Glyph.mk 0x7F 0x09 0x19 0x29 0x46),   -- R
  (83, Glyph.mk 0x46 0x49 0x49 0x49 0x31),   -- S
  (84, Glyph.mk 0x01 0x01 0x7F 0x01 0x01),   -- T
  (85, Glyph.mk 0x3F 0x40 0x40 0x40 0x3F),   -- U
  (86, Glyph.mk 0x1F 0x20 0x40 0x20 0x1F),   -- V
  (87, Glyph.mk 0x3F 0x40 0x38 0x40 0x3F),   -- W
  (88, Glyph.mk 0x63 0x14 0x08 0x14 0x63),   -- X
  (89, Glyph.mk 0x07 0x08 0x70 0x08 0x07),   -- Y
  (90, Glyph.mk 0x61 0x51 0x49 0x45 0x43),   -- Z
  (91, Glyph.mk 0x00 0x7F 0x41 0x41 0x00),   -- [
  (92, Glyph.mk 0x55 0xAA 0x55 0xAA 0x55),   -- backslash
  (93, Glyph.mk 0x00 0x41 0x41 0x7F 0x00),   -- ]
  (94, Glyph.mk 0x04 0x02 0x01 0x02 0x04),   -- ^
  (95, Glyph.mk 0x40 0x40 0x40 0x40 0x40),   -- _
  (96, Glyph.mk 0x00 0x03 0x05 0x00 0x00),   -- grave accent
  (97, Glyph.mk 0x20 0x54 0x54 0x54 0x78),   -- a
  (98, Glyph.mk 0x7F 0x48 0x44 0x44 0x38),   -- b
  (99, Glyph.mk 0x38 0x44 0x44 0x44 0x20),   -- c
  (100, Glyph.mk 0x38 0x44 0x44 0x48 0x7F),   -- d
  (101, Glyph.mk 0x38 0x54 0x54 0x54 0x18),   -- e
  (102, Glyph.mk 0x08 0x7E 0x09 0x01 0x02),   -- f
  (103, Glyph.mk 0x18 0xA4 0xA4 0xA4 0x7C),   -- g
  (104, Glyph.mk 0x7F 0x08 0x04 0x04 0x78),   -- h
  (105, Glyph.mk 0x00 0x44 0x7D 0x40 0x00),   -- i
  (106, Glyph.mk 0x40 0x80 0x84 0x7D 0x00),   -- j
  (107, Glyph.mk 0x7F 0x10 0x28 0x44 0x00),   -- k
  (108, Glyph.mk 0x00 0x41 0x7F 0x40 0x00),   -- l
  (109, Glyph.mk 0x7C 0x04 0x18 0x04 0x78),   -- m
  (110, Glyph.mk 0x7C 0x08 0x04 0x04 0x78),   -- n
  (111, Glyph.mk 0x38 0x44 0x44 0x44 0x38),   -- o
  (112, Glyph.mk 0xFC 0x24 0x24 0x24 0x18),   -- p
  (113, Glyph.mk 0x18 0x24 0x24 0x18 0xFC),   -- q
  (114, Glyph.mk 0x7C 0x08 0x04 0x04 0x08),   -- r
  (115, Glyph.mk 0x48 0x54 0x54 0x54 0x20),   -- s
  (116, Glyph.mk 0x04 0x3F 0x44 0x40 0x20),   -- t
  (117, Glyph.mk 0x3C 0x40 0x40 0x20 0x7C),   -- u
  (118, Glyph.mk 0x1C 0x20 0x40 0x20 0x1C),   -- v
  (119, Glyph.mk 0x3C 0x40 0x30 0x40 0x3C),   -- w
  (120, Glyph.mk 0x44 0x28 0x10 0x28 0x44),   -- x
  (121, Glyph.mk 0x1C 0xA0 0xA0 0xA0 0x7C),   -- y
  (122, Glyph.mk 0x44 0x64 0x54 0x4C 0x44),   -- z
  (123, Glyph.mk 0x00 0x10 0x7C 0x82 0x00),   -- left brace
  (124, Glyph.mk 0x00 0x00 0xFF 0x00 0x00),   -- |
  (125, Glyph.mk 0x00 0x82 0x7C 0x10 0x00),   -- right brace
  (49850, Glyph.mk 0x00 0x06 0x09 0x09 0x06)    -- masculine ordinal, a two-byte literal
]

/-- `LedControl::printChar`. `sRow0` is the content the local array `sRow` has when
the function is entered (it is not initialised); the switch has no `default`. -/
def printChar (sRow0 : List Nat) (s : State) (addr pos : Int) (c : Int) : State :=
  let sRow := sRow0.set 0 0x00
  let sRow := sRow.set 6 0x00
  let sRow :=
    match glyphCases.lookup c with
    | some g => ((((sRow.set 1 g.r1).set 2 g.r2).set 3 g.r3).set 4 g.r4).set 5 g.r5
    | none => sRow
  (List.range 7).foldl (fun s (i : Nat) => setRow s addr (pos + (i : Int)) (sRow.getD i 0)) s

/-- The loop of `LedControl::printString`, entered with counter `i` and with
`string` the characters from index `i` on.  The end of the list stands for the
terminating null. `sRow0 i` is the content of `sRow` at the call for character `i`. -/
def printStringLoop (sRow0 : Nat → List Nat) (addr pos : Int) :
    List Int → Nat → State → State
  | [], _, s => s
  | ch :: rest, i, s =>
    if ch = 0 then s
    else printStringLoop sRow0 addr pos rest (i + 1)
      (printChar (sRow0 i) s addr (6 * (i : Int) + pos) ch)

/-- `LedControl::printString`. -/
def printString (sRow0 : Nat → List Nat) (s : State) (addr pos : Int)
    (string : List Int) : State :=
  printStringLoop sRow0 addr pos string 0 s

/-- The first loop of `LedControl::printStringScroll`: the number of characters
before the first null. -/
def countChars : List Int → Nat
  | [] => 0
  | ch :: rest => if ch = 0 then 0 else countChars rest + 1

/-- `LedControl::printStringScroll`. `sRow0 i k` is the content of `sRow` at the
call for character `k` in step `i`; the directions are the codes of the
characters less-than (60) and greater-than (62). -/
def printStringScroll (sRow0 : Nat → Nat → List Nat) (s : State) (addr pos : Int)
    (string : List Int) (tDelay : Int) (sentido : Int) : State :=
  let c : Int := (countChars string : Int)
  if sentido = 60 then
    (List.range ((c * 6) + 1).toNat).foldl (fun s (i : Nat) =>
      let s := printString (sRow0 i) s addr (-(i : Int) + pos) string
      emit s (.delay tDelay)) s
  else if sentido = 62 then
    (List.range ((c * 6) + 1).toNat).foldl (fun s (i : Nat) =>
      let s := printString (sRow0 i) s addr ((-(c * 6) + (i : Int)) + pos) string
      emit s (.delay tDelay)) s
  else s

/-! ## Vocabulary of the properties -/

/-- The shadow byte of row `row` of device `addr`. -/
def shadow (s : State) (addr row : Int) : Nat := ldStatus s (addr * 8 + row)

/-- Content of the transfer buffer after `spiTransfer` has filled it. -/
def filled (s : State) (addr : Int) (opcode data : Nat) : List Nat :=
  ((List.replicate (s.maxDevices * 2).toNat 0 ++ s.spidata.drop (s.maxDevices * 2).toNat).set
    (addr * 2 + 1).toNat opcode).set (addr * 2).toNat data

/-- The state `t` comes from `s` by replacing the shadow array by `st` and
appending the events `ev` to the log; pins, device count and fault flag are
those of `s`, and the transfer buffer keeps its size. -/
def Eff (s t : State) (st : List Nat) (ev : List Event) : Prop :=
  t.SPI_MOSI = s.SPI_MOSI ∧ t.SPI_CLK = s.SPI_CLK ∧ t.SPI_CS = s.SPI_CS ∧
  t.maxDevices = s.maxDevices ∧ t.status = st ∧ t.spidata.length = 16 ∧
  t.log = s.log ++ ev ∧ t.fault = s.fault

/-- A driver state with the given device count and shadow array, pins 12, 11
and 10, and an empty log. -/
def sample (n : Int) (status : List Nat) : State :=
  { SPI_MOSI := 12, SPI_CLK := 11, SPI_CS := 10, maxDevices := n, status := status,
    spidata := List.replicate 16 0xAA, log := [], fault := false }

/-- The byte that `setLed` stores for column `column` when the row holds `b`:
the bit of mask `0x80 >> column` set when `state` is true, cleared otherwise. -/
def ledByte (b column : Nat) (state : Bool) : Nat :=
  if state then (b ||| ((0x80 >>> column) % 256)) % 256
  else (b &&& (((0x80 >>> column) % 256) ^^^ 0xFF)) % 256

/-- A content of the local array `sRow` of `printChar`: seven zero bytes. -/
def sRowZero : List Nat := List.replicate 7 0

/-- The content `sRowZero` at every call of `printChar` made by `printString`. -/
def sRowZero1 : Nat → List Nat := fun _ => sRowZero

/-- The content `sRowZero` at every call of `printChar` made by
`printStringScroll`. -/
def sRowZero2 : Nat → Nat → List Nat := fun _ _ => sRowZero

/-- The list `l` after the stores `l[b+j] = v j` for `j = 0 .. n-1`. -/
def storeRows (l : List Nat) (b : Nat) (v : Nat → Nat) : Nat → List Nat
  | 0 => l
  | n + 1 => (storeRows l b v n).set (b + n) (v n)

/-- The events of the transactions `(addr, opcode j+1, data v j)` for
`j = 0 .. n-1`, in that order. -/
def rowTransactions (s : State) (addr : Int) (v : Nat → Nat) : Nat → List Event
  | 0 => []
  | n + 1 => rowTransactions s addr v n ++ transaction s addr (n + 1) (v n)

/-- The byte row `r` of device `addr` holds after `setColumn(addr,col,value)`
when the shadow array was `l` before: the old byte with the bit of the column
set to bit `7-r` of `value`. -/
def columnByte (l : List Nat) (addr col : Int) (value : Nat) (r : Nat) : Nat :=
  ledByte (l.getD ((addr * 8).toNat + r) 0) col.toNat
    ((((value >>> (7 - r)) % 256) &&& 0x01) != 0)

/-- The twelve commands (device, opcode, data) of the start-up of device `i`:
display test off, scan limit 7, decode mode 0, the eight rows cleared, shutdown. -/
def deviceStartup (i : Nat) : List (Int × Nat × Nat) :=
  [((i : Int), 15, 0), ((i : Int), 11, 7), ((i : Int), 9, 0),
   ((i : Int), 1, 0), ((i : Int), 2, 0), ((i : Int), 3, 0), ((i : Int), 4, 0),
   ((i : Int), 5, 0), ((i : Int), 6, 0), ((i : Int), 7, 0), ((i : Int), 8, 0),
   ((i : Int), 12, 0)]

/-- The commands of the start-up of the devices `0 .. n-1`, in ascending order. -/
def startupCommands (n : Nat) : List (Int × Nat × Nat) :=
  (List.range n).flatMap deviceStartup

/-- The transaction that carries the command `c = (device, opcode, data)`. -/
def send (s : State) (c : Int × Nat × Nat) : List Event :=
  transaction s c.1 c.2.1 c.2.2

/-- A reading of the table `charTable` that returns the index read: the byte
stored by `setDigit` or `setChar` then tells which entry was used. -/
def probeTable : Nat → Nat := fun i => i % 256

/-- A content of the local array `sRow` of `printChar`: seven bytes 0xFF. -/
def sRowFF : List Nat := List.replicate 7 0xFF

/-- Whether an event is a call of `delay`. -/
def isDelay : Event → Bool
  | .delay _ => true
  | _ => false

/-- Number of calls of `delay` in a log. -/
def countDelay (log : List Event) : Nat := (log.filter isDelay).length

/-- A state whose arrays have their declared sizes and whose device count is
in 1..8. -/
def Good (s : State) : Prop :=
  s.status.length = 64 ∧ s.spidata.length = 16 ∧ 1 ≤ s.maxDevices ∧ s.maxDevices ≤ 8

/-- The shadow array `l` after the calls `setRow(addr,row,v)` for the pairs
`(row, v)` of the list, in order; a call with the row outside 0..7 stores
nothing. -/
def applyWrites (l : List Nat) (addr : Int) : List (Int × Nat) → List Nat
  | [] => l
  | w :: ws =>
    applyWrites (if 0 ≤ w.1 ∧ w.1 ≤ 7 then l.set (addr * 8 + w.1).toNat w.2 else l) addr ws

/-- The events of the calls `setRow(addr,row,v)` for the pairs `(row, v)` of the
list, in order: one transaction with opcode `row+1` and data `v` for each row in
0..7, nothing for the others. -/
def writeEvents (s : State) (addr : Int) : List (Int × Nat) → List Event
  | [] => []
  | w :: ws =>
    (if 0 ≤ w.1 ∧ w.1 ≤ 7 then transaction s addr (w.1 + 1).toNat w.2 else [])
      ++ writeEvents s addr ws

/-- The byte of the last pair `(row, v)` of the list with `row = r`, if any. -/
def lastWrite : List (Int × Nat) → Int → Option Nat
  | [], _ => none
  | w :: ws, r =>
    match lastWrite ws r with
    | some x => some x
    | none => if w.1 = r then some w.2 else none

/-- The state `t` comes from `s` by the calls `setRow(addr,row,v)` for the pairs
of `ws`. -/
def Wr (s t : State) (addr : Int) (ws : List (Int × Nat)) : Prop :=
  Eff s t (applyWrites s.status addr ws) (writeEvents s addr ws)

/-- The array `sRow` of `printChar` when its loop starts: `sRow0` with the bytes
0 and 6 zeroed and the bytes 1..5 assigned by the case of `c`, if it has one. -/
def charRows (sRow0 : List Nat) (c : Int) : List Nat :=
  match glyphCases.lookup c with
  | some g =>
    ((((((sRow0.set 0 0x00).set 6 0x00).set 1 g.r1).set 2 g.r2).set 3 g.r3).set 4 g.r4).set 5 g.r5
  | none => (sRow0.set 0 0x00).set 6 0x00

/-- The calls of `setRow` made by `printChar` at position `pos` with the array
`rows`: rows `pos .. pos+6`. -/
def charWrites (rows : List Nat) (pos : Int) : List (Int × Nat) :=
  (List.range 7).map (fun (i : Nat) => (pos + (i : Int), rows.getD i 0))

/-- The calls of `setRow` made by the loop of `printString` entered with counter
`i`. -/
def stringWrites (sRow0 : Nat → List Nat) (pos : Int) : List Int → Nat → List (Int × Nat)
  | [], _ => []
  | ch :: rest, i =>
    if ch = 0 then []
    else charWrites (charRows (sRow0 i) ch) (6 * (i : Int) + pos)
      ++ stringWrites sRow0 pos rest (i + 1)

/-- The `j`-th glyph byte (`sRow[j]`, `j = 1 .. 5`) of a case of the switch. -/
def glyphByte (g : Glyph) (j : Nat) : Nat :=
  match j with
  | 1 => g.r1
  | 2 => g.r2
  | 3 => g.r3
  | 4 => g.r4
  | 5 => g.r5
  | _ => 0

/-- What a reader of the bus knows about device `d` and opcode `op`: `cur` is
the list of bytes shifted since chip-select went low (`none` while it is high),
`last` the data byte of the most recent completed transaction whose bytes
carried opcode `op` for device `d`. -/
structure Bus where
  cur : Option (List Nat)
  last : Option Nat
  deriving DecidableEq, Repr

/-- One event seen by the reader of the bus of a chain of `N` devices with
chip-select pin `cs`. When chip-select goes high after `2*N` bytes, device `d`
latches byte `2*(N-1-d)` as opcode and byte `2*(N-1-d)+1` as data. -/
def busStep (cs : Int) (N d op : Nat) (b : Bus) : Event → Bus
  | .digitalWrite p false => if p = cs then { b with cur := some [] } else b
  | .digitalWrite p true =>
    if p = cs then
      match b.cur with
      | some bytes =>
        if bytes.length = 2 * N ∧ bytes.getD (2 * (N - 1 - d)) 0 = op
        then { cur := none, last := some (bytes.getD (2 * (N - 1 - d) + 1) 0) }
        else { cur := none, last := b.last }
      | none => b
    else b
  | .shiftOut _ _ v => { b with cur := b.cur.map (fun bytes => bytes ++ [v]) }
  | .pinMode _ => b
  | .delay _ => b

/-- The reader of the bus after the whole log of `s`, for device `d` and the
opcode `r+1` of row `r`. -/
def busRun (s : State) (d r : Nat) : Bus :=
  s.log.foldl (busStep s.SPI_CS s.maxDevices.toNat d (r + 1)) { cur := none, last := none }

/-- The data byte of the most recent transaction in the log of `s` addressed to
device `d` with opcode `r+1`, if there is one. -/
def lastData (s : State) (d r : Nat) : Option Nat := (busRun s d r).last

/-- Shadow and hardware agree on the pairs (device, row) selected by `S`: the
bus is idle and the last data sent for the row is its shadow byte. -/
def SyncOn (S : Nat → Nat → Prop) (s : State) : Prop :=
  ∀ d r : Nat, (d : Int) < s.maxDevices → r ≤ 7 → S d r →
    busRun s d r = { cur := none, last := some (shadow s (d : Int) (r : Int)) }

/-- A call of a public operation with its arguments; the operations of the
character renderer also carry the contents of the uninitialised array `sRow`. -/
inductive Call where
  | shutdown (addr : Int) (b : Bool)
  | setScanLimit (addr limit : Int)
  | setIntensity (addr intensity : Int)
  | clearDisplay (addr : Int)
  | setLed (addr row column : Int) (state : Bool)
  | setRow (addr row : Int) (value : Nat)
  | setColumn (addr col : Int) (value : Nat)
  | setDigit (addr digit : Int) (value : Nat) (dp : Bool)
  | setChar (addr digit value : Int) (dp : Bool)
  | printChar (sRow0 : List Nat) (addr pos c : Int)
  | printString (sRow0 : Nat → List Nat) (addr pos : Int) (string : List Int)
  | printStringScroll (sRow0 : Nat → Nat → List Nat) (addr pos : Int) (string : List Int)
      (tDelay sentido : Int)

/-- The state after a call. -/
def call (charTable : Nat → Nat) (s : State) : Call → State
  | .shutdown addr b => shutdown s addr b
  | .setScanLimit addr limit => setScanLimit s addr limit
  | .setIntensity addr intensity => setIntensity s addr intensity
  | .clearDisplay addr => clearDisplay s addr
  | .setLed addr row column state => setLed s addr row column state
  | .setRow addr row value => setRow s addr row value
  | .setColumn addr col value => setColumn s addr col value
  | .setDigit addr digit value dp => setDigit charTable s addr digit value dp
  | .setChar addr digit value dp => setChar charTable s addr digit value dp
  | .printChar sRow0 addr pos c => printChar sRow0 s addr pos c
  | .printString sRow0 addr pos string => printString sRow0 s addr pos string
  | .printStringScroll sRow0 addr pos string tDelay sentido =>
    printStringScroll sRow0 s addr pos string tDelay sentido

/-- The states of a driver object: the one the constructor leaves, on storage
whose arrays have their declared sizes, and those reached from it by calls of
public operations with arbitrary arguments. -/
inductive Reachable (charTable : Nat → Nat) : State → Prop where
  | construct (status0 spidata0 : List Nat) (dataPin clkPin csPin numDevices : Int)
      (h64 : status0.length = 64) (h16 : spidata0.length = 16) :
      Reachable charTable (LedControl status0 spidata0 dataPin clkPin csPin numDevices)
  | step (s : State) (c : Call) (h : Reachable charTable s) :
      Reachable charTable (call charTable s c)

/-- The state `t`, reached from `s`, is good, has the device count of `s`, and
has shadow and hardware in step on `S`. -/
def Kept (S : Nat → Nat → Prop) (s t : State) : Prop :=
  Good t ∧ t.maxDevices = s.maxDevices ∧ SyncOn S t

/-- A driver for 2 devices, constructed on arrays holding arbitrary bytes, after
the call `setRow(1,2,0x55)`. -/
def sampleRun : State :=
  call probeTable (LedControl (List.replicate 64 7) (List.replicate 16 9) 12 11 10 2)
    (Call.setRow 1 2 0x55)

/-! ## Array accesses

An access is recorded where it happens by the functions of the section
"Recorded runs" below.  The lists of this section are the closed form of what
those functions record: for each function of the source, its accesses to the
arrays `status` and `spidata` and its calls of `spiTransfer`, in program order,
a loop taking its intermediate states from the function it belongs to.  That a
recorded run records exactly these lists is proved (`callT_eq`,
`LedControlT_eq`); the property of the accesses is stated of the recorded runs,
and the lists serve its proof. -/

/-- One access to an array of the driver, with the index used, or one call of
`spiTransfer`, with the device index passed. -/
inductive Access where
  | ldStatus (i : Int)
  | stStatus (i : Int)
  | ldSpidata (i : Int)
  | stSpidata (i : Int)
  | spiTransfer (addr : Int)
  deriving DecidableEq, Repr

/-- The accesses of a loop over `l` whose body takes the state `t` to `f t a`
and makes the accesses `g t a`. -/
def loopAccesses {α : Type} (f : State → α → State) (g : State → α → List Access) :
    List α → State → List Access
  | [], _ => []
  | a :: l, s => g s a ++ loopAccesses f g l (f s a)

/-- The accesses of `LedControl::spiTransfer` in a chain of `maxDevices`
devices: the call itself, the stores of the first loop, the two stores of the
command, the loads of the second loop. -/
def spiTransferAccesses (maxDevices addr : Int) : List Access :=
  let offset := addr * 2
  let maxbytes := maxDevices * 2
  [Access.spiTransfer addr]
    ++ (List.range maxbytes.toNat).map (fun (i : Nat) => Access.stSpidata (i : Int))
    ++ [Access.stSpidata (offset + 1), Access.stSpidata offset]
    ++ ((List.range' 1 maxbytes.toNat).reverse).map
        (fun (i : Nat) => Access.ldSpidata ((i : Int) - 1))

/-- The accesses of `LedControl::shutdown`. -/
def shutdownAccesses (s : State) (addr : Int) (b : Bool) : List Access :=
  if addr < 0 ∨ addr ≥ s.maxDevices then []
  else if b then spiTransferAccesses s.maxDevices addr
  else spiTransferAccesses s.maxDevices addr

/-- The accesses of `LedControl::setScanLimit`. -/
def setScanLimitAccesses (s : State) (addr limit : Int) : List Access :=
  if addr < 0 ∨ addr ≥ s.maxDevices then []
  else if limit ≥ 0 ∨ limit < 8 then spiTransferAccesses s.maxDevices addr
  else []

/-- The accesses of `LedControl::setIntensity`. -/
def setIntensityAccesses (s : State) (addr intensity : Int) : List Access :=
  if addr < 0 ∨ addr ≥ s.maxDevices then []
  else if intensity ≥ 0 ∨ intensity < 16 then spiTransferAccesses s.maxDevices addr
  else []

/-- The accesses of `LedControl::clearDisplay`: in each round the store
`status[offset+i]=0`, the load of the argument `status[offset+i]`, and the call. -/
def clearDisplayAccesses (s : State) (addr : Int) : List Access :=
  if addr < 0 ∨ addr ≥ s.maxDevices then []
  else
    let offset := addr * 8
    loopAccesses
      (fun s (i : Nat) =>
        let s := stStatus s (offset + (i : Int)) 0
        spiTransfer s addr (toByte ((i : Int) + 1)) (ldStatus s (offset + (i : Int))))
      (fun s (i : Nat) =>
        [Access.stStatus (offset + (i : Int)), Access.ldStatus (offset + (i : Int))]
          ++ spiTransferAccesses s.maxDevices addr)
      (List.range 8) s

/-- The accesses of `LedControl::setLed`: the load and the store of
`status[offset+row]` in either branch, the load of the argument, and the call. -/
def setLedAccesses (s : State) (addr row column : Int) (state : Bool) : List Access :=
  if addr < 0 ∨ addr ≥ s.maxDevices then []
  else if row < 0 ∨ row > 7 ∨ column < 0 ∨ column > 7 then []
  else
    let offset := addr * 8
    (if state then [Access.ldStatus (offset + row), Access.stStatus (offset + row)]
      else [Access.ldStatus (offset + row), Access.stStatus (offset + row)])
      ++ [Access.ldStatus (offset + row)]
      ++ spiTransferAccesses s.maxDevices addr

/-- The accesses of `LedControl::setRow`. -/
def setRowAccesses (s : State) (addr row : Int) : List Access :=
  if addr < 0 ∨ addr ≥ s.maxDevices then []
  else if row < 0 ∨ row > 7 then []
  else
    let offset := addr * 8
    [Access.stStatus (offset + row), Access.ldStatus (offset + row)]
      ++ spiTransferAccesses s.maxDevices addr

/-- The accesses of `LedControl::setColumn`: those of its eight calls of
`setLed`. -/
def setColumnAccesses (s : State) (addr col : Int) (value : Nat) : List Access :=
  if addr < 0 ∨ addr ≥ s.maxDevices then []
  else if col < 0 ∨ col > 7 then []
  else
    loopAccesses
      (fun s (row : Nat) =>
        setLed s addr (row : Int) col ((((value >>> (7 - row)) % 256) &&& 0x01) != 0))
      (fun s (row : Nat) =>
        setLedAccesses s addr (row : Int) col ((((value >>> (7 - row)) % 256) &&& 0x01) != 0))
      (List.range 8) s

/-- The accesses of `LedControl::setDigit` to the two arrays. -/
def setDigitAccesses (s : State) (addr digit : Int) (value : Nat) : List Access :=
  if addr < 0 ∨ addr ≥ s.maxDevices then []
  else if digit < 0 ∨ digit > 7 ∨ value > 15 then []
  else
    let offset := addr * 8
    [Access.stStatus (offset + digit)] ++ spiTransferAccesses s.maxDevices addr

/-- The accesses of `LedControl::setChar` to the two arrays. -/
def setCharAccesses (s : State) (addr digit : Int) : List Access :=
  if addr < 0 ∨ addr ≥ s.maxDevices then []
  else if digit < 0 ∨ digit > 7 then []
  else
    let offset := addr * 8
    [Access.stStatus (offset + digit)] ++ spiTransferAccesses s.maxDevices addr

/-- The accesses of `LedControl::printChar`: those of its seven calls of
`setRow`. -/
def printCharAccesses (sRow0 : List Nat) (s : State) (addr pos c : Int) : List Access :=
  loopAccesses
    (fun s (i : Nat) => setRow s addr (pos + (i : Int)) ((charRows sRow0 c).getD i 0))
    (fun s (i : Nat) => setRowAccesses s addr (pos + (i : Int)))
    (List.range 7) s

/-- The accesses of the loop of `LedControl::printString`. -/
def printStringLoopAccesses (sRow0 : Nat → List Nat) (addr pos : Int) :
    List Int → Nat → State → List Access
  | [], _, _ => []
  | ch :: rest, i, s =>
    if ch = 0 then []
    else printCharAccesses (sRow0 i) s addr (6 * (i : Int) + pos) ch
      ++ printStringLoopAccesses sRow0 addr pos rest (i + 1)
          (printChar (sRow0 i) s addr (6 * (i : Int) + pos) ch)

/-- The accesses of `LedControl::printString`. -/
def printStringAccesses (sRow0 : Nat → List Nat) (s : State) (addr pos : Int)
    (string : List Int) : List Access :=
  printStringLoopAccesses sRow0 addr pos string 0 s

/-- The accesses of `LedControl::printStringScroll`. -/
def printStringScrollAccesses (sRow0 : Nat → Nat → List Nat) (s : State) (addr pos : Int)
    (string : List Int) (tDelay : Int) (sentido : Int) : List Access :=
  let c : Int := (countChars string : Int)
  if sentido = 60 then
    loopAccesses
      (fun s (i : Nat) =>
        emit (printString (sRow0 i) s addr (-(i : Int) + pos) string) (.delay tDelay))
      (fun s (i : Nat) => printStringAccesses (sRow0 i) s addr (-(i : Int) + pos) string)
      (List.range ((c * 6) + 1).toNat) s
  else if sentido = 62 then
    loopAccesses
      (fun s (i : Nat) =>
        emit (printString (sRow0 i) s addr ((-(c * 6) + (i : Int)) + pos) string)
          (.delay tDelay))
      (fun s (i : Nat) =>
        printStringAccesses (sRow0 i) s addr ((-(c * 6) + (i : Int)) + pos) string)
      (List.range ((c * 6) + 1).toNat) s
  else []

/-- The accesses of a call of a public operation. -/
def callAccesses (s : State) : Call → List Access
  | .shutdown addr b => shutdownAccesses s addr b
  | .setScanLimit addr limit => setScanLimitAccesses s addr limit
  | .setIntensity addr intensity => setIntensityAccesses s addr intensity
  | .clearDisplay addr => clearDisplayAccesses s addr
  | .setLed addr row column state => setLedAccesses s addr row column state
  | .setRow addr row _ => setRowAccesses s addr row
  | .setColumn addr col value => setColumnAccesses s addr col value
  | .setDigit addr digit value _ => setDigitAccesses s addr digit value
  | .setChar addr digit _ _ => setCharAccesses s addr digit
  | .printChar sRow0 addr pos c => printCharAccesses sRow0 s addr pos c
  | .printString sRow0 addr pos string => printStringAccesses sRow0 s addr pos string
  | .printStringScroll sRow0 addr pos string tDelay sentido =>
    printStringScrollAccesses sRow0 s addr pos string tDelay sentido

/-- The accesses of the constructor `LedControl::LedControl`: the 64 stores that
zero the shadow array, then for each device the two calls, `setScanLimit`, the
call, `clearDisplay` and `shutdown`. -/
def LedControlAccesses (status0 spidata0 : List Nat) (dataPin clkPin csPin numDevices : Int) :
    List Access :=
  let numDevices := if numDevices ≤ 0 ∨ numDevices > 8 then 8 else numDevices
  let s : State :=
    { SPI_MOSI := dataPin, SPI_CLK := clkPin, SPI_CS := csPin, maxDevices := numDevices,
      status := status0, spidata := spidata0, log := [], fault := false }
  let s := emit s (.pinMode s.SPI_MOSI)
  let s := emit s (.pinMode s.SPI_CLK)
  let s := emit s (.pinMode s.SPI_CS)
  let s := emit s (.digitalWrite s.SPI_CS true)
  let s := { s with SPI_MOSI := dataPin }
  (List.range 64).map (fun (i : Nat) => Access.stStatus (i : Int))
    ++ loopAccesses
      (fun s (i : Nat) =>
        let s := spiTransfer s (i : Int) OP_DISPLAYTEST 0
        let s := setScanLimit s (i : Int) 7
        let s := spiTransfer s (i : Int) OP_DECODEMODE 0
        let s := clearDisplay s (i : Int)
        shutdown s (i : Int) true)
      (fun s (i : Nat) =>
        spiTransferAccesses s.maxDevices (i : Int)
          ++ setScanLimitAccesses (spiTransfer s (i : Int) OP_DISPLAYTEST 0) (i : Int) 7
          ++ spiTransferAccesses
              (setScanLimit (spiTransfer s (i : Int) OP_DISPLAYTEST 0) (i : Int) 7).maxDevices
              (i : Int)
          ++ clearDisplayAccesses
              (spiTransfer (setScanLimit (spiTransfer s (i : Int) OP_DISPLAYTEST 0) (i : Int) 7)
                (i : Int) OP_DECODEMODE 0) (i : Int)
          ++ shutdownAccesses
              (clearDisplay
                (spiTransfer (setScanLimit (spiTransfer s (i : Int) OP_DISPLAYTEST 0) (i : Int) 7)
                  (i : Int) OP_DECODEMODE 0) (i : Int)) (i : Int) true)
      (List.range s.maxDevices.toNat)
      ((List.range 64).foldl (fun s (i : Nat) => stStatus s (i : Int) 0x00) s)

/-- An access is in bounds in a chain of `N` devices: a shadow index lies in
0..63, a transfer-buffer index lies below `2*N`, itself at most 16, and
`spiTransfer` is called for a device of the chain. -/
def InBounds (N : Int) : Access → Prop
  | .ldStatus i => 0 ≤ i ∧ i < 64
  | .stStatus i => 0 ≤ i ∧ i < 64
  | .ldSpidata i => 0 ≤ i ∧ i < 2 * N ∧ 2 * N ≤ 16
  | .stSpidata i => 0 ≤ i ∧ i < 2 * N ∧ 2 * N ≤ 16
  | .spiTransfer addr => 0 ≤ addr ∧ addr < N

instance (N : Int) (a : Access) : Decidable (InBounds N a) := by
  cases a <;> unfold InBounds <;> infer_instance

/-- The state `t`, reached from `s`, is good, has the device count of `s`, and
no store outside an array has happened on the way. -/
def Safe (s t : State) : Prop :=
  Good t ∧ t.maxDevices = s.maxDevices ∧ t.fault = s.fault

/-! ## Recorded runs

The driver once more, with every access to the arrays `status` and `spidata`
and every call of `spiTransfer` recorded at the place where it happens.  The
functions below are the functions of the source with the same control flow as
the ones above; they touch the two arrays through `stStatusT`, `ldStatusT`,
`stSpidataT` and `ldSpidataT` only, and each of these records the index it is
given before the bound of the array is looked at.  The state they compute is the
state the functions above compute (`callT_eq`, `LedControlT_eq`). -/

/-- A driver state and the accesses made so far, in program order. -/
structure Traced where
  state : State
  accesses : List Access
  deriving DecidableEq, Repr

/-- Record one access. -/
def record (t : Traced) (x : Access) : Traced :=
  { t with accesses := t.accesses ++ [x] }

/-- Store `status[i] = v`, recorded. -/
def stStatusT (t : Traced) (i : Int) (v : Nat) : Traced :=
  record { t with state := stStatus t.state i v } (Access.stStatus i)

/-- Load `status[i]`, recorded: the value and the run after the load. -/
def ldStatusT (t : Traced) (i : Int) : Nat × Traced :=
  (ldStatus t.state i, record t (Access.ldStatus i))

/-- Store `spidata[i] = v`, recorded. -/
def stSpidataT (t : Traced) (i : Int) (v : Nat) : Traced :=
  record { t with state := stSpidata t.state i v } (Access.stSpidata i)

/-- Load `spidata[i]`, recorded: the value and the run after the load. -/
def ldSpidataT (t : Traced) (i : Int) : Nat × Traced :=
  (ldSpidata t.state i, record t (Access.ldSpidata i))

/-- Record a call to an Arduino primitive; no array is touched. -/
def emitT (t : Traced) (e : Event) : Traced :=
  { t with state := emit t.state e }

/-- `LedControl::spiTransfer`, recorded: the call itself on entry, then every
store of the first loop, the two stores of the command and every load of the
second loop. -/
def spiTransferT (t : Traced) (addr : Int) (opcode data : Nat) : Traced :=
  let t := record t (Access.spiTransfer addr)
  let offset := addr * 2
  let maxbytes := t.state.maxDevices * 2
  let t := (List.range maxbytes.toNat).foldl (fun t (i : Nat) => stSpidataT t (i : Int) 0) t
  let t := stSpidataT t (offset + 1) opcode
  let t := stSpidataT t offset data
  let t := emitT t (.digitalWrite t.state.SPI_CS false)
  let t := ((List.range' 1 maxbytes.toNat).reverse).foldl
    (fun t (i : Nat) =>
      let r := ldSpidataT t ((i : Int) - 1)
      emitT r.2 (.shiftOut r.2.state.SPI_MOSI r.2.state.SPI_CLK r.1)) t
  emitT t (.digitalWrite t.state.SPI_CS true)

/-- `LedControl::shutdown`, recorded. -/
def shutdownT (t : Traced) (addr : Int) (b : Bool) : Traced :=
  if addr < 0 ∨ addr ≥ t.state.maxDevices then t
  else if b then spiTransferT t addr OP_SHUTDOWN 0
  else spiTransferT t addr OP_SHUTDOWN 1

/-- `LedControl::setScanLimit`, recorded. -/
def setScanLimitT (t : Traced) (addr limit : Int) : Traced :=
  if addr < 0 ∨ addr ≥ t.state.maxDevices then t
  else if limit ≥ 0 ∨ limit < 8 then spiTransferT t addr OP_SCANLIMIT (toByte limit)
  else t

/-- `LedControl::setIntensity`, recorded. -/
def setIntensityT (t : Traced) (addr intensity : Int) : Traced :=
  if addr < 0 ∨ addr ≥ t.state.maxDevices then t
  else if intensity ≥ 0 ∨ intensity < 16 then spiTransferT t addr OP_INTENSITY (toByte intensity)
  else t

/-- `LedControl::clearDisplay`, recorded: in each round the store
`status[offset+i]=0`, the load of the argument `status[offset+i]`, the call. -/
def clearDisplayT (t : Traced) (addr : Int) : Traced :=
  if addr < 0 ∨ addr ≥ t.state.maxDevices then t
  else
    let offset := addr * 8
    (List.range 8).foldl (fun t (i : Nat) =>
      let t := stStatusT t (offset + (i : Int)) 0
      let r := ldStatusT t (offset + (i : Int))
      spiTransferT r.2 addr (toByte ((i : Int) + 1)) r.1) t

/-- `LedControl::setLed`, recorded: the load and the store of
`status[offset+row]` in either branch, the load of the argument, the call. -/
def setLedT (t : Traced) (addr row column : Int) (state : Bool) : Traced :=
  if addr < 0 ∨ addr ≥ t.state.maxDevices then t
  else if row < 0 ∨ row > 7 ∨ column < 0 ∨ column > 7 then t
  else
    let offset := addr * 8
    let val := (0x80 >>> column.toNat) % 256
    let t :=
      if state then
        let r := ldStatusT t (offset + row)
        stStatusT r.2 (offset + row) ((r.1 ||| val) % 256)
      else
        let val := val ^^^ 0xFF
        let r := ldStatusT t (offset + row)
        stStatusT r.2 (offset + row) ((r.1 &&& val) % 256)
    let r := ldStatusT t (offset + row)
    spiTransferT r.2 addr (toByte (row + 1)) r.1

/-- `LedControl::setRow`, recorded: the store, the load of the argument, the
call. -/
def setRowT (t : Traced) (addr row : Int) (value : Nat) : Traced :=
  if addr < 0 ∨ addr ≥ t.state.maxDevices then t
  else if row < 0 ∨ row > 7 then t
  else
    let offset := addr * 8
    let t := stStatusT t (offset + row) value
    let r := ldStatusT t (offset + row)
    spiTransferT r.2 addr (toByte (row + 1)) r.1

/-- `LedControl::setColumn`, recorded. -/
def setColumnT (t : Traced) (addr col : Int) (value : Nat) : Traced :=
  if addr < 0 ∨ addr ≥ t.state.maxDevices then t
  else if col < 0 ∨ col > 7 then t
  else
    (List.range 8).foldl (fun t (row : Nat) =>
      let val := (value >>> (7 - row)) % 256
      let val := val &&& 0x01
      setLedT t addr (row : Int) col (val != 0)) t

/-- `LedControl::setDigit`, recorded; the table `charTable` is not one of the
two arrays. -/
def setDigitT (charTable : Nat → Nat) (t : Traced) (addr digit : Int) (value : Nat)
    (dp : Bool) : Traced :=
  if addr < 0 ∨ addr ≥ t.state.maxDevices then t
  else if digit < 0 ∨ digit > 7 ∨ value > 15 then t
  else
    let offset := addr * 8
    let v := charTable value
    let v := if dp then (v ||| 0x80) % 256 else v
    let t := stStatusT t (offset + digit) v
    spiTransferT t addr (toByte (digit + 1)) v

/-- `LedControl::setChar`, recorded. -/
def setCharT (charTable : Nat → Nat) (t : Traced) (addr digit : Int) (value : Int)
    (dp : Bool) : Traced :=
  if addr < 0 ∨ addr ≥ t.state.maxDevices then t
  else if digit < 0 ∨ digit > 7 then t
  else
    let offset := addr * 8
    let index := toByte value
    let _value : Int := if index > 127 then 32 else value
    let v := charTable index
    let v := if dp then (v ||| 0x80) % 256 else v
    let t := stStatusT t (offset + digit) v
    spiTransferT t addr (toByte (digit + 1)) v

/-- `LedControl::LedControl`, recorded from the first statement on. -/
def LedControlT (status0 spidata0 : List Nat) (dataPin clkPin csPin numDevices : Int) :
    Traced :=
  let numDevices := if numDevices ≤ 0 ∨ numDevices > 8 then 8 else numDevices
  let s : State :=
    { SPI_MOSI := dataPin, SPI_CLK := clkPin, SPI_CS := csPin, maxDevices := numDevices,
      status := status0, spidata := spidata0, log := [], fault := false }
  let t : Traced := { state := s, accesses := [] }
  let t := emitT t (.pinMode t.state.SPI_MOSI)
  let t := emitT t (.pinMode t.state.SPI_CLK)
  let t := emitT t (.pinMode t.state.SPI_CS)
  let t := emitT t (.digitalWrite t.state.SPI_CS true)
  let t := { t with state := { t.state with SPI_MOSI := dataPin } }
  let t := (List.range 64).foldl (fun t (i : Nat) => stStatusT t (i : Int) 0x00) t
  (List.range t.state.maxDevices.toNat).foldl (fun t (i : Nat) =>
    let t := spiTransferT t (i : Int) OP_DISPLAYTEST 0
    let t := setScanLimitT t (i : Int) 7
    let t := spiTransferT t (i : Int) OP_DECODEMODE 0
    let t := clearDisplayT t (i : Int)
    shutdownT t (i : Int) true) t

/-- `LedControl::printChar`, recorded; the local array `sRow` is not one of the
two arrays. -/
def printCharT (sRow0 : List Nat) (t : Traced) (addr pos : Int) (c : Int) : Traced :=
  let sRow := sRow0.set 0 0x00
  let sRow := sRow.set 6 0x00
  let sRow :=
    match glyphCases.lookup c with
    | some g => ((((sRow.set 1 g.r1).set 2 g.r2).set 3 g.r3).set 4 g.r4).set 5 g.r5
    | none => sRow
  (List.range 7).foldl (fun t (i : Nat) => setRowT t addr (pos + (i : Int)) (sRow.getD i 0)) t

/-- The loop of `LedControl::printString`, recorded. -/
def printStringLoopT (sRow0 : Nat → List Nat) (addr pos : Int) :
    List Int → Nat → Traced → Traced
  | [], _, t => t
  | ch :: rest, i, t =>
    if ch = 0 then t
    else printStringLoopT sRow0 addr pos rest (i + 1)
      (printCharT (sRow0 i) t addr (6 * (i : Int) + pos) ch)

/-- `LedControl::printString`, recorded. -/
def printStringT (sRow0 : Nat → List Nat) (t : Traced) (addr pos : Int)
    (string : List Int) : Traced :=
  printStringLoopT sRow0 addr pos string 0 t

/-- `LedControl::printStringScroll`, recorded. -/
def printStringScrollT (sRow0 : Nat → Nat → List Nat) (t : Traced) (addr pos : Int)
    (string : List Int) (tDelay : Int) (sentido : Int) : Traced :=
  let c : Int := (countChars string : Int)
  if sentido = 60 then
    (List.range ((c * 6) + 1).toNat).foldl (fun t (i : Nat) =>
      let t := printStringT (sRow0 i) t addr (-(i : Int) + pos) string
      emitT t (.delay tDelay)) t
  else if sentido = 62 then
    (List.range ((c * 6) + 1).toNat).foldl (fun t (i : Nat) =>
      let t := printStringT (sRow0 i) t addr ((-(c * 6) + (i : Int)) + pos) string
      emitT t (.delay tDelay)) t
  else t

/-- A call of a public operation, recorded. -/
def callT (charTable : Nat → Nat) (t : Traced) : Call → Traced
  | .shutdown addr b => shutdownT t addr b
  | .setScanLimit addr limit => setScanLimitT t addr limit
  | .setIntensity addr intensity => setIntensityT t addr intensity
  | .clearDisplay addr => clearDisplayT t addr
  | .setLed addr row column state => setLedT t addr row column state
  | .setRow addr row value => setRowT t addr row value
  | .setColumn addr col value => setColumnT t addr col value
  | .setDigit addr digit value dp => setDigitT charTable t addr digit value dp
  | .setChar addr digit value dp => setCharT charTable t addr digit value dp
  | .printChar sRow0 addr pos c => printCharT sRow0 t addr pos c
  | .printString sRow0 addr pos string => printStringT sRow0 t addr pos string
  | .printStringScroll sRow0 addr pos string tDelay sentido =>
    printStringScrollT sRow0 t addr pos string tDelay sentido

/-- The run that starts in state `s` with nothing recorded. -/
def startRun (s : State) : Traced := { state := s, accesses := [] }

/-! ## Basic facts about the state primitives -/

@[simp] theorem emit_log (s : State) (e : Event) : (emit s e).log = s.log ++ [e] := rfl
@[simp] theorem emit_status (s : State) (e : Event) : (emit s e).status = s.status := rfl
@[simp] theorem emit_spidata (s : State) (e : Event) : (emit s e).spidata = s.spidata := rfl
@[simp] theorem emit_maxDevices (s : State) (e : Event) :
    (emit s e).maxDevices = s.maxDevices := rfl
@[simp] theorem emit_fault (s : State) (e : Event) : (emit s e).fault = s.fault := rfl
@[simp] theorem emit_MOSI (s : State) (e : Event) : (emit s e).SPI_MOSI = s.SPI_MOSI := rfl
@[simp] theorem emit_CLK (s : State) (e : Event) : (emit s e).SPI_CLK = s.SPI_CLK := rfl
@[simp] theorem emit_CS (s : State) (e : Event) : (emit s e).SPI_CS = s.SPI_CS := rfl
@[simp] theorem ldSpidata_emit (s : State) (e : Event) (j : Int) :
    ldSpidata (emit s e) j = ldSpidata s j := rfl

theorem list_set_zero_head (l : List Nat) (n : Nat) (h : n < l.length) :
    (List.replicate n 0 ++ l.drop n).set n 0 = List.replicate (n + 1) 0 ++ l.drop (n + 1) := by
  apply List.ext_getElem?
  intro k
  simp only [List.getElem?_set, List.getElem?_append, List.length_replicate,
    List.getElem?_replicate, List.getElem?_drop, List.length_append, List.length_drop]
  by_cases h1 : n = k
  · subst h1
    simp
    omega
  · by_cases h2 : k < n
    · have : k < n + 1 := by omega
      simp [h1, h2, this]
    · have h3 : ¬ k < n + 1 := by omega
      simp only [h1, h2, h3, if_false]
      congr 1
      omega

/-- The first loop of `spiTransfer` zeroes the first `n` bytes of the buffer. -/
theorem foldl_stSpidata_zero (n : Nat) (s : State) (hn : n ≤ 16)
    (hl : s.spidata.length = 16) :
    (List.range n).foldl (fun s (i : Nat) => stSpidata s (i : Int) 0) s
      = { s with spidata := List.replicate n 0 ++ s.spidata.drop n } := by
  induction n with
  | zero => simp
  | succ n ih =>
    rw [List.range_succ, List.foldl_append, ih (by omega)]
    simp only [List.foldl_cons, List.foldl_nil, stSpidata]
    have h1 : (0 : Int) ≤ (n : Int) ∧ (n : Int) < 16 := by omega
    rw [if_pos h1]
    simp only [Int.toNat_ofNat]
    rw [list_set_zero_head _ _ (by omega)]

/-- The second loop of `spiTransfer` only appends to the log. -/
theorem foldl_shiftOut (l : List Nat) (s : State) :
    l.foldl (fun s (i : Nat) =>
        emit s (.shiftOut s.SPI_MOSI s.SPI_CLK (ldSpidata s ((i : Int) - 1)))) s
      = { s with log := s.log ++ l.map (fun (i : Nat) =>
          Event.shiftOut s.SPI_MOSI s.SPI_CLK (ldSpidata s ((i : Int) - 1))) } := by
  induction l generalizing s with
  | nil => simp
  | cons a l ih =>
    rw [List.foldl_cons, ih]
    simp only [emit_log, emit_MOSI, emit_CLK, emit_CS, ldSpidata_emit, List.map_cons,
      List.append_assoc, List.singleton_append]
    rfl

theorem frame_rev (s : State) (addr : Int) (opcode data : Nat)
    (hl : s.spidata.length = 16) (h1 : 1 ≤ s.maxDevices) (h8 : s.maxDevices ≤ 8)
    (ha0 : 0 ≤ addr) (ha : addr < s.maxDevices) :
    (List.range' 1 (s.maxDevices * 2).toNat).reverse.map
        (fun (i : Nat) => ldSpidata { s with spidata := filled s addr opcode data } ((i : Int) - 1))
      = frame s.maxDevices addr opcode data := by
  obtain ⟨n, hn⟩ : ∃ n : ℕ, s.maxDevices = n := ⟨s.maxDevices.toNat, by omega⟩
  lift addr to ℕ using ha0
  unfold frame filled
  rw [hn] at h1 h8 ha ⊢
  have e1 : ((n : Int) * 2).toNat = 2 * n := by omega
  have e2 : (2 * (n : Int)).toNat = 2 * n := by omega
  have e3 : ((addr : Int) * 2 + 1).toNat = 2 * addr + 1 := by omega
  have e4 : ((addr : Int) * 2).toNat = 2 * addr := by omega
  rw [e1, e2, e3, e4]
  apply List.ext_getElem
  · simp
  · intro k hk1 hk2
    simp only [List.length_map, List.length_range] at hk2
    simp only [List.getElem_map, List.getElem_reverse, List.getElem_range', List.getElem_range,
      List.length_range', ldSpidata, Nat.one_mul]
    have hk : (0 : Int) ≤ ((1 + (2 * n - 1 - k) : Nat) : Int) - 1 ∧
        ((1 + (2 * n - 1 - k) : Nat) : Int) - 1 < 16 := by omega
    rw [if_pos hk]
    have e5 : (((1 + (2 * n - 1 - k) : Nat) : Int) - 1).toNat = 2 * n - 1 - k := by omega
    rw [e5, List.getD_eq_getElem?_getD, List.getElem?_set, List.getElem?_set,
      List.getElem?_append_left (by simp; omega), List.getElem?_replicate]
    simp only [List.length_set, List.length_append, List.length_replicate, List.length_drop]
    have c7 : 2 * n - 1 - k < 2 * n + (s.spidata.length - 2 * n) := by omega
    by_cases c1 : (k : Int) = 2 * ((n : Int) - 1 - addr)
    · have : 2 * addr + 1 = 2 * n - 1 - k := by omega
      have c2 : ¬ 2 * addr = 2 * n - 1 - k := by omega
      simp [c1, c2, this, c7]
    · by_cases c3 : (k : Int) = 2 * ((n : Int) - 1 - addr) + 1
      · have : 2 * addr = 2 * n - 1 - k := by omega
        simp [c1, c3, this, c7]
      · have c4 : ¬ 2 * addr = 2 * n - 1 - k := by omega
        have c5 : ¬ 2 * addr + 1 = 2 * n - 1 - k := by omega
        have c6 : 2 * n - 1 - k < 2 * n := by omega
        simp [c1, c3, c4, c5, c6]

/-- The whole effect of `spiTransfer` for a device of the chain: the buffer is
refilled and one transaction is appended to the log. -/
theorem spiTransfer_eq (s : State) (addr : Int) (opcode data : Nat)
    (hl : s.spidata.length = 16) (h1 : 1 ≤ s.maxDevices) (h8 : s.maxDevices ≤ 8)
    (ha0 : 0 ≤ addr) (ha : addr < s.maxDevices) :
    spiTransfer s addr opcode data
      = { s with spidata := filled s addr opcode data,
                 log := s.log ++ transaction s addr opcode data } := by
  unfold spiTransfer
  simp only []
  rw [foldl_stSpidata_zero _ _ (by omega) hl]
  have b1 : (0 : Int) ≤ addr * 2 + 1 ∧ addr * 2 + 1 < 16 := by omega
  have b2 : (0 : Int) ≤ addr * 2 ∧ addr * 2 < 16 := by omega
  simp only [stSpidata, if_pos b1, if_pos b2]
  rw [foldl_shiftOut]
  have := frame_rev s addr opcode data hl h1 h8 ha0 ha
  simp only [emit, transaction, ← this, List.map_map, filled, List.append_assoc]
  rfl

/-! ## Effects of the operations -/

theorem getD_set (l : List Nat) (n k v : Nat) :
    (l.set n v).getD k 0 = if n = k ∧ n < l.length then v else l.getD k 0 := by
  simp only [List.getD_eq_getElem?_getD, List.getElem?_set]
  by_cases h : n = k
  · subst h
    by_cases h2 : n < l.length
    · simp [h2]
    · simp [h2, List.getElem?_eq_none (Nat.le_of_not_lt h2)]
  · simp [h]

theorem ldStatus_congr (s t : State) (h : t.status = s.status) (i : Int) :
    ldStatus t i = ldStatus s i := by
  simp [ldStatus, h]

theorem transaction_congr (s t : State) (h1 : t.SPI_MOSI = s.SPI_MOSI)
    (h2 : t.SPI_CLK = s.SPI_CLK) (h3 : t.SPI_CS = s.SPI_CS)
    (h4 : t.maxDevices = s.maxDevices) (addr : Int) (opcode data : Nat) :
    transaction t addr opcode data = transaction s addr opcode data := by
  simp [transaction, h1, h2, h3, h4]

theorem Eff.rfl (s : State) (hl : s.spidata.length = 16) : Eff s s s.status [] := by
  simp [Eff, hl]

theorem Eff.trans {s t u : State} {st st2 : List Nat} {ev ev2 : List Event}
    (h1 : Eff s t st ev) (h2 : Eff t u st2 ev2) : Eff s u st2 (ev ++ ev2) := by
  obtain ⟨a1, a2, a3, a4, _, _, a7, a8⟩ := h1
  obtain ⟨b1, b2, b3, b4, b5, b6, b7, b8⟩ := h2
  refine ⟨?_, ?_, ?_, ?_, b5, b6, ?_, ?_⟩
  · rw [b1, a1]
  · rw [b2, a2]
  · rw [b3, a3]
  · rw [b4, a4]
  · rw [b7, a7, List.append_assoc]
  · rw [b8, a8]

theorem Eff.transaction_eq {s t : State} {st : List Nat} {ev : List Event}
    (h : Eff s t st ev) (addr : Int) (opcode data : Nat) :
    transaction t addr opcode data = transaction s addr opcode data :=
  transaction_congr s t h.1 h.2.1 h.2.2.1 h.2.2.2.1 addr opcode data

theorem filled_length (s : State) (addr : Int) (opcode data : Nat)
    (hl : s.spidata.length = 16) (h1 : 1 ≤ s.maxDevices) (h8 : s.maxDevices ≤ 8) :
    (filled s addr opcode data).length = 16 := by
  simp only [filled, List.length_set, List.length_append, List.length_replicate,
    List.length_drop, hl]
  omega

theorem spiTransfer_eff (s : State) (addr : Int) (opcode data : Nat)
    (hl : s.spidata.length = 16) (h1 : 1 ≤ s.maxDevices) (h8 : s.maxDevices ≤ 8)
    (ha0 : 0 ≤ addr) (ha : addr < s.maxDevices) :
    Eff s (spiTransfer s addr opcode data) s.status (transaction s addr opcode data) := by
  rw [spiTransfer_eq s addr opcode data hl h1 h8 ha0 ha]
  unfold Eff
  simp [filled_length s addr opcode data hl h1 h8]

/-- The pattern `status[offset+row]=v; spiTransfer(addr,opcode,status[offset+row])`. -/
theorem store_transfer_eff (s : State) (addr row : Int) (opcode v : Nat)
    (hs : s.status.length = 64) (hl : s.spidata.length = 16)
    (h1 : 1 ≤ s.maxDevices) (h8 : s.maxDevices ≤ 8)
    (ha0 : 0 ≤ addr) (ha : addr < s.maxDevices) (hr0 : 0 ≤ row) (hr : row ≤ 7) :
    Eff s (spiTransfer (stStatus s (addr * 8 + row) v) addr opcode
            (ldStatus (stStatus s (addr * 8 + row) v) (addr * 8 + row)))
      (s.status.set (addr * 8 + row).toNat v) (transaction s addr opcode v) := by
  have hi : (0 : Int) ≤ addr * 8 + row ∧ addr * 8 + row < 64 := by omega
  have e : stStatus s (addr * 8 + row) v
      = { s with status := s.status.set (addr * 8 + row).toNat v } := by
    simp [stStatus, hi]
  have hv : ldStatus (stStatus s (addr * 8 + row) v) (addr * 8 + row) = v := by
    rw [e]
    have hlt : (addr * 8 + row).toNat < s.status.length := by omega
    simp [ldStatus, hi, getD_set, hlt]
  rw [hv, e]
  have := spiTransfer_eff { s with status := s.status.set (addr * 8 + row).toNat v }
    addr opcode v hl h1 h8 ha0 ha
  exact this

theorem setRow_eff (s : State) (addr row : Int) (value : Nat)
    (hs : s.status.length = 64) (hl : s.spidata.length = 16)
    (h1 : 1 ≤ s.maxDevices) (h8 : s.maxDevices ≤ 8)
    (ha0 : 0 ≤ addr) (ha : addr < s.maxDevices) (hr0 : 0 ≤ row) (hr : row ≤ 7) :
    Eff s (setRow s addr row value) (s.status.set (addr * 8 + row).toNat value)
      (transaction s addr (row + 1).toNat value) := by
  have g1 : ¬ (addr < 0 ∨ addr ≥ s.maxDevices) := by omega
  have g2 : ¬ (row < 0 ∨ row > 7) := by omega
  have e : toByte (row + 1) = (row + 1).toNat := by unfold toByte; omega
  simp only [setRow, if_neg g1, if_neg g2, e]
  exact store_transfer_eff s addr row _ value hs hl h1 h8 ha0 ha hr0 hr

/-- The byte `setLed` stores for a row that holds `b`. -/
theorem setLed_eff (s : State) (addr row column : Int) (state : Bool)
    (hs : s.status.length = 64) (hl : s.spidata.length = 16)
    (h1 : 1 ≤ s.maxDevices) (h8 : s.maxDevices ≤ 8)
    (ha0 : 0 ≤ addr) (ha : addr < s.maxDevices) (hr0 : 0 ≤ row) (hr : row ≤ 7)
    (hc0 : 0 ≤ column) (hc : column ≤ 7) :
    Eff s (setLed s addr row column state)
      (s.status.set (addr * 8 + row).toNat (ledByte (shadow s addr row) column.toNat state))
      (transaction s addr (row + 1).toNat (ledByte (shadow s addr row) column.toNat state)) := by
  have g1 : ¬ (addr < 0 ∨ addr ≥ s.maxDevices) := by omega
  have g2 : ¬ (row < 0 ∨ row > 7 ∨ column < 0 ∨ column > 7) := by omega
  have e : toByte (row + 1) = (row + 1).toNat := by unfold toByte; omega
  simp only [setLed, if_neg g1, if_neg g2, e]
  cases state
  · exact store_transfer_eff s addr row _ _ hs hl h1 h8 ha0 ha hr0 hr
  · exact store_transfer_eff s addr row _ _ hs hl h1 h8 ha0 ha hr0 hr

/-! ## Bits of a shadow byte -/

theorem mask_eq (c : Nat) (hc : c ≤ 7) : (0x80 >>> c) % 256 = 2 ^ (7 - c) := by
  interval_cases c <;> rfl

theorem mask_eq_shift (c : Nat) (hc : c ≤ 7) : 0x80 >>> c = 2 ^ (7 - c) := by
  interval_cases c <;> rfl

theorem and_two_pow_ne_zero (x k : Nat) : x &&& 2 ^ k ≠ 0 ↔ x.testBit k = true := by
  constructor
  · intro h
    by_contra hx
    apply h
    apply Nat.eq_of_testBit_eq
    intro i
    simp only [Nat.testBit_and, Nat.testBit_two_pow, Nat.zero_testBit]
    by_cases hk : k = i
    · subst hk
      simp [hx]
    · simp [hk]
  · intro h h0
    have := congrArg (fun y => y.testBit k) h0
    simp [Nat.testBit_and, Nat.testBit_two_pow, h] at this

theorem testBit_byte_high (b j : Nat) (hb : b < 256) (hj : 8 ≤ j) : b.testBit j = false := by
  apply Nat.testBit_lt_two_pow
  calc b < 2 ^ 8 := hb
    _ ≤ 2 ^ j := Nat.pow_le_pow_right (by decide) hj

theorem testBit_mod_256 (x j : Nat) :
    (x % 256).testBit j = (decide (j < 8) && x.testBit j) :=
  Nat.testBit_mod_two_pow x 8 j

theorem testBit_255 (j : Nat) : Nat.testBit 255 j = decide (j < 8) :=
  Nat.testBit_two_pow_sub_one 8 j

theorem ledByte_testBit (b c j : Nat) (state : Bool) (hb : b < 256) (hc : c ≤ 7) :
    (ledByte b c state).testBit j = if j = 7 - c then state else b.testBit j := by
  unfold ledByte
  rw [mask_eq c hc]
  by_cases hj8 : j < 8
  · by_cases hj : j = 7 - c
    · subst hj
      cases state <;> simp [Nat.testBit_two_pow, hj8, testBit_mod_256, testBit_255]
    · have hj2 : ¬ (7 - c = j) := fun h => hj h.symm
      cases state <;> simp [Nat.testBit_two_pow, hj8, hj, hj2, testBit_mod_256, testBit_255]
  · have hh := testBit_byte_high b j hb (by omega)
    have hj : ¬ j = 7 - c := by omega
    cases state <;> simp [hj8, hj, hh, testBit_mod_256, testBit_255]

theorem ledByte_lt (b c : Nat) (state : Bool) : ledByte b c state < 256 := by
  unfold ledByte
  split <;> exact Nat.mod_lt _ (by decide)

theorem ledByte_mask (b c : Nat) (state : Bool) (hb : b < 256) (hc : c ≤ 7) :
    ledByte b c state &&& (0x80 >>> c) ≠ 0 ↔ state = true := by
  rw [mask_eq_shift c hc, and_two_pow_ne_zero, ledByte_testBit b c _ state hb hc]
  simp

theorem ledByte_off_on (b c : Nat) (hb : b < 256) (hc : c ≤ 7) :
    ledByte (ledByte b c true) c false = b &&& ((0x80 >>> c) ^^^ 0xFF) := by
  apply Nat.eq_of_testBit_eq
  intro j
  rw [ledByte_testBit _ c j false (ledByte_lt b c true) hc, ledByte_testBit b c j true hb hc,
    mask_eq_shift c hc]
  by_cases hj : j = 7 - c
  · subst hj
    have : 7 - c < 8 := by omega
    simp [Nat.testBit_two_pow, testBit_255, this]
  · have hj2 : ¬ (7 - c = j) := fun h => hj h.symm
    by_cases hj8 : j < 8
    · simp [Nat.testBit_two_pow, hj, hj2, hj8, testBit_255]
    · simp [Nat.testBit_two_pow, hj, hj2, hj8, testBit_255,
        testBit_byte_high b j hb (by omega)]

theorem ledByte_off_on_of_clear (b c : Nat) (hb : b < 256) (hc : c ≤ 7)
    (h0 : b &&& (0x80 >>> c) = 0) : ledByte (ledByte b c true) c false = b := by
  apply Nat.eq_of_testBit_eq
  intro j
  rw [ledByte_testBit _ c j false (ledByte_lt b c true) hc, ledByte_testBit b c j true hb hc]
  by_cases hj : j = 7 - c
  · subst hj
    have : ¬ (b &&& 2 ^ (7 - c) ≠ 0) := by
      rw [← mask_eq_shift c hc]
      simpa using h0
    rw [and_two_pow_ne_zero] at this
    simp at this
    simp [this]
  · simp [hj]

/-! ## Reading the shadow array -/

theorem ldStatus_set (s t : State) (n v : Nat) (ht : t.status = s.status.set n v)
    (hs : s.status.length = 64) (hn : n < 64) (i : Int) :
    ldStatus t i = if i = (n : Int) then v else ldStatus s i := by
  unfold ldStatus
  rw [ht]
  by_cases hi : 0 ≤ i ∧ i < 64
  · rw [if_pos hi, if_pos hi, getD_set]
    by_cases hin : i = (n : Int)
    · have : n = i.toNat ∧ n < s.status.length := by omega
      rw [if_pos this, if_pos hin]
    · have : ¬ (n = i.toNat ∧ n < s.status.length) := by omega
      rw [if_neg this, if_neg hin]
  · have hin : ¬ i = (n : Int) := by omega
    rw [if_neg hi, if_neg hi, if_neg hin]

theorem ldStatus_lt (s : State) (hb : ∀ b ∈ s.status, b < 256) (i : Int) :
    ldStatus s i < 256 := by
  unfold ldStatus
  split
  · rw [List.getD_eq_getElem?_getD]
    cases h : s.status[i.toNat]? with
    | none => simp
    | some b =>
      simp only [Option.getD_some]
      exact hb b (List.getElem?_mem h)
  · decide

theorem WF.shadow_lt {s : State} (hwf : WF s) (addr row : Int) : shadow s addr row < 256 :=
  ldStatus_lt s hwf.2.2.1 _

/-- A state reached by storing one byte in the shadow array is well formed. -/
theorem WF.of_eff_set {s t : State} {n v : Nat} {ev : List Event} (hwf : WF s)
    (h : Eff s t (s.status.set n v) ev) (hv : v < 256) : WF t := by
  obtain ⟨hs, _, hb, h1, h8⟩ := hwf
  obtain ⟨_, _, _, e4, e5, e6, _, _⟩ := h
  refine ⟨?_, e6, ?_, ?_, ?_⟩
  · rw [e5, List.length_set, hs]
  · intro b hmem
    rw [e5] at hmem
    rcases List.mem_or_eq_of_mem_set hmem with h | h
    · exact hb b h
    · rw [h]; exact hv
  · rw [e4]; exact h1
  · rw [e4]; exact h8

theorem toNat_index (addr row : Int) (ha0 : 0 ≤ addr) (hr0 : 0 ≤ row) :
    (((addr * 8 + row).toNat : Nat) : Int) = addr * 8 + row := by
  omega

/-! ## Loops over the rows of a device -/

theorem storeRows_length (l : List Nat) (b : Nat) (v : Nat → Nat) (n : Nat) :
    (storeRows l b v n).length = l.length := by
  induction n with
  | zero => rfl
  | succ n ih => rw [storeRows, List.length_set, ih]

theorem storeRows_getD (l : List Nat) (b : Nat) (v : Nat → Nat) (n k : Nat) :
    (storeRows l b v n).getD k 0
      = if b ≤ k ∧ k < b + n ∧ k < l.length then v (k - b) else l.getD k 0 := by
  induction n with
  | zero =>
    have h : ¬ (b ≤ k ∧ k < b + 0 ∧ k < l.length) := by omega
    rw [if_neg h]
    rfl
  | succ n ih =>
    rw [storeRows, getD_set, ih, storeRows_length]
    by_cases h1 : b + n = k ∧ b + n < l.length
    · have h2 : b ≤ k ∧ k < b + (n + 1) ∧ k < l.length := by omega
      have h3 : k - b = n := by omega
      rw [if_pos h1, if_pos h2, h3]
    · rw [if_neg h1]
      by_cases h4 : b ≤ k ∧ k < b + n ∧ k < l.length
      · have h2 : b ≤ k ∧ k < b + (n + 1) ∧ k < l.length := by omega
        rw [if_pos h4, if_pos h2]
      · have h2 : ¬ (b ≤ k ∧ k < b + (n + 1) ∧ k < l.length) := by omega
        rw [if_neg h4, if_neg h2]

theorem storeRows_lt (l : List Nat) (b : Nat) (v : Nat → Nat) (n : Nat)
    (hl : ∀ x ∈ l, x < 256) (hv : ∀ j, v j < 256) : ∀ x ∈ storeRows l b v n, x < 256 := by
  induction n with
  | zero => exact hl
  | succ n ih =>
    intro x hx
    rw [storeRows] at hx
    rcases List.mem_or_eq_of_mem_set hx with h | h
    · exact ih x h
    · rw [h]; exact hv n

/-- A loop of `n` steps, step `i` taking the state with shadow array `st i` and
events `ev i` to the one with `st (i+1)` and `ev (i+1)`. -/
theorem foldl_eff (s : State) (body : State → Nat → State) (st : Nat → List Nat)
    (ev : Nat → List Event) (n : Nat) (hl : s.spidata.length = 16)
    (hst : st 0 = s.status) (hev : ev 0 = [])
    (hstep : ∀ i, i < n → ∀ t, Eff s t (st i) (ev i) → Eff s (body t i) (st (i + 1)) (ev (i + 1))) :
    Eff s ((List.range n).foldl body s) (st n) (ev n) := by
  induction n with
  | zero =>
    simp only [List.range_zero, List.foldl_nil, hst, hev]
    exact Eff.rfl s hl
  | succ n ih =>
    rw [List.range_succ, List.foldl_append]
    simp only [List.foldl_cons, List.foldl_nil]
    exact hstep n (Nat.lt_succ_self n) _ (ih (fun i hi t ht => hstep i (Nat.lt_succ_of_lt hi) t ht))

/-- One step that stores `v` in row `i` of device `addr` and sends it, made in a
state reached from `s`. -/
theorem store_transfer_step (s t : State) (addr : Int) (i v : Nat) (st : List Nat)
    (ev : List Event) (h : Eff s t st ev) (hs : st.length = 64)
    (h1 : 1 ≤ s.maxDevices) (h8 : s.maxDevices ≤ 8)
    (ha0 : 0 ≤ addr) (ha : addr < s.maxDevices) (hi : i ≤ 7) :
    Eff s (spiTransfer (stStatus t (addr * 8 + (i : Int)) v) addr (toByte ((i : Int) + 1))
            (ldStatus (stStatus t (addr * 8 + (i : Int)) v) (addr * 8 + (i : Int))))
      (st.set ((addr * 8).toNat + i) v) (ev ++ transaction s addr (i + 1) v) := by
  have hm := h.2.2.2.1
  have e1 : toByte ((i : Int) + 1) = i + 1 := by unfold toByte; omega
  have e2 : (addr * 8 + (i : Int)).toNat = (addr * 8).toNat + i := by omega
  have hstep := store_transfer_eff t addr (i : Int) (i + 1) v (by rw [h.2.2.2.2.1]; exact hs)
    h.2.2.2.2.2.1 (by rw [hm]; exact h1) (by rw [hm]; exact h8) ha0 (by rw [hm]; exact ha)
    (by omega) (by omega)
  rw [h.transaction_eq, h.2.2.2.2.1, e2] at hstep
  rw [e1]
  exact h.trans hstep

theorem ldStatus_storeRows (s t : State) (b n : Nat) (v : Nat → Nat)
    (ht : t.status = storeRows s.status b v n) (hs : s.status.length = 64)
    (hbn : b + n ≤ 64) (i : Int) :
    ldStatus t i
      = if (b : Int) ≤ i ∧ i < (b : Int) + n then v (i.toNat - b) else ldStatus s i := by
  unfold ldStatus
  rw [ht, storeRows_getD]
  by_cases hi : 0 ≤ i ∧ i < 64
  · rw [if_pos hi, if_pos hi]
    by_cases hin : (b : Int) ≤ i ∧ i < (b : Int) + n
    · have : b ≤ i.toNat ∧ i.toNat < b + n ∧ i.toNat < s.status.length := by omega
      rw [if_pos this, if_pos hin]
    · have : ¬ (b ≤ i.toNat ∧ i.toNat < b + n ∧ i.toNat < s.status.length) := by omega
      rw [if_neg this, if_neg hin]
  · have hin : ¬ ((b : Int) ≤ i ∧ i < (b : Int) + n) := by omega
    rw [if_neg hi, if_neg hi, if_neg hin]

theorem clearDisplay_eff (s : State) (addr : Int)
    (hs : s.status.length = 64) (hl : s.spidata.length = 16)
    (h1 : 1 ≤ s.maxDevices) (h8 : s.maxDevices ≤ 8)
    (ha0 : 0 ≤ addr) (ha : addr < s.maxDevices) :
    Eff s (clearDisplay s addr) (storeRows s.status (addr * 8).toNat (fun _ => 0) 8)
      (rowTransactions s addr (fun _ => 0) 8) := by
  have g1 : ¬ (addr < 0 ∨ addr ≥ s.maxDevices) := by omega
  simp only [clearDisplay, if_neg g1]
  apply foldl_eff s _ (storeRows s.status (addr * 8).toNat (fun _ => 0))
    (rowTransactions s addr (fun _ => 0)) 8 hl rfl rfl
  intro i hi t ht
  exact store_transfer_step s t addr i 0 _ _ ht (by rw [storeRows_length, hs]) h1 h8 ha0 ha
    (by omega)


theorem shift_and_one (value r : Nat) :
    ((((value >>> (7 - r)) % 256) &&& 0x01) != 0) = value.testBit (7 - r) := by
  have e : ((value >>> (7 - r)) % 256) &&& 1 = 1 &&& (value >>> (7 - r)) := by
    rw [Nat.and_comm, Nat.one_and_eq_mod_two, Nat.one_and_eq_mod_two]
    omega
  unfold Nat.testBit
  rw [e]

theorem setColumn_eff (s : State) (addr col : Int) (value : Nat)
    (hs : s.status.length = 64) (hl : s.spidata.length = 16)
    (h1 : 1 ≤ s.maxDevices) (h8 : s.maxDevices ≤ 8)
    (ha0 : 0 ≤ addr) (ha : addr < s.maxDevices) (hc0 : 0 ≤ col) (hc : col ≤ 7) :
    Eff s (setColumn s addr col value)
      (storeRows s.status (addr * 8).toNat (columnByte s.status addr col value) 8)
      (rowTransactions s addr (columnByte s.status addr col value) 8) := by
  have g1 : ¬ (addr < 0 ∨ addr ≥ s.maxDevices) := by omega
  have g2 : ¬ (col < 0 ∨ col > 7) := by omega
  simp only [setColumn, if_neg g1, if_neg g2]
  apply foldl_eff s _ (storeRows s.status (addr * 8).toNat (columnByte s.status addr col value))
    (rowTransactions s addr (columnByte s.status addr col value)) 8 hl rfl rfl
  intro i hi t ht
  have hm := ht.2.2.2.1
  have hst := ht.2.2.2.2.1
  have hlen : t.status.length = 64 := by rw [hst, storeRows_length, hs]
  have hstep := setLed_eff t addr (i : Int) col
    ((((value >>> (7 - i)) % 256) &&& 0x01) != 0) hlen ht.2.2.2.2.2.1
    (by rw [hm]; exact h1) (by rw [hm]; exact h8) ha0 (by rw [hm]; exact ha)
    (by omega) (by omega) hc0 hc
  have hsh : shadow t addr (i : Int) = s.status.getD ((addr * 8).toNat + i) 0 := by
    unfold shadow ldStatus
    have hr : (0 : Int) ≤ addr * 8 + (i : Int) ∧ addr * 8 + (i : Int) < 64 := by omega
    have e2 : (addr * 8 + (i : Int)).toNat = (addr * 8).toNat + i := by omega
    rw [if_pos hr, hst, storeRows_getD, e2]
    have : ¬ ((addr * 8).toNat ≤ (addr * 8).toNat + i
        ∧ (addr * 8).toNat + i < (addr * 8).toNat + i
        ∧ (addr * 8).toNat + i < s.status.length) := by omega
    rw [if_neg this]
  have e2 : (addr * 8 + (i : Int)).toNat = (addr * 8).toNat + i := by omega
  have e3 : ((i : Int) + 1).toNat = i + 1 := by omega
  rw [hsh, ht.transaction_eq, hst, e2, e3] at hstep
  exact ht.trans hstep

/-! ## Start-up -/

theorem setScanLimit_eff (s : State) (addr limit : Int)
    (hl : s.spidata.length = 16) (h1 : 1 ≤ s.maxDevices) (h8 : s.maxDevices ≤ 8)
    (ha0 : 0 ≤ addr) (ha : addr < s.maxDevices) :
    Eff s (setScanLimit s addr limit) s.status
      (transaction s addr OP_SCANLIMIT (toByte limit)) := by
  have g1 : ¬ (addr < 0 ∨ addr ≥ s.maxDevices) := by omega
  have g2 : limit ≥ 0 ∨ limit < 8 := by omega
  simp only [setScanLimit, if_neg g1, if_pos g2]
  exact spiTransfer_eff s addr _ _ hl h1 h8 ha0 ha

theorem shutdown_eff (s : State) (addr : Int) (b : Bool)
    (hl : s.spidata.length = 16) (h1 : 1 ≤ s.maxDevices) (h8 : s.maxDevices ≤ 8)
    (ha0 : 0 ≤ addr) (ha : addr < s.maxDevices) :
    Eff s (shutdown s addr b) s.status
      (transaction s addr OP_SHUTDOWN (if b then 0 else 1)) := by
  have g1 : ¬ (addr < 0 ∨ addr ≥ s.maxDevices) := by omega
  simp only [shutdown, if_neg g1]
  cases b
  · exact spiTransfer_eff s addr _ _ hl h1 h8 ha0 ha
  · exact spiTransfer_eff s addr _ _ hl h1 h8 ha0 ha

/-- The loop `for(i=0;i<n;i++) status[i]=0x00`. -/
theorem foldl_stStatus_zero (n : Nat) (s : State) (hn : n ≤ 64)
    (hs : s.status.length = 64) :
    (List.range n).foldl (fun s (i : Nat) => stStatus s (i : Int) 0x00) s
      = { s with status := List.replicate n 0 ++ s.status.drop n } := by
  induction n with
  | zero => simp
  | succ n ih =>
    rw [List.range_succ, List.foldl_append, ih (by omega)]
    simp only [List.foldl_cons, List.foldl_nil, stStatus]
    have h1 : (0 : Int) ≤ (n : Int) ∧ (n : Int) < 64 := by omega
    rw [if_pos h1]
    simp only [Int.toNat_ofNat]
    rw [list_set_zero_head _ _ (by omega)]

theorem storeRows_zero (m b n : Nat) :
    storeRows (List.replicate m 0) b (fun _ => 0) n = List.replicate m 0 := by
  induction n with
  | zero => rfl
  | succ n ih =>
    rw [storeRows, ih]
    apply List.ext_getElem?
    intro k
    rw [List.getElem?_set]
    split
    · split
      · rename_i h1 h2
        rw [List.length_replicate] at h2
        rw [List.getElem?_replicate, if_pos (by omega)]
      · rename_i h1 h2
        rw [List.length_replicate] at h2
        rw [List.getElem?_replicate, if_neg (by omega)]
    · rfl

theorem startupCommands_succ (n : Nat) :
    startupCommands (n + 1) = startupCommands n ++ deviceStartup n := by
  simp [startupCommands, List.range_succ]

theorem startupCommands_length (n : Nat) : (startupCommands n).length = 12 * n := by
  induction n with
  | zero => rfl
  | succ n ih =>
    rw [startupCommands_succ, List.length_append, ih]
    simp [deviceStartup]
    omega

/-- The start-up of one device, made in a state reached from `s` whose shadow
array is blank. -/
theorem deviceStartup_step (s t : State) (i : Nat) (ev : List Event)
    (h : Eff s t (List.replicate 64 0) ev)
    (h1 : 1 ≤ s.maxDevices) (h8 : s.maxDevices ≤ 8) (hi : (i : Int) < s.maxDevices) :
    Eff s (shutdown (clearDisplay (spiTransfer (setScanLimit
              (spiTransfer t (i : Int) OP_DISPLAYTEST 0) (i : Int) 7)
            (i : Int) OP_DECODEMODE 0) (i : Int)) (i : Int) true)
      (List.replicate 64 0) (ev ++ (deviceStartup i).flatMap (send s)) := by
  have hm := h.2.2.2.1
  have i0 : (0 : Int) ≤ (i : Int) := by omega
  have a1 := spiTransfer_eff t (i : Int) OP_DISPLAYTEST 0 h.2.2.2.2.2.1
    (by rw [hm]; exact h1) (by rw [hm]; exact h8) i0 (by rw [hm]; exact hi)
  rw [h.transaction_eq, h.2.2.2.2.1] at a1
  have b1 := h.trans a1
  have hm1 := b1.2.2.2.1
  have a2 := setScanLimit_eff (spiTransfer t (i : Int) OP_DISPLAYTEST 0) (i : Int) 7
    b1.2.2.2.2.2.1 (by rw [hm1]; exact h1) (by rw [hm1]; exact h8) i0 (by rw [hm1]; exact hi)
  rw [b1.transaction_eq, b1.2.2.2.2.1] at a2
  have b2 := b1.trans a2
  have hm2 := b2.2.2.2.1
  have a3 := spiTransfer_eff _ (i : Int) OP_DECODEMODE 0 b2.2.2.2.2.2.1
    (by rw [hm2]; exact h1) (by rw [hm2]; exact h8) i0 (by rw [hm2]; exact hi)
  rw [b2.transaction_eq, b2.2.2.2.2.1] at a3
  have b3 := b2.trans a3
  have hm3 := b3.2.2.2.1
  have a4 := clearDisplay_eff _ (i : Int) (by rw [b3.2.2.2.2.1]; simp) b3.2.2.2.2.2.1
    (by rw [hm3]; exact h1) (by rw [hm3]; exact h8) i0 (by rw [hm3]; exact hi)
  rw [b3.2.2.2.2.1, storeRows_zero] at a4
  have b4 := b3.trans a4
  have hm4 := b4.2.2.2.1
  have a5 := shutdown_eff _ (i : Int) true b4.2.2.2.2.2.1
    (by rw [hm4]; exact h1) (by rw [hm4]; exact h8) i0 (by rw [hm4]; exact hi)
  rw [b4.transaction_eq, b4.2.2.2.2.1] at a5
  have b5 := b4.trans a5
  have hev : ev ++ transaction s (i : Int) OP_DISPLAYTEST 0
        ++ transaction s (i : Int) OP_SCANLIMIT (toByte 7)
        ++ transaction s (i : Int) OP_DECODEMODE 0
        ++ rowTransactions
            (spiTransfer (setScanLimit (spiTransfer t (i : Int) OP_DISPLAYTEST 0) (i : Int) 7)
              (i : Int) OP_DECODEMODE 0) (i : Int) (fun _ => 0) 8
        ++ transaction s (i : Int) OP_SHUTDOWN (if true = true then 0 else 1)
      = ev ++ (deviceStartup i).flatMap (send s) := by
    simp only [rowTransactions, b3.transaction_eq, deviceStartup, send, List.flatMap_cons,
      List.flatMap_nil, List.append_assoc, List.nil_append, List.append_nil]
    rfl
  rw [hev] at b5
  exact b5

/-! ## The transport -/

/-- C1. Transport framing: in a chain of `N` devices with `1 ≤ N ≤ 8`, for a
device index `0 ≤ addr < N`, `spiTransfer` appends to the log chip-select low,
then exactly `2*N` shifted bytes, then chip-select high; byte `k` is the opcode
when `k = 2*(N-1-addr)`, the data when `k = 2*(N-1-addr)+1`, and 0 otherwise. -/
theorem C1_spiTransfer_framing (s : State) (addr : Int) (opcode data : Nat)
    (hl : s.spidata.length = 16) (h1 : 1 ≤ s.maxDevices) (h8 : s.maxDevices ≤ 8)
    (ha0 : 0 ≤ addr) (ha : addr < s.maxDevices) :
    ∃ bytes : List Nat,
      (spiTransfer s addr opcode data).log
          = s.log ++ [Event.digitalWrite s.SPI_CS false]
              ++ bytes.map (Event.shiftOut s.SPI_MOSI s.SPI_CLK)
              ++ [Event.digitalWrite s.SPI_CS true]
        ∧ (bytes.length : Int) = 2 * s.maxDevices
        ∧ ∀ k : Nat, k < bytes.length →
            bytes.getD k 0 =
              if (k : Int) = 2 * (s.maxDevices - 1 - addr) then opcode
              else if (k : Int) = 2 * (s.maxDevices - 1 - addr) + 1 then data
              else 0 := by
  refine ⟨frame s.maxDevices addr opcode data, ?_, ?_, ?_⟩
  · rw [spiTransfer_eq s addr opcode data hl h1 h8 ha0 ha]
    simp [transaction]
  · simp [frame]
    omega
  · intro k hk
    simp only [frame, List.length_map, List.length_range] at hk
    simp [frame, List.getD_eq_getElem?_getD, hk]

/-- C1, witness: a chain of 3 devices, device 1, opcode 0x02, data 0x55; the
bytes shifted out are 0x00, 0x00, 0x02, 0x55, 0x00, 0x00. -/
theorem C1_spiTransfer_framing_witness :
    (sample 3 (List.replicate 64 0)).spidata.length = 16
    ∧ (1 : Int) ≤ (sample 3 (List.replicate 64 0)).maxDevices
    ∧ (sample 3 (List.replicate 64 0)).maxDevices ≤ 8
    ∧ (0 : Int) ≤ 1 ∧ (1 : Int) < (sample 3 (List.replicate 64 0)).maxDevices
    ∧ (∃ bytes : List Nat,
      (spiTransfer (sample 3 (List.replicate 64 0)) 1 0x02 0x55).log
          = (sample 3 (List.replicate 64 0)).log ++ [Event.digitalWrite 10 false]
              ++ bytes.map (Event.shiftOut 12 11) ++ [Event.digitalWrite 10 true]
        ∧ (bytes.length : Int) = 2 * 3
        ∧ ∀ k : Nat, k < bytes.length →
            bytes.getD k 0 =
              if (k : Int) = 2 * (3 - 1 - 1) then 0x02
              else if (k : Int) = 2 * (3 - 1 - 1) + 1 then 0x55
              else 0)
    ∧ (spiTransfer (sample 3 (List.replicate 64 0)) 1 0x02 0x55).log
        = [Event.digitalWrite 10 false, Event.shiftOut 12 11 0x00, Event.shiftOut 12 11 0x00,
           Event.shiftOut 12 11 0x02, Event.shiftOut 12 11 0x55, Event.shiftOut 12 11 0x00,
           Event.shiftOut 12 11 0x00, Event.digitalWrite 10 true] :=
  ⟨by decide, by decide, by decide, by decide, by decide,
    C1_spiTransfer_framing (sample 3 (List.replicate 64 0)) 1 0x02 0x55
      (by decide) (by decide) (by decide) (by decide) (by decide),
    by decide⟩

/-! ## Addressing -/

theorem foldl_fixed {α : Type} (f : State → α → State) (s : State) (l : List α)
    (h : ∀ a, f s a = s) : l.foldl f s = s := by
  induction l with
  | nil => rfl
  | cons a l ih => rw [List.foldl_cons, h a, ih]

theorem setRow_out (s : State) (addr row : Int) (value : Nat)
    (h : addr < 0 ∨ addr ≥ s.maxDevices) : setRow s addr row value = s := by
  simp [setRow, h]

theorem setLed_out (s : State) (addr row column : Int) (state : Bool)
    (h : addr < 0 ∨ addr ≥ s.maxDevices) : setLed s addr row column state = s := by
  simp [setLed, h]

theorem printChar_out (sRow0 : List Nat) (s : State) (addr pos c : Int)
    (h : addr < 0 ∨ addr ≥ s.maxDevices) : printChar sRow0 s addr pos c = s := by
  unfold printChar
  exact foldl_fixed _ s _ (fun i => setRow_out s addr _ _ h)

theorem printStringLoop_out (sRow0 : Nat → List Nat) (s : State) (addr pos : Int)
    (string : List Int) (i : Nat) (h : addr < 0 ∨ addr ≥ s.maxDevices) :
    printStringLoop sRow0 addr pos string i s = s := by
  induction string generalizing i with
  | nil => rfl
  | cons ch rest ih =>
    unfold printStringLoop
    split
    · rfl
    · rw [printChar_out _ s addr _ ch h, ih]

theorem printString_out (sRow0 : Nat → List Nat) (s : State) (addr pos : Int)
    (string : List Int) (h : addr < 0 ∨ addr ≥ s.maxDevices) :
    printString sRow0 s addr pos string = s :=
  printStringLoop_out sRow0 s addr pos string 0 h

/-- A scroll loop whose `printString` calls do nothing only logs its delays. -/
theorem foldl_delay (g : State → Nat → State) (e : Event) (addr : Int) (l : List Nat)
    (s : State) (h : addr < 0 ∨ addr ≥ s.maxDevices)
    (hg : ∀ (t : State) (i : Nat), (addr < 0 ∨ addr ≥ t.maxDevices) → g t i = t) :
    l.foldl (fun s (i : Nat) => emit (g s i) e) s
      = { s with log := s.log ++ List.replicate l.length e } := by
  induction l generalizing s with
  | nil => simp
  | cons a l ih =>
    rw [List.foldl_cons, hg s a h, ih (emit s e) h]
    simp [emit, List.replicate_succ]

/-- C2. Out-of-range device index: when `addr < 0` or `addr >= deviceCount`,
each of the eleven operations `shutdown`, `setScanLimit`, `setIntensity`,
`clearDisplay`, `setLed`, `setRow`, `setColumn`, `setDigit`, `setChar`,
`printChar` and `printString` returns the state unchanged (shadow array and log
included), and `printStringScroll` changes nothing but the log, to which it
appends only `delay` calls: no byte of the shadow array changes and no serial
transaction is issued. -/
theorem C2_out_of_range_noop (s : State) (addr : Int)
    (h : addr < 0 ∨ addr ≥ s.maxDevices)
    (b state dp : Bool) (limit intensity row column col digit pos tDelay sentido : Int)
    (value : Nat) (ch c : Int) (string : List Int) (charTable : Nat → Nat)
    (sRow0 : List Nat) (sRow1 : Nat → List Nat) (sRow2 : Nat → Nat → List Nat) :
    shutdown s addr b = s
    ∧ setScanLimit s addr limit = s
    ∧ setIntensity s addr intensity = s
    ∧ clearDisplay s addr = s
    ∧ setLed s addr row column state = s
    ∧ setRow s addr row value = s
    ∧ setColumn s addr col value = s
    ∧ setDigit charTable s addr digit value dp = s
    ∧ setChar charTable s addr digit ch dp = s
    ∧ printChar sRow0 s addr pos c = s
    ∧ printString sRow1 s addr pos string = s
    ∧ (printStringScroll sRow2 s addr pos string tDelay sentido).status = s.status
    ∧ ∃ k : Nat, printStringScroll sRow2 s addr pos string tDelay sentido
        = { s with log := s.log ++ List.replicate k (Event.delay tDelay) } := by
  refine ⟨by simp [shutdown, h], by simp [setScanLimit, h], by simp [setIntensity, h],
    by simp [clearDisplay, h], setLed_out s addr row column state h,
    setRow_out s addr row value h, by simp [setColumn, h], by simp [setDigit, h],
    by simp [setChar, h], printChar_out sRow0 s addr pos c h,
    printString_out sRow1 s addr pos string h, ?_⟩
  have key : ∃ k : Nat, printStringScroll sRow2 s addr pos string tDelay sentido
      = { s with log := s.log ++ List.replicate k (Event.delay tDelay) } := by
    unfold printStringScroll
    simp only []
    split
    · exact ⟨_, foldl_delay (fun t i => printString (sRow2 i) t addr _ string) _ addr _ s h
        (fun t i ht => printString_out _ t addr _ string ht)⟩
    · split
      · exact ⟨_, foldl_delay (fun t i => printString (sRow2 i) t addr _ string) _ addr _ s h
          (fun t i ht => printString_out _ t addr _ string ht)⟩
      · exact ⟨0, by simp⟩
  obtain ⟨k, hk⟩ := key
  exact ⟨by rw [hk], k, hk⟩

/-- C2, witness: device index 3 in a chain of 3 devices. -/
theorem C2_out_of_range_noop_witness :
    ((3 : Int) < 0 ∨ (3 : Int) ≥ (sample 3 (List.replicate 64 5)).maxDevices)
    ∧ shutdown (sample 3 (List.replicate 64 5)) 3 true = sample 3 (List.replicate 64 5)
    ∧ setRow (sample 3 (List.replicate 64 5)) 3 0 0xFF = sample 3 (List.replicate 64 5)
    ∧ printString sRowZero1 (sample 3 (List.replicate 64 5)) 3 0 [65, 66, 0]
        = sample 3 (List.replicate 64 5)
    ∧ (printStringScroll sRowZero2 (sample 3 (List.replicate 64 5))
        3 0 [65, 66, 0] 20 60).status = List.replicate 64 5 :=
  have h := C2_out_of_range_noop (sample 3 (List.replicate 64 5)) 3 (by decide)
    true true false 0 0 0 0 0 0 0 20 60 0xFF 65 65 [65, 66, 0] (fun _ => 0)
    sRowZero sRowZero1 sRowZero2
  ⟨by decide, h.1, h.2.2.2.2.2.1, h.2.2.2.2.2.2.2.2.2.2.1, h.2.2.2.2.2.2.2.2.2.2.2.1⟩

/-! ## Single LEDs and rows -/

theorem setLed_shadow (s : State) (addr row column : Int) (state : Bool) (hwf : WF s)
    (ha0 : 0 ≤ addr) (ha : addr < s.maxDevices) (hr0 : 0 ≤ row) (hr : row ≤ 7)
    (hc0 : 0 ≤ column) (hc : column ≤ 7) :
    WF (setLed s addr row column state)
    ∧ (setLed s addr row column state).maxDevices = s.maxDevices
    ∧ ∀ i : Int, ldStatus (setLed s addr row column state) i
        = if i = addr * 8 + row then ledByte (shadow s addr row) column.toNat state
          else ldStatus s i := by
  have h := setLed_eff s addr row column state hwf.1 hwf.2.1 hwf.2.2.2.1 hwf.2.2.2.2
    ha0 ha hr0 hr hc0 hc
  refine ⟨WF.of_eff_set hwf h (ledByte_lt _ _ _), h.2.2.2.1, ?_⟩
  intro i
  have h8 := hwf.2.2.2.2
  rw [ldStatus_set s _ _ _ h.2.2.2.2.1 hwf.1 (by omega) i, toNat_index addr row ha0 hr0]

/-- C3. Postcondition of `setLed`: for a device of the chain and row and column
in 0..7, the bit of mask `0x80 >> column` of the shadow byte of (addr,row) equals
`state`, its other bits are unchanged, every other byte of the shadow array is
unchanged, and the log grows by one transaction to `addr` with opcode `row+1`
and the new shadow byte as data; with row or column outside 0..7 the state is
unchanged. -/
theorem C3_setLed_post (s : State) (addr row column : Int) (state : Bool) (hwf : WF s)
    (ha0 : 0 ≤ addr) (ha : addr < s.maxDevices) :
    (0 ≤ row ∧ row ≤ 7 ∧ 0 ≤ column ∧ column ≤ 7 →
      (shadow (setLed s addr row column state) addr row &&& (0x80 >>> column.toNat) ≠ 0
          ↔ state = true)
      ∧ (∀ j : Nat, j ≠ 7 - column.toNat →
          (shadow (setLed s addr row column state) addr row).testBit j
            = (shadow s addr row).testBit j)
      ∧ (∀ i : Int, i ≠ addr * 8 + row →
          ldStatus (setLed s addr row column state) i = ldStatus s i)
      ∧ (setLed s addr row column state).log
          = s.log ++ transaction s addr (row + 1).toNat
              (shadow (setLed s addr row column state) addr row))
    ∧ (¬ (0 ≤ row ∧ row ≤ 7 ∧ 0 ≤ column ∧ column ≤ 7) →
        setLed s addr row column state = s) := by
  constructor
  · rintro ⟨hr0, hr, hc0, hc⟩
    have h := setLed_eff s addr row column state hwf.1 hwf.2.1 hwf.2.2.2.1 hwf.2.2.2.2
      ha0 ha hr0 hr hc0 hc
    obtain ⟨_, _, hld⟩ := setLed_shadow s addr row column state hwf ha0 ha hr0 hr hc0 hc
    have hsh : shadow (setLed s addr row column state) addr row
        = ledByte (shadow s addr row) column.toNat state := by
      unfold shadow
      rw [hld, if_pos rfl]
      rfl
    have hb := hwf.shadow_lt addr row
    have hcn : column.toNat ≤ 7 := by omega
    refine ⟨?_, ?_, ?_, ?_⟩
    · rw [hsh]
      exact ledByte_mask _ _ state hb hcn
    · intro j hj
      rw [hsh, ledByte_testBit _ _ j state hb hcn, if_neg hj]
    · intro i hi
      rw [hld, if_neg hi]
    · rw [hsh]
      exact h.2.2.2.2.2.2.1
  · intro hn
    have g1 : ¬ (addr < 0 ∨ addr ≥ s.maxDevices) := by omega
    have g2 : row < 0 ∨ row > 7 ∨ column < 0 ∨ column > 7 := by omega
    simp [setLed, g1, g2]

/-- C3, witness: device 1 of 3, row 2, column 3, switched on. -/
theorem C3_setLed_post_witness :
    WF (sample 3 (List.replicate 64 0)) ∧ (0 : Int) ≤ 1
    ∧ (1 : Int) < (sample 3 (List.replicate 64 0)).maxDevices
    ∧ shadow (setLed (sample 3 (List.replicate 64 0)) 1 2 3 true) 1 2 = 0x10
    ∧ (setLed (sample 3 (List.replicate 64 0)) 1 2 3 true).log
        = (sample 3 (List.replicate 64 0)).log
            ++ transaction (sample 3 (List.replicate 64 0)) 1 3 0x10 :=
  have h := (C3_setLed_post (sample 3 (List.replicate 64 0)) 1 2 3 true
    (by decide) (by decide) (by decide)).1 (by decide)
  ⟨by decide, by decide, by decide, by decide, h.2.2.2⟩

/-- C4, counterexample: in a one-device chain whose row 0 holds 0x80 (the LED of
column 0 is on), switching that LED on and then off leaves 0x00 there, not the
0x80 it held before the first call. -/
theorem C4_setLed_round_trip_counterexample :
    WF (sample 1 (List.replicate 64 0x80))
    ∧ shadow (sample 1 (List.replicate 64 0x80)) 0 0 = 0x80
    ∧ shadow (setLed (setLed (sample 1 (List.replicate 64 0x80)) 0 0 0 true) 0 0 0 false) 0 0
        = 0x00 := by
  decide

/-- C4, amended. `setLed(addr,row,column,true)` followed by
`setLed(addr,row,column,false)` leaves the shadow byte of (addr,row) equal to the
value it had before the first call with the bit of mask `0x80 >> column`
cleared; it is the value before the first call when that bit was 0 then. -/
theorem C4_setLed_on_off (s : State) (addr row column : Int) (hwf : WF s)
    (ha0 : 0 ≤ addr) (ha : addr < s.maxDevices) (hr0 : 0 ≤ row) (hr : row ≤ 7)
    (hc0 : 0 ≤ column) (hc : column ≤ 7) :
    shadow (setLed (setLed s addr row column true) addr row column false) addr row
        = shadow s addr row &&& ((0x80 >>> column.toNat) ^^^ 0xFF)
    ∧ (shadow s addr row &&& (0x80 >>> column.toNat) = 0 →
        shadow (setLed (setLed s addr row column true) addr row column false) addr row
          = shadow s addr row) := by
  obtain ⟨wf1, n1, ld1⟩ := setLed_shadow s addr row column true hwf ha0 ha hr0 hr hc0 hc
  obtain ⟨_, _, ld2⟩ := setLed_shadow (setLed s addr row column true) addr row column false
    wf1 ha0 (by rw [n1]; exact ha) hr0 hr hc0 hc
  have e1 : shadow (setLed s addr row column true) addr row
      = ledByte (shadow s addr row) column.toNat true := by
    unfold shadow
    rw [ld1, if_pos rfl]
    rfl
  have e2 : shadow (setLed (setLed s addr row column true) addr row column false) addr row
      = ledByte (ledByte (shadow s addr row) column.toNat true) column.toNat false := by
    rw [← e1]
    unfold shadow
    rw [ld2, if_pos rfl]
    rfl
  have hb := hwf.shadow_lt addr row
  have hcn : column.toNat ≤ 7 := by omega
  rw [e2]
  exact ⟨ledByte_off_on _ _ hb hcn, ledByte_off_on_of_clear _ _ hb hcn⟩

/-- C4, witness: device 1 of 3, row 2, column 3, on a blank display. -/
theorem C4_setLed_on_off_witness :
    WF (sample 3 (List.replicate 64 0)) ∧ (0 : Int) ≤ 1
    ∧ (1 : Int) < (sample 3 (List.replicate 64 0)).maxDevices
    ∧ shadow (setLed (setLed (sample 3 (List.replicate 64 0)) 1 2 3 true) 1 2 3 false) 1 2
        = shadow (sample 3 (List.replicate 64 0)) 1 2 :=
  ⟨by decide, by decide, by decide,
    (C4_setLed_on_off (sample 3 (List.replicate 64 0)) 1 2 3 (by decide) (by decide)
      (by decide) (by decide) (by decide) (by decide) (by decide)).2 (by decide)⟩

/-! ## Device count -/

theorem foldl_preserves {α : Type} (P : State → Prop) (f : State → α → State)
    (hf : ∀ s a, P s → P (f s a)) (l : List α) (s : State) (h : P s) : P (l.foldl f s) := by
  induction l generalizing s with
  | nil => exact h
  | cons a l ih => exact ih (f s a) (hf s a h)

theorem stSpidata_maxDevices (s : State) (i : Int) (v : Nat) :
    (stSpidata s i v).maxDevices = s.maxDevices := by
  unfold stSpidata
  split <;> rfl

theorem stStatus_maxDevices (s : State) (i : Int) (v : Nat) :
    (stStatus s i v).maxDevices = s.maxDevices := by
  unfold stStatus
  split <;> rfl

theorem spiTransfer_maxDevices (s : State) (addr : Int) (opcode data : Nat) :
    (spiTransfer s addr opcode data).maxDevices = s.maxDevices := by
  unfold spiTransfer
  simp only [emit_maxDevices]
  apply foldl_preserves (fun t => t.maxDevices = s.maxDevices)
  · intro t a ht
    rw [emit_maxDevices, ht]
  · rw [emit_maxDevices, stSpidata_maxDevices, stSpidata_maxDevices]
    apply foldl_preserves (fun t => t.maxDevices = s.maxDevices)
    · intro t a ht
      rw [stSpidata_maxDevices, ht]
    · rfl

theorem setScanLimit_maxDevices (s : State) (addr limit : Int) :
    (setScanLimit s addr limit).maxDevices = s.maxDevices := by
  unfold setScanLimit
  split
  · rfl
  · split
    · exact spiTransfer_maxDevices _ _ _ _
    · rfl

theorem shutdown_maxDevices (s : State) (addr : Int) (b : Bool) :
    (shutdown s addr b).maxDevices = s.maxDevices := by
  unfold shutdown
  split
  · rfl
  · split <;> exact spiTransfer_maxDevices _ _ _ _

theorem clearDisplay_maxDevices (s : State) (addr : Int) :
    (clearDisplay s addr).maxDevices = s.maxDevices := by
  unfold clearDisplay
  split
  · rfl
  · apply foldl_preserves (fun t => t.maxDevices = s.maxDevices)
    · intro t a ht
      simp only []
      rw [spiTransfer_maxDevices, stStatus_maxDevices, ht]
    · rfl

/-- C5. Device-count clamp: `getDeviceCount` on a driver constructed with
`numDevices` returns `numDevices` when `1 <= numDevices <= 8` and 8 otherwise;
in particular 0, -1 and 9 give 8. -/
theorem C5_device_count_clamp (status0 spidata0 : List Nat)
    (dataPin clkPin csPin numDevices : Int) :
    getDeviceCount (LedControl status0 spidata0 dataPin clkPin csPin numDevices)
        = (if 1 ≤ numDevices ∧ numDevices ≤ 8 then numDevices else 8)
    ∧ getDeviceCount (LedControl status0 spidata0 dataPin clkPin csPin 0) = 8
    ∧ getDeviceCount (LedControl status0 spidata0 dataPin clkPin csPin (-1)) = 8
    ∧ getDeviceCount (LedControl status0 spidata0 dataPin clkPin csPin 9) = 8 := by
  have key : ∀ n : Int,
      getDeviceCount (LedControl status0 spidata0 dataPin clkPin csPin n)
        = (if 1 ≤ n ∧ n ≤ 8 then n else 8) := by
    intro n
    unfold getDeviceCount LedControl
    simp only []
    have hclamp : (if n ≤ 0 ∨ n > 8 then (8 : Int) else n) = if 1 ≤ n ∧ n ≤ 8 then n else 8 := by
      split <;> split <;> omega
    apply foldl_preserves (fun t => t.maxDevices = if 1 ≤ n ∧ n ≤ 8 then n else 8)
    · intro t a ht
      rw [shutdown_maxDevices, clearDisplay_maxDevices, spiTransfer_maxDevices,
        setScanLimit_maxDevices, spiTransfer_maxDevices, ht]
    · apply foldl_preserves (fun t => t.maxDevices = if 1 ≤ n ∧ n ≤ 8 then n else 8)
      · intro t a ht
        rw [stStatus_maxDevices, ht]
      · exact hclamp
  exact ⟨key numDevices, key 0, key (-1), key 9⟩

/-! ## Columns, rows and whole devices -/

theorem shift_and_one_raw (value r : Nat) :
    (((value >>> (7 - r)) &&& 1) != 0) = value.testBit (7 - r) := by
  unfold Nat.testBit
  rw [Nat.and_comm]

/-- C6. Decomposition of `setColumn`: for a device of the chain and a column in
0..7, `setColumn(addr,col,value)` is the eight calls
`setLed(addr,r,col,(value >> (7-r)) & 1)` for `r = 0 .. 7` in ascending order; the
log grows by exactly eight transactions, with opcodes 1..8 in that order, each
carrying the new shadow byte of its row; in each row `r` the bit of mask
`0x80 >> col` equals bit `7-r` of `value` and the other bits are unchanged; every
byte of the shadow array outside the rows of device `addr` is unchanged. With
the column outside 0..7 the state is unchanged. -/
theorem C6_setColumn_decomposition (s : State) (addr col : Int) (value : Nat)
    (hwf : WF s) (ha0 : 0 ≤ addr) (ha : addr < s.maxDevices) :
    (0 ≤ col ∧ col ≤ 7 →
      setColumn s addr col value
          = (List.range 8).foldl (fun t (r : Nat) =>
              setLed t addr (r : Int) col (((value >>> (7 - r)) &&& 1) != 0)) s
      ∧ (setColumn s addr col value).log
          = s.log ++ (transaction s addr 1 (shadow (setColumn s addr col value) addr 0)
            ++ transaction s addr 2 (shadow (setColumn s addr col value) addr 1)
            ++ transaction s addr 3 (shadow (setColumn s addr col value) addr 2)
            ++ transaction s addr 4 (shadow (setColumn s addr col value) addr 3)
            ++ transaction s addr 5 (shadow (setColumn s addr col value) addr 4)
            ++ transaction s addr 6 (shadow (setColumn s addr col value) addr 5)
            ++ transaction s addr 7 (shadow (setColumn s addr col value) addr 6)
            ++ transaction s addr 8 (shadow (setColumn s addr col value) addr 7))
      ∧ (∀ r : Nat, r ≤ 7 →
          (shadow (setColumn s addr col value) addr r &&& (0x80 >>> col.toNat) ≠ 0
            ↔ value.testBit (7 - r) = true))
      ∧ (∀ r : Nat, r ≤ 7 → ∀ j : Nat, j ≠ 7 - col.toNat →
          (shadow (setColumn s addr col value) addr r).testBit j
            = (shadow s addr r).testBit j)
      ∧ (∀ i : Int, (i < addr * 8 ∨ i ≥ addr * 8 + 8) →
          ldStatus (setColumn s addr col value) i = ldStatus s i))
    ∧ (¬ (0 ≤ col ∧ col ≤ 7) → setColumn s addr col value = s) := by
  have g1 : ¬ (addr < 0 ∨ addr ≥ s.maxDevices) := by omega
  have h8 := hwf.2.2.2.2
  constructor
  · rintro ⟨hc0, hc⟩
    have g2 : ¬ (col < 0 ∨ col > 7) := by omega
    have h := setColumn_eff s addr col value hwf.1 hwf.2.1 hwf.2.2.2.1 hwf.2.2.2.2
      ha0 ha hc0 hc
    have hld := ldStatus_storeRows s (setColumn s addr col value) (addr * 8).toNat 8
      (columnByte s.status addr col value) h.2.2.2.2.1 hwf.1 (by omega)
    have hsh : ∀ r : Nat, r ≤ 7 → shadow (setColumn s addr col value) addr r
        = ledByte (shadow s addr r) col.toNat (value.testBit (7 - r)) := by
      intro r hr
      have hin : ((addr * 8).toNat : Int) ≤ addr * 8 + (r : Int)
          ∧ addr * 8 + (r : Int) < ((addr * 8).toNat : Int) + (8 : Nat) := by omega
      have e2 : (addr * 8 + (r : Int)).toNat - (addr * 8).toNat = r := by omega
      have e3 : (addr * 8 + (r : Int)).toNat = (addr * 8).toNat + r := by omega
      have hr64 : (0 : Int) ≤ addr * 8 + (r : Int) ∧ addr * 8 + (r : Int) < 64 := by omega
      unfold shadow
      rw [hld, if_pos hin, e2, columnByte, shift_and_one]
      unfold ldStatus
      rw [if_pos hr64, e3]
    have hb : ∀ r : Nat, shadow s addr r < 256 := fun r => hwf.shadow_lt addr r
    have hcn : col.toNat ≤ 7 := by omega
    refine ⟨?_, ?_, ?_, ?_, ?_⟩
    · simp only [setColumn, if_neg g1, if_neg g2]
      congr 1
      funext t r
      rw [shift_and_one, shift_and_one_raw]
    · have hv : ∀ r : Nat, r ≤ 7 → columnByte s.status addr col value r
          = shadow (setColumn s addr col value) addr r := by
        intro r hr
        have hr64 : (0 : Int) ≤ addr * 8 + (r : Int) ∧ addr * 8 + (r : Int) < 64 := by omega
        have e3 : (addr * 8 + (r : Int)).toNat = (addr * 8).toNat + r := by omega
        rw [hsh r hr, columnByte, shift_and_one]
        unfold shadow ldStatus
        rw [if_pos hr64, e3]
      rw [h.2.2.2.2.2.2.1]
      simp only [rowTransactions, List.nil_append, List.append_assoc]
      rw [hv 0 (by omega), hv 1 (by omega), hv 2 (by omega), hv 3 (by omega),
        hv 4 (by omega), hv 5 (by omega), hv 6 (by omega), hv 7 (by omega)]
      rfl
    · intro r hr
      rw [hsh r hr]
      exact ledByte_mask _ _ _ (hb r) hcn
    · intro r hr j hj
      rw [hsh r hr, ledByte_testBit _ _ j _ (hb r) hcn, if_neg hj]
    · intro i hi
      rw [hld]
      split <;> [omega; rfl]
  · intro hn
    have g2 : col < 0 ∨ col > 7 := by omega
    simp [setColumn, g1, g2]

/-- C6, witness: device 1 of 3, column 3, value 0xA5, on a blank display. -/
theorem C6_setColumn_decomposition_witness :
    WF (sample 3 (List.replicate 64 0)) ∧ (0 : Int) ≤ 1
    ∧ (1 : Int) < (sample 3 (List.replicate 64 0)).maxDevices
    ∧ (shadow (setColumn (sample 3 (List.replicate 64 0)) 1 3 0xA5) 1 (0 : Nat)
          &&& (0x80 >>> (3 : Int).toNat) ≠ 0
        ↔ Nat.testBit 0xA5 (7 - 0) = true) :=
  ⟨by decide, by decide, by decide,
    ((C6_setColumn_decomposition (sample 3 (List.replicate 64 0)) 1 3 0xA5
      (by decide) (by decide) (by decide)).1 (by decide)).2.2.1 0 (by decide)⟩

/-- C7. Postcondition of `setRow`: for a device of the chain and a row in 0..7,
the shadow byte of (addr,row) becomes `value` (so the bit of mask `0x80 >> c` is
bit `7-c` of `value` for every column `c` in 0..7, and all eight are set when
`value` is 0xFF), every other byte of the shadow array is unchanged, and the log
grows by one transaction to `addr` with opcode `row+1` and data `value`; with
the row outside 0..7 the state is unchanged. -/
theorem C7_setRow_post (s : State) (addr row : Int) (value : Nat) (hwf : WF s)
    (ha0 : 0 ≤ addr) (ha : addr < s.maxDevices) :
    (0 ≤ row ∧ row ≤ 7 →
      shadow (setRow s addr row value) addr row = value
      ∧ (∀ c : Nat, c ≤ 7 →
          (shadow (setRow s addr row value) addr row &&& (0x80 >>> c) ≠ 0
            ↔ value.testBit (7 - c) = true))
      ∧ (value = 0xFF → ∀ c : Nat, c ≤ 7 →
          shadow (setRow s addr row value) addr row &&& (0x80 >>> c) ≠ 0)
      ∧ (∀ i : Int, i ≠ addr * 8 + row →
          ldStatus (setRow s addr row value) i = ldStatus s i)
      ∧ (setRow s addr row value).log
          = s.log ++ transaction s addr (row + 1).toNat value)
    ∧ (¬ (0 ≤ row ∧ row ≤ 7) → setRow s addr row value = s) := by
  constructor
  · rintro ⟨hr0, hr⟩
    have h := setRow_eff s addr row value hwf.1 hwf.2.1 hwf.2.2.2.1 hwf.2.2.2.2
      ha0 ha hr0 hr
    have h8 := hwf.2.2.2.2
    have hld : ∀ i : Int, ldStatus (setRow s addr row value) i
        = if i = addr * 8 + row then value else ldStatus s i := by
      intro i
      rw [ldStatus_set s _ _ _ h.2.2.2.2.1 hwf.1 (by omega) i, toNat_index addr row ha0 hr0]
    have hsh : shadow (setRow s addr row value) addr row = value := by
      unfold shadow
      rw [hld, if_pos rfl]
    refine ⟨hsh, ?_, ?_, ?_, h.2.2.2.2.2.2.1⟩
    · intro c hc
      rw [hsh, mask_eq_shift c hc, and_two_pow_ne_zero]
    · intro hv c hc
      rw [hsh, mask_eq_shift c hc, and_two_pow_ne_zero, hv]
      have : 7 - c < 8 := by omega
      simp [testBit_255, this]
    · intro i hi
      rw [hld, if_neg hi]
  · intro hn
    have g1 : ¬ (addr < 0 ∨ addr ≥ s.maxDevices) := by omega
    have g2 : row < 0 ∨ row > 7 := by omega
    simp [setRow, g1, g2]

/-- C7, witness: device 1 of 3, row 2, value 0xFF. -/
theorem C7_setRow_post_witness :
    WF (sample 3 (List.replicate 64 0)) ∧ (0 : Int) ≤ 1
    ∧ (1 : Int) < (sample 3 (List.replicate 64 0)).maxDevices
    ∧ shadow (setRow (sample 3 (List.replicate 64 0)) 1 2 0xFF) 1 2 = 0xFF :=
  ⟨by decide, by decide, by decide,
    ((C7_setRow_post (sample 3 (List.replicate 64 0)) 1 2 0xFF
      (by decide) (by decide) (by decide)).1 (by decide)).1⟩

/-- C8. Postcondition of `clearDisplay`: for a device of the chain, the eight
shadow bytes of device `addr` become 0, every byte of the shadow array outside
the rows of that device is unchanged, and the log grows by exactly eight
transactions to `addr`, with opcodes 1, 2, ..., 8 in that order and data 0. -/
theorem C8_clearDisplay_post (s : State) (addr : Int) (hwf : WF s)
    (ha0 : 0 ≤ addr) (ha : addr < s.maxDevices) :
    (∀ row : Int, 0 ≤ row → row ≤ 7 → shadow (clearDisplay s addr) addr row = 0)
    ∧ (∀ i : Int, (i < addr * 8 ∨ i ≥ addr * 8 + 8) →
        ldStatus (clearDisplay s addr) i = ldStatus s i)
    ∧ (clearDisplay s addr).log
        = s.log ++ (transaction s addr 1 0 ++ transaction s addr 2 0
            ++ transaction s addr 3 0 ++ transaction s addr 4 0
            ++ transaction s addr 5 0 ++ transaction s addr 6 0
            ++ transaction s addr 7 0 ++ transaction s addr 8 0) := by
  have h := clearDisplay_eff s addr hwf.1 hwf.2.1 hwf.2.2.2.1 hwf.2.2.2.2 ha0 ha
  have h8 := hwf.2.2.2.2
  have hld := ldStatus_storeRows s (clearDisplay s addr) (addr * 8).toNat 8 (fun _ => 0)
    h.2.2.2.2.1 hwf.1 (by omega)
  refine ⟨?_, ?_, ?_⟩
  · intro row hr0 hr
    unfold shadow
    rw [hld]
    split <;> [rfl; omega]
  · intro i hi
    rw [hld]
    split <;> [omega; rfl]
  · rw [h.2.2.2.2.2.2.1]
    simp [rowTransactions, List.append_assoc]

/-- C8, witness: device 1 of 3 on a display whose 64 rows hold 0x80. -/
theorem C8_clearDisplay_post_witness :
    WF (sample 3 (List.replicate 64 0x80)) ∧ (0 : Int) ≤ 1
    ∧ (1 : Int) < (sample 3 (List.replicate 64 0x80)).maxDevices
    ∧ shadow (clearDisplay (sample 3 (List.replicate 64 0x80)) 1) 1 3 = 0 :=
  ⟨by decide, by decide, by decide,
    (C8_clearDisplay_post (sample 3 (List.replicate 64 0x80)) 1
      (by decide) (by decide) (by decide)).1 3 (by decide) (by decide)⟩

/-! ## Construction -/

/-- The constructor, once the pins are configured and the shadow array is
zeroed, is the start-up loop run on a blank state. -/
theorem LedControl_eq (status0 spidata0 : List Nat) (dataPin clkPin csPin numDevices : Int)
    (hs : status0.length = 64) :
    LedControl status0 spidata0 dataPin clkPin csPin numDevices
      = (List.range (if numDevices ≤ 0 ∨ numDevices > 8 then 8 else numDevices).toNat).foldl
          (fun s (i : Nat) =>
            shutdown (clearDisplay (spiTransfer (setScanLimit
              (spiTransfer s (i : Int) OP_DISPLAYTEST 0) (i : Int) 7)
              (i : Int) OP_DECODEMODE 0) (i : Int)) (i : Int) true)
          { SPI_MOSI := dataPin, SPI_CLK := clkPin, SPI_CS := csPin,
            maxDevices := if numDevices ≤ 0 ∨ numDevices > 8 then 8 else numDevices,
            status := List.replicate 64 0, spidata := spidata0,
            log := [Event.pinMode dataPin, Event.pinMode clkPin, Event.pinMode csPin,
              Event.digitalWrite csPin true],
            fault := false } := by
  unfold LedControl
  simp only [emit]
  rw [foldl_stStatus_zero 64 _ (by omega) hs]
  have hd : List.drop 64 status0 = [] := List.drop_eq_nil_of_le (by omega)
  simp only [hd, List.append_nil, List.nil_append, List.cons_append]

/-- C9. Construction: when the object's arrays have their declared sizes, the
constructor leaves all 64 shadow bytes 0 and, after configuring the three pins
as outputs and driving chip-select high, issues exactly `12*N` transactions,
`N` being the clamped device count: for each device `i = 0 .. N-1` in ascending
order (15,0), (11,7), (9,0), (1,0), ..., (8,0) and (12,0), as (opcode, data). -/
theorem C9_construction (status0 spidata0 : List Nat) (dataPin clkPin csPin numDevices : Int)
    (hs : status0.length = 64) (hl : spidata0.length = 16) :
    (LedControl status0 spidata0 dataPin clkPin csPin numDevices).status
        = List.replicate 64 0
    ∧ (LedControl status0 spidata0 dataPin clkPin csPin numDevices).log
        = [Event.pinMode dataPin, Event.pinMode clkPin, Event.pinMode csPin,
            Event.digitalWrite csPin true]
          ++ (startupCommands
                (if 1 ≤ numDevices ∧ numDevices ≤ 8 then numDevices else 8).toNat).flatMap
              (send (LedControl status0 spidata0 dataPin clkPin csPin numDevices))
    ∧ ((startupCommands
          (if 1 ≤ numDevices ∧ numDevices ≤ 8 then numDevices else 8).toNat).length : Int)
        = 12 * (if 1 ≤ numDevices ∧ numDevices ≤ 8 then numDevices else 8) := by
  have hclamp : (if numDevices ≤ 0 ∨ numDevices > 8 then (8 : Int) else numDevices)
      = if 1 ≤ numDevices ∧ numDevices ≤ 8 then numDevices else 8 := by
    split <;> split <;> omega
  have hN1 : (1 : Int) ≤ if 1 ≤ numDevices ∧ numDevices ≤ 8 then numDevices else 8 := by
    split <;> omega
  have hN8 : (if 1 ≤ numDevices ∧ numDevices ≤ 8 then numDevices else 8) ≤ (8 : Int) := by
    split <;> omega
  rw [LedControl_eq status0 spidata0 dataPin clkPin csPin numDevices hs, hclamp]
  generalize (if 1 ≤ numDevices ∧ numDevices ≤ 8 then numDevices else 8) = N at hN1 hN8
  have h := foldl_eff
    { SPI_MOSI := dataPin, SPI_CLK := clkPin, SPI_CS := csPin, maxDevices := N,
      status := List.replicate 64 0, spidata := spidata0,
      log := [Event.pinMode dataPin, Event.pinMode clkPin, Event.pinMode csPin,
        Event.digitalWrite csPin true],
      fault := false }
    (fun s (i : Nat) =>
      shutdown (clearDisplay (spiTransfer (setScanLimit
        (spiTransfer s (i : Int) OP_DISPLAYTEST 0) (i : Int) 7)
        (i : Int) OP_DECODEMODE 0) (i : Int)) (i : Int) true)
    (fun _ => List.replicate 64 0)
    (fun i => (startupCommands i).flatMap (send
      { SPI_MOSI := dataPin, SPI_CLK := clkPin, SPI_CS := csPin, maxDevices := N,
        status := List.replicate 64 0, spidata := spidata0,
        log := [Event.pinMode dataPin, Event.pinMode clkPin, Event.pinMode csPin,
          Event.digitalWrite csPin true],
        fault := false }))
    N.toNat hl rfl rfl
    (by
      intro i hi t ht
      have hstep := deviceStartup_step _ t i _ ht hN1 hN8 (by simp only []; omega)
      beta_reduce at hstep ⊢
      rw [startupCommands_succ, List.flatMap_append]
      exact hstep)
  beta_reduce at h
  refine ⟨h.2.2.2.2.1, ?_, ?_⟩
  · rw [h.2.2.2.2.2.2.1]
    congr 2
    funext c
    unfold send
    exact (h.transaction_eq c.1 c.2.1 c.2.2).symm
  · rw [startupCommands_length]
    omega

/-- C9, witness: a chain of 2 devices built on arrays holding arbitrary bytes. -/
theorem C9_construction_witness :
    (List.replicate 64 7).length = 64 ∧ (List.replicate 16 9).length = 16
    ∧ (LedControl (List.replicate 64 7) (List.replicate 16 9) 12 11 10 2).status
        = List.replicate 64 0
    ∧ (startupCommands 2).length = 24 :=
  ⟨by decide, by decide,
    (C9_construction (List.replicate 64 7) (List.replicate 16 9) 12 11 10 2
      (by decide) (by decide)).1,
    by decide⟩

/-! ## Scan limit and intensity -/

/-- C10. The range checks of `setScanLimit` and `setIntensity` never reject: for
a device of the chain and every integer value, each appends exactly one
transaction to the log, with opcode 11 respectively 10, addressed to `addr`,
with data `value` modulo 256, and leaves the shadow array unchanged. -/
theorem C10_range_checks_never_reject (s : State) (addr value : Int) (hwf : WF s)
    (ha0 : 0 ≤ addr) (ha : addr < s.maxDevices) :
    (setScanLimit s addr value).log = s.log ++ transaction s addr 11 (value % 256).toNat
    ∧ (setScanLimit s addr value).status = s.status
    ∧ (setIntensity s addr value).log = s.log ++ transaction s addr 10 (value % 256).toNat
    ∧ (setIntensity s addr value).status = s.status := by
  have g1 : ¬ (addr < 0 ∨ addr ≥ s.maxDevices) := by omega
  have g2 : value ≥ 0 ∨ value < 8 := by omega
  have g3 : value ≥ 0 ∨ value < 16 := by omega
  have h11 := spiTransfer_eff s addr OP_SCANLIMIT (toByte value) hwf.2.1 hwf.2.2.2.1
    hwf.2.2.2.2 ha0 ha
  have h10 := spiTransfer_eff s addr OP_INTENSITY (toByte value) hwf.2.1 hwf.2.2.2.1
    hwf.2.2.2.2 ha0 ha
  simp only [setScanLimit, setIntensity, if_neg g1, if_pos g2, if_pos g3]
  exact ⟨h11.2.2.2.2.2.2.1, h11.2.2.2.2.1, h10.2.2.2.2.2.2.1, h10.2.2.2.2.1⟩

/-- C10, witness: device 1 of 3 with the values -1 and 300. -/
theorem C10_range_checks_never_reject_witness :
    WF (sample 3 (List.replicate 64 0)) ∧ (0 : Int) ≤ 1
    ∧ (1 : Int) < (sample 3 (List.replicate 64 0)).maxDevices
    ∧ (setScanLimit (sample 3 (List.replicate 64 0)) 1 (-1)).log
        = (sample 3 (List.replicate 64 0)).log
            ++ transaction (sample 3 (List.replicate 64 0)) 1 11 255
    ∧ (setIntensity (sample 3 (List.replicate 64 0)) 1 300).log
        = (sample 3 (List.replicate 64 0)).log
            ++ transaction (sample 3 (List.replicate 64 0)) 1 10 44 :=
  ⟨by decide, by decide, by decide,
    (C10_range_checks_never_reject (sample 3 (List.replicate 64 0)) 1 (-1)
      (by decide) (by decide) (by decide)).1,
    (C10_range_checks_never_reject (sample 3 (List.replicate 64 0)) 1 300
      (by decide) (by decide) (by decide)).2.2.1⟩

/-! ## Seven-segment digits and characters -/

/-- The pattern `status[offset+row]=v; spiTransfer(addr,opcode,w)`. -/
theorem store_send_eff (s : State) (addr row : Int) (opcode v w : Nat)
    (hl : s.spidata.length = 16)
    (h1 : 1 ≤ s.maxDevices) (h8 : s.maxDevices ≤ 8)
    (ha0 : 0 ≤ addr) (ha : addr < s.maxDevices) (hr0 : 0 ≤ row) (hr : row ≤ 7) :
    Eff s (spiTransfer (stStatus s (addr * 8 + row) v) addr opcode w)
      (s.status.set (addr * 8 + row).toNat v) (transaction s addr opcode w) := by
  have hi : (0 : Int) ≤ addr * 8 + row ∧ addr * 8 + row < 64 := by omega
  have e : stStatus s (addr * 8 + row) v
      = { s with status := s.status.set (addr * 8 + row).toNat v } := by
    simp [stStatus, hi]
  rw [e]
  exact spiTransfer_eff { s with status := s.status.set (addr * 8 + row).toNat v }
    addr opcode w hl h1 h8 ha0 ha

theorem or_0x80_lt (v : Nat) (hv : v < 256) : v ||| 0x80 < 256 :=
  Nat.or_lt_two_pow (n := 8) hv (by decide)

theorem setDigit_eff (charTable : Nat → Nat) (s : State) (addr digit : Int) (value : Nat)
    (dp : Bool) (hl : s.spidata.length = 16)
    (h1 : 1 ≤ s.maxDevices) (h8 : s.maxDevices ≤ 8)
    (ha0 : 0 ≤ addr) (ha : addr < s.maxDevices) (hd0 : 0 ≤ digit) (hd : digit ≤ 7)
    (hv : value ≤ 15) :
    Eff s (setDigit charTable s addr digit value dp)
      (s.status.set (addr * 8 + digit).toNat
        (if dp then (charTable value ||| 0x80) % 256 else charTable value))
      (transaction s addr (digit + 1).toNat
        (if dp then (charTable value ||| 0x80) % 256 else charTable value)) := by
  have g1 : ¬ (addr < 0 ∨ addr ≥ s.maxDevices) := by omega
  have g2 : ¬ (digit < 0 ∨ digit > 7 ∨ value > 15) := by omega
  have e : toByte (digit + 1) = (digit + 1).toNat := by unfold toByte; omega
  simp only [setDigit, if_neg g1, if_neg g2, e]
  exact store_send_eff s addr digit _ _ _ hl h1 h8 ha0 ha hd0 hd

theorem setChar_eff (charTable : Nat → Nat) (s : State) (addr digit value : Int)
    (dp : Bool) (hl : s.spidata.length = 16)
    (h1 : 1 ≤ s.maxDevices) (h8 : s.maxDevices ≤ 8)
    (ha0 : 0 ≤ addr) (ha : addr < s.maxDevices) (hd0 : 0 ≤ digit) (hd : digit ≤ 7) :
    Eff s (setChar charTable s addr digit value dp)
      (s.status.set (addr * 8 + digit).toNat
        (if dp then (charTable (toByte value) ||| 0x80) % 256 else charTable (toByte value)))
      (transaction s addr (digit + 1).toNat
        (if dp then (charTable (toByte value) ||| 0x80) % 256 else charTable (toByte value))) := by
  have g1 : ¬ (addr < 0 ∨ addr ≥ s.maxDevices) := by omega
  have g2 : ¬ (digit < 0 ∨ digit > 7) := by omega
  have e : toByte (digit + 1) = (digit + 1).toNat := by unfold toByte; omega
  simp only [setChar, if_neg g1, if_neg g2, e]
  exact store_send_eff s addr digit _ _ _ hl h1 h8 ha0 ha hd0 hd

/-! ## Scrolling: the step sequence -/

theorem countChars_eq (string : List Int) :
    countChars string = (string.takeWhile (fun ch => ch != 0)).length := by
  induction string with
  | nil => rfl
  | cons ch rest ih =>
    unfold countChars
    by_cases h : ch = 0
    · simp [h]
    · simp [h, ih]

theorem countDelay_emit (s : State) (e : Event) :
    countDelay (emit s e).log = countDelay s.log + (if isDelay e then 1 else 0) := by
  simp only [countDelay, emit_log, List.filter_append, List.length_append]
  cases h : isDelay e <;> simp [List.filter, h]

theorem stSpidata_log (s : State) (i : Int) (v : Nat) : (stSpidata s i v).log = s.log := by
  unfold stSpidata
  split <;> rfl

theorem stStatus_log (s : State) (i : Int) (v : Nat) : (stStatus s i v).log = s.log := by
  unfold stStatus
  split <;> rfl

theorem spiTransfer_countDelay (s : State) (addr : Int) (opcode data : Nat) :
    countDelay (spiTransfer s addr opcode data).log = countDelay s.log := by
  unfold spiTransfer
  simp only []
  rw [countDelay_emit]
  simp only [isDelay, Bool.false_eq_true, if_false, Nat.add_zero]
  apply foldl_preserves (fun t => countDelay t.log = countDelay s.log)
  · intro t a ht
    rw [countDelay_emit]
    simpa [isDelay] using ht
  · rw [countDelay_emit, stSpidata_log, stSpidata_log]
    simp only [isDelay, Bool.false_eq_true, if_false, Nat.add_zero]
    apply foldl_preserves (fun t => countDelay t.log = countDelay s.log)
    · intro t a ht
      rw [stSpidata_log, ht]
    · rfl

theorem setRow_countDelay (s : State) (addr row : Int) (value : Nat) :
    countDelay (setRow s addr row value).log = countDelay s.log := by
  unfold setRow
  split
  · rfl
  · split
    · rfl
    · simp only []
      rw [spiTransfer_countDelay, stStatus_log]

theorem printChar_countDelay (sRow0 : List Nat) (s : State) (addr pos c : Int) :
    countDelay (printChar sRow0 s addr pos c).log = countDelay s.log := by
  unfold printChar
  simp only []
  apply foldl_preserves (fun t => countDelay t.log = countDelay s.log)
  · intro t a ht
    rw [setRow_countDelay, ht]
  · rfl

theorem printStringLoop_countDelay (sRow0 : Nat → List Nat) (addr pos : Int)
    (string : List Int) (i : Nat) (s : State) :
    countDelay (printStringLoop sRow0 addr pos string i s).log = countDelay s.log := by
  induction string generalizing i s with
  | nil => rfl
  | cons ch rest ih =>
    unfold printStringLoop
    split
    · rfl
    · rw [ih, printChar_countDelay]

theorem printString_countDelay (sRow0 : Nat → List Nat) (s : State) (addr pos : Int)
    (string : List Int) :
    countDelay (printString sRow0 s addr pos string).log = countDelay s.log :=
  printStringLoop_countDelay sRow0 addr pos string 0 s

/-- A loop whose steps each add one `delay` adds as many as it has steps. -/
theorem foldl_countDelay (g : State → Nat → State) (tDelay : Int)
    (hg : ∀ t i, countDelay (g t i).log = countDelay t.log) (l : List Nat) (s : State) :
    countDelay (l.foldl (fun t (i : Nat) => emit (g t i) (Event.delay tDelay)) s).log
      = countDelay s.log + l.length := by
  induction l generalizing s with
  | nil => rfl
  | cons a l ih =>
    rw [List.foldl_cons, ih, countDelay_emit, hg]
    simp only [isDelay, if_true, List.length_cons]
    omega

/-! ## Sequences of row stores -/

theorem WF.good {s : State} (h : WF s) : Good s := ⟨h.1, h.2.1, h.2.2.2.1, h.2.2.2.2⟩

theorem applyWrites_length (l : List Nat) (addr : Int) (ws : List (Int × Nat)) :
    (applyWrites l addr ws).length = l.length := by
  induction ws generalizing l with
  | nil => rfl
  | cons w ws ih =>
    rw [applyWrites, ih]
    split
    · rw [List.length_set]
    · rfl

theorem applyWrites_append (l : List Nat) (addr : Int) (ws1 ws2 : List (Int × Nat)) :
    applyWrites l addr (ws1 ++ ws2) = applyWrites (applyWrites l addr ws1) addr ws2 := by
  induction ws1 generalizing l with
  | nil => rfl
  | cons w ws ih => rw [List.cons_append, applyWrites, applyWrites, ih]

theorem writeEvents_append (s : State) (addr : Int) (ws1 ws2 : List (Int × Nat)) :
    writeEvents s addr (ws1 ++ ws2) = writeEvents s addr ws1 ++ writeEvents s addr ws2 := by
  induction ws1 with
  | nil => rfl
  | cons w ws ih => rw [List.cons_append, writeEvents, writeEvents, ih, List.append_assoc]

theorem writeEvents_congr (s t : State) (h1 : t.SPI_MOSI = s.SPI_MOSI)
    (h2 : t.SPI_CLK = s.SPI_CLK) (h3 : t.SPI_CS = s.SPI_CS)
    (h4 : t.maxDevices = s.maxDevices) (addr : Int) (ws : List (Int × Nat)) :
    writeEvents t addr ws = writeEvents s addr ws := by
  induction ws with
  | nil => rfl
  | cons w ws ih => rw [writeEvents, writeEvents, ih, transaction_congr s t h1 h2 h3 h4]

theorem lastWrite_append (ws1 ws2 : List (Int × Nat)) (r : Int) :
    lastWrite (ws1 ++ ws2) r
      = match lastWrite ws2 r with
        | some x => some x
        | none => lastWrite ws1 r := by
  induction ws1 with
  | nil =>
    rw [List.nil_append]
    cases lastWrite ws2 r <;> rfl
  | cons w ws ih =>
    rw [List.cons_append, lastWrite, ih]
    cases h : lastWrite ws2 r with
    | some x => rfl
    | none => simp only [lastWrite]

theorem Wr.nil (s : State) (addr : Int) (hl : s.spidata.length = 16) : Wr s s addr [] :=
  Eff.rfl s hl

theorem Wr.append {s t u : State} {addr : Int} {ws1 ws2 : List (Int × Nat)}
    (h1 : Wr s t addr ws1) (h2 : Wr t u addr ws2) : Wr s u addr (ws1 ++ ws2) := by
  unfold Wr at *
  have h3 := h1.trans h2
  rw [h1.2.2.2.2.1, writeEvents_congr s t h1.1 h1.2.1 h1.2.2.1 h1.2.2.2.1,
    ← applyWrites_append, ← writeEvents_append] at h3
  exact h3

theorem Wr.goodAfter {s t : State} {addr : Int} {ws : List (Int × Nat)} (hg : Good s)
    (h : Wr s t addr ws) : Good t := by
  obtain ⟨_, _, _, e4, e5, e6, _, _⟩ := h
  refine ⟨?_, e6, ?_, ?_⟩
  · rw [e5, applyWrites_length, hg.1]
  · rw [e4]; exact hg.2.2.1
  · rw [e4]; exact hg.2.2.2

theorem setRow_wr (s : State) (addr row : Int) (value : Nat) (hg : Good s)
    (ha0 : 0 ≤ addr) (ha : addr < s.maxDevices) :
    Wr s (setRow s addr row value) addr [(row, value)] := by
  unfold Wr
  by_cases hr : 0 ≤ row ∧ row ≤ 7
  · have h := setRow_eff s addr row value hg.1 hg.2.1 hg.2.2.1 hg.2.2.2 ha0 ha hr.1 hr.2
    simp only [applyWrites, writeEvents, if_pos hr, List.append_nil]
    exact h
  · have g1 : ¬ (addr < 0 ∨ addr ≥ s.maxDevices) := by omega
    have g2 : row < 0 ∨ row > 7 := by omega
    simp only [applyWrites, writeEvents, if_neg hr, List.append_nil, setRow, if_neg g1,
      if_pos g2]
    exact Eff.rfl s hg.2.1

theorem foldl_setRow_wr (s : State) (addr : Int) (f : Nat → Int × Nat) (n : Nat)
    (hg : Good s) (ha0 : 0 ≤ addr) (ha : addr < s.maxDevices) :
    Wr s ((List.range n).foldl (fun t (i : Nat) => setRow t addr (f i).1 (f i).2) s) addr
      ((List.range n).map f) := by
  induction n with
  | zero => exact Wr.nil s addr hg.2.1
  | succ n ih =>
    rw [List.range_succ, List.foldl_append, List.map_append]
    simp only [List.foldl_cons, List.foldl_nil, List.map_cons, List.map_nil]
    have hm := ih.2.2.2.1
    exact ih.append (setRow_wr _ addr _ _ (ih.goodAfter hg) ha0 (by rw [hm]; exact ha))

theorem printChar_wr (sRow0 : List Nat) (s : State) (addr pos c : Int) (hg : Good s)
    (ha0 : 0 ≤ addr) (ha : addr < s.maxDevices) :
    Wr s (printChar sRow0 s addr pos c) addr (charWrites (charRows sRow0 c) pos) := by
  have e : printChar sRow0 s addr pos c
      = (List.range 7).foldl (fun t (i : Nat) =>
          setRow t addr (pos + (i : Int), (charRows sRow0 c).getD i 0).1
            (pos + (i : Int), (charRows sRow0 c).getD i 0).2) s := by
    unfold printChar charRows
    cases glyphCases.lookup c <;> rfl
  rw [e]
  exact foldl_setRow_wr s addr (fun i => (pos + (i : Int), (charRows sRow0 c).getD i 0)) 7
    hg ha0 ha

theorem printStringLoop_wr (sRow0 : Nat → List Nat) (addr pos : Int) (string : List Int)
    (i : Nat) (s : State) (hg : Good s) (ha0 : 0 ≤ addr) (ha : addr < s.maxDevices) :
    Wr s (printStringLoop sRow0 addr pos string i s) addr (stringWrites sRow0 pos string i) := by
  induction string generalizing i s with
  | nil => exact Wr.nil s addr hg.2.1
  | cons ch rest ih =>
    unfold printStringLoop stringWrites
    split
    · exact Wr.nil s addr hg.2.1
    · have h1 := printChar_wr (sRow0 i) s addr (6 * (i : Int) + pos) ch hg ha0 ha
      have hm := h1.2.2.2.1
      exact h1.append (ih (i + 1) _ (h1.goodAfter hg) (by rw [hm]; exact ha))

theorem printString_wr (sRow0 : Nat → List Nat) (s : State) (addr pos : Int)
    (string : List Int) (hg : Good s) (ha0 : 0 ≤ addr) (ha : addr < s.maxDevices) :
    Wr s (printString sRow0 s addr pos string) addr (stringWrites sRow0 pos string 0) :=
  printStringLoop_wr sRow0 addr pos string 0 s hg ha0 ha

theorem applyWrites_getD (l : List Nat) (addr : Int) (ws : List (Int × Nat))
    (hl : l.length = 64) (ha0 : 0 ≤ addr) (ha : addr < 8) (k : Nat) :
    (applyWrites l addr ws).getD k 0
      = if addr * 8 ≤ (k : Int) ∧ (k : Int) ≤ addr * 8 + 7
        then (lastWrite ws ((k : Int) - addr * 8)).getD (l.getD k 0)
        else l.getD k 0 := by
  induction ws generalizing l with
  | nil => simp [applyWrites, lastWrite]
  | cons w ws ih =>
    rw [applyWrites, lastWrite]
    by_cases hw : 0 ≤ w.1 ∧ w.1 ≤ 7
    · rw [if_pos hw, ih _ (by rw [List.length_set]; exact hl), getD_set]
      by_cases hk : addr * 8 ≤ (k : Int) ∧ (k : Int) ≤ addr * 8 + 7
      · rw [if_pos hk, if_pos hk]
        cases hlw : lastWrite ws ((k : Int) - addr * 8) with
        | some x => rfl
        | none =>
          simp only [Option.getD_none]
          by_cases hr : w.1 = (k : Int) - addr * 8
          · have : (addr * 8 + w.1).toNat = k ∧ (addr * 8 + w.1).toNat < l.length := by omega
            rw [if_pos this, if_pos hr, Option.getD_some]
          · have : ¬ ((addr * 8 + w.1).toNat = k ∧ (addr * 8 + w.1).toNat < l.length) := by
              omega
            rw [if_neg this, if_neg hr, Option.getD_none]
      · rw [if_neg hk, if_neg hk]
        have : ¬ ((addr * 8 + w.1).toNat = k ∧ (addr * 8 + w.1).toNat < l.length) := by omega
        rw [if_neg this]
    · rw [if_neg hw, ih _ hl]
      by_cases hk : addr * 8 ≤ (k : Int) ∧ (k : Int) ≤ addr * 8 + 7
      · rw [if_pos hk, if_pos hk]
        cases hlw : lastWrite ws ((k : Int) - addr * 8) with
        | some x => rfl
        | none =>
          have hr : ¬ w.1 = (k : Int) - addr * 8 := by omega
          simp only [if_neg hr]
      · rw [if_neg hk, if_neg hk]

/-- Reading the shadow array after a sequence of `setRow` calls on device `addr`:
a row of that device holds the byte of the last call for it, if there is one;
every other byte is unchanged. -/
theorem Wr.ldStatus {s t : State} {addr : Int} {ws : List (Int × Nat)} (hg : Good s)
    (h : Wr s t addr ws) (ha0 : 0 ≤ addr) (ha : addr < s.maxDevices) (i : Int) :
    ldStatus t i
      = if addr * 8 ≤ i ∧ i ≤ addr * 8 + 7
        then (lastWrite ws (i - addr * 8)).getD (ldStatus s i)
        else ldStatus s i := by
  have h8 := hg.2.2.2
  unfold LedControl.ldStatus
  rw [h.2.2.2.2.1]
  by_cases hi : 0 ≤ i ∧ i < 64
  · rw [if_pos hi, if_pos hi, applyWrites_getD _ _ _ hg.1 ha0 (by omega)]
    have e : ((i.toNat : Nat) : Int) = i := by omega
    rw [e]
  · rw [if_neg hi, if_neg hi]
    have : ¬ (addr * 8 ≤ i ∧ i ≤ addr * 8 + 7) := by omega
    rw [if_neg this]

theorem Wr.shadow {s t : State} {addr : Int} {ws : List (Int × Nat)} (hg : Good s)
    (h : Wr s t addr ws) (ha0 : 0 ≤ addr) (ha : addr < s.maxDevices) (r : Int)
    (hr0 : 0 ≤ r) (hr : r ≤ 7) :
    shadow t addr r = (lastWrite ws r).getD (shadow s addr r) := by
  unfold LedControl.shadow
  rw [h.ldStatus hg ha0 ha, if_pos (by omega)]
  have : addr * 8 + r - addr * 8 = r := by omega
  rw [this]

theorem lastWrite_map_range (p : Int) (f : Nat → Nat) (n : Nat) (r : Int) :
    lastWrite ((List.range n).map (fun (i : Nat) => (p + (i : Int), f i))) r
      = if p ≤ r ∧ r < p + n then some (f (r - p).toNat) else none := by
  induction n with
  | zero =>
    have : ¬ (p ≤ r ∧ r < p + ((0 : Nat) : Int)) := by omega
    rw [if_neg this]
    rfl
  | succ n ih =>
    rw [List.range_succ, List.map_append, lastWrite_append]
    simp only [List.map_cons, List.map_nil, lastWrite]
    by_cases hn : p + (n : Int) = r
    · have h2 : p ≤ r ∧ r < p + ((n + 1 : Nat) : Int) := by omega
      have h3 : (r - p).toNat = n := by omega
      rw [if_pos hn, if_pos h2, h3]
    · rw [if_neg hn, ih]
      by_cases h4 : p ≤ r ∧ r < p + (n : Int)
      · have h2 : p ≤ r ∧ r < p + ((n + 1 : Nat) : Int) := by omega
        rw [if_pos h4, if_pos h2]
      · have h2 : ¬ (p ≤ r ∧ r < p + ((n + 1 : Nat) : Int)) := by omega
        rw [if_neg h4, if_neg h2]

theorem lastWrite_charWrites (rows : List Nat) (p r : Int) :
    lastWrite (charWrites rows p) r
      = if p ≤ r ∧ r ≤ p + 6 then some (rows.getD (r - p).toNat 0) else none := by
  unfold charWrites
  rw [lastWrite_map_range p (fun i => rows.getD i 0) 7 r]
  by_cases h : p ≤ r ∧ r ≤ p + 6
  · have h2 : p ≤ r ∧ r < p + ((7 : Nat) : Int) := by omega
    rw [if_pos h, if_pos h2]
  · have h2 : ¬ (p ≤ r ∧ r < p + ((7 : Nat) : Int)) := by omega
    rw [if_neg h, if_neg h2]

/-! ## The rows of a character -/

theorem getD_set_self_zero (l : List Nat) (n : Nat) : (l.set n 0).getD n 0 = 0 := by
  rw [getD_set]
  split
  · rfl
  · rename_i h
    have : l.length ≤ n := by omega
    rw [List.getD_eq_getElem?_getD, List.getElem?_eq_none this]
    rfl

theorem getD_set_ne (l : List Nat) (n k v : Nat) (h : n ≠ k) :
    (l.set n v).getD k 0 = l.getD k 0 := by
  rw [getD_set, if_neg (fun hh => h hh.1)]

theorem charRows_zero (sRow0 : List Nat) (c : Int) : (charRows sRow0 c).getD 0 0 = 0 := by
  unfold charRows
  cases glyphCases.lookup c with
  | none =>
    rw [getD_set_ne _ 6 0 _ (by decide)]
    exact getD_set_self_zero sRow0 0
  | some g =>
    simp only []
    rw [getD_set_ne _ 5 0 _ (by decide), getD_set_ne _ 4 0 _ (by decide),
      getD_set_ne _ 3 0 _ (by decide), getD_set_ne _ 2 0 _ (by decide),
      getD_set_ne _ 1 0 _ (by decide), getD_set_ne _ 6 0 _ (by decide)]
    exact getD_set_self_zero sRow0 0

theorem charRows_six (sRow0 : List Nat) (c : Int) : (charRows sRow0 c).getD 6 0 = 0 := by
  unfold charRows
  cases glyphCases.lookup c with
  | none => exact getD_set_self_zero _ 6
  | some g =>
    simp only []
    rw [getD_set_ne _ 5 6 _ (by decide), getD_set_ne _ 4 6 _ (by decide),
      getD_set_ne _ 3 6 _ (by decide), getD_set_ne _ 2 6 _ (by decide),
      getD_set_ne _ 1 6 _ (by decide)]
    exact getD_set_self_zero _ 6

theorem charRows_glyph (sRow0 : List Nat) (c : Int) (g : Glyph) (j : Nat)
    (hl : sRow0.length = 7) (hg : glyphCases.lookup c = some g) (h1 : 1 ≤ j) (h5 : j ≤ 5) :
    (charRows sRow0 c).getD j 0 = glyphByte g j := by
  unfold charRows
  rw [hg]
  simp only [getD_set, List.length_set, hl]
  interval_cases j <;> simp [glyphByte]

theorem charRows_none (sRow0 : List Nat) (c : Int) (j : Nat)
    (hg : glyphCases.lookup c = none) (h1 : 1 ≤ j) (h5 : j ≤ 5) :
    (charRows sRow0 c).getD j 0 = sRow0.getD j 0 := by
  unfold charRows
  rw [hg]
  simp only [getD_set]
  have a : ¬ (6 = j ∧ 6 < (sRow0.set 0 0).length) := by omega
  have b : ¬ (0 = j ∧ 0 < sRow0.length) := by omega
  rw [if_neg a, if_neg b]

theorem charRows_value (sRow0 : List Nat) (c : Int) (g : Glyph) (i : Nat)
    (hl : sRow0.length = 7) (hg : glyphCases.lookup c = some g) (hi : i ≤ 6) :
    (charRows sRow0 c).getD i 0 = if i = 0 ∨ i = 6 then 0 else glyphByte g i := by
  by_cases h0 : i = 0
  · rw [if_pos (Or.inl h0), h0, charRows_zero]
  · by_cases h6 : i = 6
    · rw [if_pos (Or.inr h6), h6, charRows_six]
    · have : ¬ (i = 0 ∨ i = 6) := by omega
      rw [if_neg this, charRows_glyph sRow0 c g i hl hg (by omega) (by omega)]

theorem writeEvents_map (s : State) (addr p : Int) (f : Nat → Nat) (l : List Nat) :
    writeEvents s addr (l.map (fun (i : Nat) => (p + (i : Int), f i)))
      = (l.filter (fun (i : Nat) => decide (0 ≤ p + (i : Int) ∧ p + (i : Int) ≤ 7))).flatMap
          (fun (i : Nat) => transaction s addr (p + (i : Int) + 1).toNat (f i)) := by
  induction l with
  | nil => rfl
  | cons a l ih =>
    rw [List.map_cons, writeEvents, ih]
    by_cases h : 0 ≤ p + (a : Int) ∧ p + (a : Int) ≤ 7
    · rw [if_pos h, List.filter_cons_of_pos (by simpa using h), List.flatMap_cons]
    · rw [if_neg h, List.filter_cons_of_neg (by simpa using h), List.nil_append]

theorem flatMap_congr_mem {α β : Type} (l : List α) (f g : α → List β)
    (h : ∀ a ∈ l, f a = g a) : l.flatMap f = l.flatMap g := by
  induction l with
  | nil => rfl
  | cons a l ih =>
    rw [List.flatMap_cons, List.flatMap_cons, h a (List.mem_cons_self a l),
      ih (fun b hb => h b (List.mem_cons_of_mem a hb))]

/-! ## The rows of a string -/

theorem stringWrites_of_count_zero (sRow0 : Nat → List Nat) (pos : Int) (string : List Int)
    (i : Nat) (h : countChars string = 0) : stringWrites sRow0 pos string i = [] := by
  cases string with
  | nil => rfl
  | cons ch rest =>
    unfold countChars at h
    unfold stringWrites
    by_cases hc : ch = 0
    · rw [if_pos hc]
    · rw [if_neg hc] at h
      omega

theorem countChars_cons_ne (ch : Int) (rest : List Int) (hc : ¬ ch = 0) :
    countChars (ch :: rest) = countChars rest + 1 := by
  simp [countChars, hc]

theorem countChars_cons_zero (ch : Int) (rest : List Int) (hc : ch = 0) :
    countChars (ch :: rest) = 0 := by
  simp [countChars, hc]

/-- No call of `printString` touches a row before its first or after its last. -/
theorem lastWrite_stringWrites_out (sRow0 : Nat → List Nat) (pos : Int) (string : List Int)
    (i : Nat) (r : Int)
    (h : r < 6 * (i : Int) + pos ∨ r > 6 * (i : Int) + pos + 6 * (countChars string : Int)) :
    lastWrite (stringWrites sRow0 pos string i) r = none := by
  induction string generalizing i with
  | nil => rfl
  | cons ch rest ih =>
    unfold stringWrites
    by_cases hc : ch = 0
    · rw [if_pos hc]
      rfl
    · rw [if_neg hc, lastWrite_append]
      have hcount := countChars_cons_ne ch rest hc
      rw [hcount] at h
      rw [ih (i + 1) (by omega), lastWrite_charWrites, if_neg (by omega)]

theorem getD_cons_succ (ch : Int) (rest : List Int) (k : Nat) :
    (ch :: rest).getD (k + 1) 0 = rest.getD k 0 := by
  simp [List.getD_eq_getElem?_getD]

/-- Row `6*k+j` of a string, `1 <= j <= 5`, is written last by character `k`. -/
theorem lastWrite_stringWrites_glyph (sRow0 : Nat → List Nat) (pos : Int)
    (string : List Int) (i k j : Nat) (r : Int) (hk : k < countChars string)
    (h1 : 1 ≤ j) (h5 : j ≤ 5) (hr : r = 6 * (i : Int) + pos + 6 * (k : Int) + (j : Int)) :
    lastWrite (stringWrites sRow0 pos string i) r
      = some ((charRows (sRow0 (i + k)) (string.getD k 0)).getD j 0) := by
  induction string generalizing i k with
  | nil => simp [countChars] at hk
  | cons ch rest ih =>
    unfold stringWrites
    by_cases hc : ch = 0
    · rw [countChars_cons_zero ch rest hc] at hk
      omega
    · have hcount := countChars_cons_ne ch rest hc
      rw [hcount] at hk
      rw [if_neg hc, lastWrite_append]
      cases k with
      | zero =>
        rw [lastWrite_stringWrites_out sRow0 pos rest (i + 1) r (by omega),
          lastWrite_charWrites, if_pos (by omega)]
        have e : (r - (6 * (i : Int) + pos)).toNat = j := by omega
        rw [e]
        rfl
      | succ k =>
        rw [ih (i + 1) k (by omega) (by omega), getD_cons_succ]
        have e : i + 1 + k = i + (k + 1) := by omega
        rw [e]

/-- Row `6*k` of a string of `c >= 1` characters, `0 <= k <= c`, is written last
with 0. -/
theorem lastWrite_stringWrites_gap (sRow0 : Nat → List Nat) (pos : Int)
    (string : List Int) (i k : Nat) (r : Int) (hc1 : 1 ≤ countChars string)
    (hk : k ≤ countChars string) (hr : r = 6 * (i : Int) + pos + 6 * (k : Int)) :
    lastWrite (stringWrites sRow0 pos string i) r = some 0 := by
  induction string generalizing i k with
  | nil => simp [countChars] at hc1
  | cons ch rest ih =>
    unfold stringWrites
    by_cases hc : ch = 0
    · rw [countChars_cons_zero ch rest hc] at hc1
      omega
    · have hcount := countChars_cons_ne ch rest hc
      rw [hcount] at hk
      rw [if_neg hc, lastWrite_append]
      cases k with
      | zero =>
        rw [lastWrite_stringWrites_out sRow0 pos rest (i + 1) r (by omega),
          lastWrite_charWrites, if_pos (by omega)]
        have e : (r - (6 * (i : Int) + pos)).toNat = 0 := by omega
        rw [e, charRows_zero]
      | succ k =>
        by_cases hrest : 1 ≤ countChars rest
        · rw [ih (i + 1) k hrest (by omega) (by omega)]
        · have h0 : countChars rest = 0 := by omega
          rw [stringWrites_of_count_zero sRow0 pos rest (i + 1) h0]
          show lastWrite (charWrites (charRows (sRow0 i) ch) (6 * (i : Int) + pos)) r = some 0
          rw [lastWrite_charWrites, if_pos (by omega)]
          have e : (r - (6 * (i : Int) + pos)).toNat = 6 := by omega
          rw [e, charRows_six]

/-- The loop of `printString` is the sequence of its `printChar` calls. -/
theorem printStringLoop_eq_foldl (sRow0 : Nat → List Nat) (addr pos : Int)
    (string : List Int) (i : Nat) (s : State) :
    printStringLoop sRow0 addr pos string i s
      = (List.range (countChars string)).foldl
          (fun t (k : Nat) =>
            printChar (sRow0 (i + k)) t addr (pos + 6 * ((i + k : Nat) : Int))
              (string.getD k 0)) s := by
  induction string generalizing i s with
  | nil => rfl
  | cons ch rest ih =>
    unfold printStringLoop countChars
    by_cases hc : ch = 0
    · rw [if_pos hc, if_pos hc]
      rfl
    · rw [if_neg hc, if_neg hc, List.range_succ_eq_map, List.foldl_cons, List.foldl_map, ih]
      have e0 : pos + 6 * ((i + 0 : Nat) : Int) = 6 * (i : Int) + pos := by omega
      have einit : printChar (sRow0 (i + 0)) s addr (pos + 6 * ((i + 0 : Nat) : Int))
            ((ch :: rest).getD 0 0)
          = printChar (sRow0 i) s addr (6 * (i : Int) + pos) ch := by
        rw [e0]
        rfl
      have efun : (fun (x : State) (y : Nat) =>
            printChar (sRow0 (i + y.succ)) x addr (pos + 6 * ((i + y.succ : Nat) : Int))
              ((ch :: rest).getD y.succ 0))
          = (fun (t : State) (k : Nat) =>
            printChar (sRow0 (i + 1 + k)) t addr (pos + 6 * ((i + 1 + k : Nat) : Int))
              (rest.getD k 0)) := by
        funext t k
        have e2 : i + k.succ = i + 1 + k := by omega
        rw [e2, getD_cons_succ]
      rw [einit, efun]

/-! ## Scrolling: the final display -/

theorem foldl_range_induct (P : Nat → State → Prop) (f : State → Nat → State) (n : Nat)
    (s : State) (h0 : P 0 s) (hstep : ∀ i, i < n → ∀ t, P i t → P (i + 1) (f t i)) :
    P n ((List.range n).foldl f s) := by
  induction n with
  | zero => exact h0
  | succ n ih =>
    rw [List.range_succ, List.foldl_append]
    exact hstep n (Nat.lt_succ_self n) _
      (ih (fun i hi t ht => hstep i (Nat.lt_succ_of_lt hi) t ht))

theorem Good.emit {s : State} (h : Good s) (e : Event) : Good (emit s e) := h

theorem shadow_emit (s : State) (e : Event) (addr r : Int) :
    shadow (emit s e) addr r = shadow s addr r := rfl

/-- One step of a scroll keeps the state good and the device count. -/
theorem scroll_step_good (sRow0 : Nat → List Nat) (s t : State) (addr p tDelay : Int)
    (string : List Int) (hg : Good t) (hm : t.maxDevices = s.maxDevices)
    (ha0 : 0 ≤ addr) (ha : addr < s.maxDevices) :
    Good (emit (printString sRow0 t addr p string) (Event.delay tDelay))
    ∧ (emit (printString sRow0 t addr p string) (Event.delay tDelay)).maxDevices
        = s.maxDevices := by
  have h := printString_wr sRow0 t addr p string hg ha0 (by rw [hm]; exact ha)
  exact ⟨(h.goodAfter hg).emit _, by rw [emit_maxDevices, h.2.2.2.1, hm]⟩

/-- Left scroll from `pos`: after `n` steps the rows `pos+6*c+1-n .. pos+6*c` of
the device that lie in 0..7 hold 0. -/
theorem scroll_left_rows (sRow0 : Nat → Nat → List Nat) (s : State) (addr pos tDelay : Int)
    (string : List Int) (n : Nat) (hg : Good s) (ha0 : 0 ≤ addr) (ha : addr < s.maxDevices)
    (hc1 : 1 ≤ countChars string) :
    Good ((List.range n).foldl (fun t (i : Nat) =>
        emit (printString (sRow0 i) t addr (pos - (i : Int)) string) (Event.delay tDelay)) s)
    ∧ ((List.range n).foldl (fun t (i : Nat) =>
        emit (printString (sRow0 i) t addr (pos - (i : Int)) string) (Event.delay tDelay))
          s).maxDevices = s.maxDevices
    ∧ ∀ r : Int, 0 ≤ r → r ≤ 7 → pos + 6 * (countChars string : Int) + 1 - (n : Int) ≤ r →
        r ≤ pos + 6 * (countChars string : Int) →
        shadow ((List.range n).foldl (fun t (i : Nat) =>
          emit (printString (sRow0 i) t addr (pos - (i : Int)) string) (Event.delay tDelay))
            s) addr r = 0 := by
  apply foldl_range_induct
    (fun n t => Good t ∧ t.maxDevices = s.maxDevices
      ∧ ∀ r : Int, 0 ≤ r → r ≤ 7 → pos + 6 * (countChars string : Int) + 1 - (n : Int) ≤ r →
          r ≤ pos + 6 * (countChars string : Int) → shadow t addr r = 0)
  · exact ⟨hg, rfl, fun r _ _ h1 h2 => by omega⟩
  · intro i _ t ⟨hgt, hm, hrows⟩
    have hsg := scroll_step_good (sRow0 i) s t addr (pos - (i : Int)) tDelay string hgt hm ha0 ha
    refine ⟨hsg.1, hsg.2, ?_⟩
    intro r h0 h7 hlo hhi
    have h := printString_wr (sRow0 i) t addr (pos - (i : Int)) string hgt ha0
      (by rw [hm]; exact ha)
    rw [shadow_emit, h.shadow hgt ha0 (by rw [hm]; exact ha) r h0 h7]
    by_cases hr : r = pos - (i : Int) + 6 * (countChars string : Int)
    · rw [lastWrite_stringWrites_gap (sRow0 i) (pos - (i : Int)) string 0 (countChars string) r
        hc1 (Nat.le_refl _) (by omega), Option.getD_some]
    · rw [lastWrite_stringWrites_out (sRow0 i) (pos - (i : Int)) string 0 r (by omega),
        Option.getD_none]
      exact hrows r h0 h7 (by omega) hhi

theorem printStringScroll_left (sRow0 : Nat → Nat → List Nat) (s : State) (addr pos : Int)
    (string : List Int) (tDelay : Int) :
    printStringScroll sRow0 s addr pos string tDelay 60
      = (List.range (6 * countChars string + 1)).foldl
          (fun t (i : Nat) =>
            emit (printString (sRow0 i) t addr (pos - (i : Int)) string)
              (Event.delay tDelay)) s := by
  have en : (((countChars string : Nat) : Int) * 6 + 1).toNat = 6 * countChars string + 1 := by
    omega
  unfold printStringScroll
  simp only [if_pos, en]
  congr 1
  funext t i
  have : -(i : Int) + pos = pos - (i : Int) := by omega
  rw [this]

theorem printStringScroll_right (sRow0 : Nat → Nat → List Nat) (s : State) (addr pos : Int)
    (string : List Int) (tDelay : Int) :
    printStringScroll sRow0 s addr pos string tDelay 62
      = (List.range (6 * countChars string + 1)).foldl
          (fun t (i : Nat) =>
            emit (printString (sRow0 i) t addr
                (pos - 6 * ((countChars string : Nat) : Int) + (i : Int)) string)
              (Event.delay tDelay)) s := by
  have en : (((countChars string : Nat) : Int) * 6 + 1).toNat = 6 * countChars string + 1 := by
    omega
  unfold printStringScroll
  have h6 : ¬ ((62 : Int) = 60) := by decide
  simp only [if_neg h6, if_pos, en]
  congr 1
  funext t i
  have : -(((countChars string : Nat) : Int) * 6) + (i : Int) + pos
      = pos - 6 * ((countChars string : Nat) : Int) + (i : Int) := by omega
  rw [this]

/-- The steps of a scroll keep the state good and the device count. -/
theorem scroll_good (g : Nat → Nat → List Nat) (p : Nat → Int) (s : State)
    (addr tDelay : Int) (string : List Int) (n : Nat) (hg : Good s)
    (ha0 : 0 ≤ addr) (ha : addr < s.maxDevices) :
    Good ((List.range n).foldl (fun t (i : Nat) =>
        emit (printString (g i) t addr (p i) string) (Event.delay tDelay)) s)
    ∧ ((List.range n).foldl (fun t (i : Nat) =>
        emit (printString (g i) t addr (p i) string) (Event.delay tDelay)) s).maxDevices
        = s.maxDevices := by
  apply foldl_range_induct (fun _ t => Good t ∧ t.maxDevices = s.maxDevices)
  · exact ⟨hg, rfl⟩
  · intro i _ t ⟨hgt, hm⟩
    exact scroll_step_good (g i) s t addr (p i) tDelay string hgt hm ha0 ha

/-! ## The reader of the bus -/

theorem frame_length (N addr : Int) (opcode data : Nat) :
    (frame N addr opcode data).length = (2 * N).toNat := by
  simp [frame]

theorem frame_getD (N addr : Int) (opcode data k : Nat) (hk : k < (2 * N).toNat) :
    (frame N addr opcode data).getD k 0
      = if (k : Int) = 2 * (N - 1 - addr) then opcode
        else if (k : Int) = 2 * (N - 1 - addr) + 1 then data else 0 := by
  simp [frame, List.getD_eq_getElem?_getD, hk]

theorem foldl_busStep_shiftOut (cs mosi clk : Int) (N d op : Nat) (bytes : List Nat)
    (b : Bus) :
    (bytes.map (Event.shiftOut mosi clk)).foldl (busStep cs N d op) b
      = { b with cur := b.cur.map (fun l => l ++ bytes) } := by
  induction bytes generalizing b with
  | nil =>
    cases b with
    | mk cur last => cases cur <;> simp
  | cons v bytes ih =>
    rw [List.map_cons, List.foldl_cons, ih]
    cases b with
    | mk cur last => cases cur <;> simp [busStep]

/-- The reader after one transaction: the data is recorded exactly when the
transaction is addressed to device `d` and carries opcode `op`. -/
theorem foldl_busStep_transaction (s : State) (a : Int) (o v d op : Nat) (b : Bus)
    (h1 : 1 ≤ s.maxDevices) (hd : (d : Int) < s.maxDevices) (hop : 1 ≤ op) :
    (transaction s a o v).foldl (busStep s.SPI_CS s.maxDevices.toNat d op) b
      = { cur := none, last := if a = (d : Int) ∧ o = op then some v else b.last } := by
  obtain ⟨n, hn⟩ : ∃ n : ℕ, s.maxDevices = n := ⟨s.maxDevices.toNat, by omega⟩
  unfold transaction
  rw [List.foldl_append, List.foldl_append, foldl_busStep_shiftOut]
  simp only [List.foldl_cons, List.foldl_nil, busStep, if_pos, Option.map_some',
    List.nil_append]
  rw [hn] at h1 hd ⊢
  have hlen : (frame (n : Int) a o v).length = 2 * n := by
    rw [frame_length]
    omega
  have e1 : (n : Int).toNat = n := by omega
  rw [e1, hlen]
  have k1 : 2 * (n - 1 - d) < (2 * (n : Int)).toNat := by omega
  have k2 : 2 * (n - 1 - d) + 1 < (2 * (n : Int)).toNat := by omega
  rw [frame_getD _ _ _ _ _ k1, frame_getD _ _ _ _ _ k2]
  by_cases had : a = (d : Int)
  · have c1 : ((2 * (n - 1 - d) : Nat) : Int) = 2 * ((n : Int) - 1 - a) := by omega
    have c2 : ((2 * (n - 1 - d) + 1 : Nat) : Int) = 2 * ((n : Int) - 1 - a) + 1 := by omega
    have c3 : ¬ ((2 * (n - 1 - d) + 1 : Nat) : Int) = 2 * ((n : Int) - 1 - a) := by omega
    rw [if_pos c1, if_neg c3, if_pos c2]
    by_cases ho : o = op
    · simp [had, ho]
    · simp [had, ho]
  · have c1 : ¬ ((2 * (n - 1 - d) : Nat) : Int) = 2 * ((n : Int) - 1 - a) := by omega
    have c2 : ¬ ((2 * (n - 1 - d) : Nat) : Int) = 2 * ((n : Int) - 1 - a) + 1 := by omega
    rw [if_neg c1, if_neg c2]
    have hop0 : ¬ (0 = op) := by omega
    simp [had, hop0]

/-! ## Shadow and hardware in step -/

theorem busRun_eff {s t : State} {st : List Nat} {ev : List Event} (h : Eff s t st ev)
    (d r : Nat) :
    busRun t d r = ev.foldl (busStep s.SPI_CS s.maxDevices.toNat d (r + 1)) (busRun s d r) := by
  unfold busRun
  rw [h.2.2.1, h.2.2.2.1, h.2.2.2.2.2.2.1, List.foldl_append]

/-- One transaction keeps shadow and hardware in step on `S2` when every pair of
`S2` it is not addressed to was in step before and keeps its shadow byte, and
the pair it is addressed to gets its data as shadow byte. -/
theorem SyncOn.step {S S2 : Nat → Nat → Prop} {s t : State} {st : List Nat} {a : Int}
    {o v : Nat} (hg : Good s) (hs : SyncOn S s) (he : Eff s t st (transaction s a o v))
    (hsh : ∀ d r : Nat, (d : Int) < s.maxDevices → r ≤ 7 → S2 d r →
      (a = (d : Int) ∧ o = r + 1 → shadow t (d : Int) (r : Int) = v)
      ∧ (¬ (a = (d : Int) ∧ o = r + 1) →
          S d r ∧ shadow t (d : Int) (r : Int) = shadow s (d : Int) (r : Int))) :
    SyncOn S2 t := by
  intro d r hd hr hS2
  rw [he.2.2.2.1] at hd
  rw [busRun_eff he, foldl_busStep_transaction s a o v d (r + 1) _ hg.2.2.1 hd (by omega)]
  obtain ⟨h1, h2⟩ := hsh d r hd hr hS2
  by_cases hc : a = (d : Int) ∧ o = r + 1
  · rw [if_pos hc, h1 hc]
  · obtain ⟨hSd, hshadow⟩ := h2 hc
    rw [if_neg hc, hs d r hd hr hSd, hshadow]

/-- A transaction with an opcode above 8 and no store keeps shadow and hardware
in step. -/
theorem SyncOn.send {S : Nat → Nat → Prop} {s t : State} {a : Int} {o v : Nat}
    (hg : Good s) (hs : SyncOn S s) (he : Eff s t s.status (transaction s a o v))
    (ho : 9 ≤ o) : SyncOn S t := by
  apply SyncOn.step hg hs he
  intro d r hd hr hSd
  constructor
  · intro hc
    omega
  · intro _
    refine ⟨hSd, ?_⟩
    unfold shadow
    exact ldStatus_congr s t he.2.2.2.2.1 _

/-- A store in row `r0` of device `a` followed by the transaction that sends the
stored byte with opcode `r0+1` brings that row in step and keeps the others. -/
theorem SyncOn.store {S : Nat → Nat → Prop} {s t : State} {a r0 : Int} {v : Nat}
    (hg : Good s) (hs : SyncOn S s)
    (he : Eff s t (s.status.set (a * 8 + r0).toNat v) (transaction s a (r0 + 1).toNat v))
    (ha0 : 0 ≤ a) (ha : a < s.maxDevices) (hr0 : 0 ≤ r0) (hr7 : r0 ≤ 7) :
    SyncOn (fun d r => S d r ∨ ((d : Int) = a ∧ (r : Int) = r0)) t := by
  have h8 := hg.2.2.2
  apply SyncOn.step hg hs he
  intro d r hd hr hS2
  have hld : ∀ i : Int, ldStatus t i
      = if i = a * 8 + r0 then v else ldStatus s i := by
    intro i
    rw [ldStatus_set s t _ _ he.2.2.2.2.1 hg.1 (by omega) i, toNat_index a r0 ha0 hr0]
  constructor
  · intro hc
    unfold shadow
    rw [hld, if_pos (by omega)]
  · intro hc
    have hne : ¬ ((d : Int) = a ∧ (r : Int) = r0) := by omega
    constructor
    · rcases hS2 with h | h
      · exact h
      · exact absurd h hne
    · unfold shadow
      rw [hld, if_neg (by omega)]

theorem SyncOn.mono {S S2 : Nat → Nat → Prop} {s : State} (hs : SyncOn S s)
    (h : ∀ d r, S2 d r → S d r) : SyncOn S2 s :=
  fun d r hd hr h2 => hs d r hd hr (h d r h2)

theorem SyncOn.emit_delay {S : Nat → Nat → Prop} {s : State} (hs : SyncOn S s) (tDelay : Int) :
    SyncOn S (emit s (Event.delay tDelay)) := by
  intro d r hd hr hSd
  have := hs d r hd hr hSd
  unfold busRun at this ⊢
  rw [emit_log, List.foldl_append, emit_CS, emit_maxDevices, this]
  rfl

theorem Kept.same {S : Nat → Nat → Prop} {s : State} (hg : Good s) (hs : SyncOn S s) :
    Kept S s s := ⟨hg, Eq.refl _, hs⟩

theorem Kept.andThen {S S2 : Nat → Nat → Prop} {s t u : State} (h1 : Kept S s t)
    (h2 : Kept S2 t u) : Kept S2 s u := ⟨h2.1, h2.2.1.trans h1.2.1, h2.2.2⟩

theorem Kept.weaken {S S2 : Nat → Nat → Prop} {s t : State} (h1 : Kept S s t)
    (h : ∀ d r, S2 d r → S d r) : Kept S2 s t := ⟨h1.1, h1.2.1, h1.2.2.mono h⟩

theorem Good.of_store {s t : State} {n v : Nat} {ev : List Event} (hg : Good s)
    (h : Eff s t (s.status.set n v) ev) : Good t := by
  refine ⟨?_, h.2.2.2.2.2.1, ?_, ?_⟩
  · rw [h.2.2.2.2.1, List.length_set, hg.1]
  · rw [h.2.2.2.1]; exact hg.2.2.1
  · rw [h.2.2.2.1]; exact hg.2.2.2

theorem Good.of_eff_same {s t : State} {ev : List Event} (hg : Good s)
    (h : Eff s t s.status ev) : Good t := by
  refine ⟨?_, h.2.2.2.2.2.1, ?_, ?_⟩
  · rw [h.2.2.2.2.1, hg.1]
  · rw [h.2.2.2.1]; exact hg.2.2.1
  · rw [h.2.2.2.1]; exact hg.2.2.2

theorem kept_of_send {S : Nat → Nat → Prop} {s t : State} {a : Int} {o v : Nat}
    (hg : Good s) (hs : SyncOn S s) (he : Eff s t s.status (transaction s a o v))
    (ho : 9 ≤ o) : Kept S s t :=
  ⟨hg.of_eff_same he, he.2.2.2.1, hs.send hg he ho⟩

theorem kept_of_store {S : Nat → Nat → Prop} {s t : State} {a r0 : Int} {v : Nat}
    (hg : Good s) (hs : SyncOn S s)
    (he : Eff s t (s.status.set (a * 8 + r0).toNat v) (transaction s a (r0 + 1).toNat v))
    (ha0 : 0 ≤ a) (ha : a < s.maxDevices) (hr0 : 0 ≤ r0) (hr7 : r0 ≤ 7) :
    Kept (fun d r => S d r ∨ ((d : Int) = a ∧ (r : Int) = r0)) s t :=
  ⟨hg.of_store he, he.2.2.2.1, hs.store hg he ha0 ha hr0 hr7⟩

theorem spiTransfer_kept {S : Nat → Nat → Prop} (s : State) (a : Int) (o v : Nat)
    (hg : Good s) (hs : SyncOn S s) (ha0 : 0 ≤ a) (ha : a < s.maxDevices) (ho : 9 ≤ o) :
    Kept S s (spiTransfer s a o v) :=
  kept_of_send hg hs (spiTransfer_eff s a o v hg.2.1 hg.2.2.1 hg.2.2.2 ha0 ha) ho

theorem shutdown_kept {S : Nat → Nat → Prop} (s : State) (addr : Int) (b : Bool)
    (hg : Good s) (hs : SyncOn S s) : Kept S s (shutdown s addr b) := by
  by_cases g1 : addr < 0 ∨ addr ≥ s.maxDevices
  · simp only [shutdown, if_pos g1]
    exact Kept.same hg hs
  · exact kept_of_send hg hs
      (shutdown_eff s addr b hg.2.1 hg.2.2.1 hg.2.2.2 (by omega) (by omega)) (by decide)

theorem setScanLimit_kept {S : Nat → Nat → Prop} (s : State) (addr limit : Int)
    (hg : Good s) (hs : SyncOn S s) : Kept S s (setScanLimit s addr limit) := by
  by_cases g1 : addr < 0 ∨ addr ≥ s.maxDevices
  · simp only [setScanLimit, if_pos g1]
    exact Kept.same hg hs
  · exact kept_of_send hg hs
      (setScanLimit_eff s addr limit hg.2.1 hg.2.2.1 hg.2.2.2 (by omega) (by omega))
      (by decide)

theorem setIntensity_kept {S : Nat → Nat → Prop} (s : State) (addr intensity : Int)
    (hg : Good s) (hs : SyncOn S s) : Kept S s (setIntensity s addr intensity) := by
  by_cases g1 : addr < 0 ∨ addr ≥ s.maxDevices
  · simp only [setIntensity, if_pos g1]
    exact Kept.same hg hs
  · have g2 : intensity ≥ 0 ∨ intensity < 16 := by omega
    simp only [setIntensity, if_neg g1, if_pos g2]
    exact spiTransfer_kept s addr _ _ hg hs (by omega) (by omega) (by decide)

theorem setRow_kept {S : Nat → Nat → Prop} (s : State) (addr row : Int) (value : Nat)
    (hg : Good s) (hs : SyncOn S s) : Kept S s (setRow s addr row value) := by
  by_cases g1 : addr < 0 ∨ addr ≥ s.maxDevices
  · simp only [setRow, if_pos g1]
    exact Kept.same hg hs
  · by_cases g2 : row < 0 ∨ row > 7
    · simp only [setRow, if_neg g1, if_pos g2]
      exact Kept.same hg hs
    · exact (kept_of_store hg hs
        (setRow_eff s addr row value hg.1 hg.2.1 hg.2.2.1 hg.2.2.2 (by omega) (by omega)
          (by omega) (by omega))
        (by omega) (by omega) (by omega) (by omega)).weaken (fun d r h => Or.inl h)

theorem setLed_kept {S : Nat → Nat → Prop} (s : State) (addr row column : Int)
    (state : Bool) (hg : Good s) (hs : SyncOn S s) :
    Kept S s (setLed s addr row column state) := by
  by_cases g1 : addr < 0 ∨ addr ≥ s.maxDevices
  · simp only [setLed, if_pos g1]
    exact Kept.same hg hs
  · by_cases g2 : row < 0 ∨ row > 7 ∨ column < 0 ∨ column > 7
    · simp only [setLed, if_neg g1, if_pos g2]
      exact Kept.same hg hs
    · exact (kept_of_store hg hs
        (setLed_eff s addr row column state hg.1 hg.2.1 hg.2.2.1 hg.2.2.2 (by omega)
          (by omega) (by omega) (by omega) (by omega) (by omega))
        (by omega) (by omega) (by omega) (by omega)).weaken (fun d r h => Or.inl h)

theorem setDigit_kept {S : Nat → Nat → Prop} (charTable : Nat → Nat) (s : State)
    (addr digit : Int) (value : Nat) (dp : Bool) (hg : Good s) (hs : SyncOn S s) :
    Kept S s (setDigit charTable s addr digit value dp) := by
  by_cases g1 : addr < 0 ∨ addr ≥ s.maxDevices
  · simp only [setDigit, if_pos g1]
    exact Kept.same hg hs
  · by_cases g2 : digit < 0 ∨ digit > 7 ∨ value > 15
    · simp only [setDigit, if_neg g1, if_pos g2]
      exact Kept.same hg hs
    · exact (kept_of_store hg hs
        (setDigit_eff charTable s addr digit value dp hg.2.1 hg.2.2.1 hg.2.2.2 (by omega)
          (by omega) (by omega) (by omega) (by omega))
        (by omega) (by omega) (by omega) (by omega)).weaken (fun d r h => Or.inl h)

theorem setChar_kept {S : Nat → Nat → Prop} (charTable : Nat → Nat) (s : State)
    (addr digit value : Int) (dp : Bool) (hg : Good s) (hs : SyncOn S s) :
    Kept S s (setChar charTable s addr digit value dp) := by
  by_cases g1 : addr < 0 ∨ addr ≥ s.maxDevices
  · simp only [setChar, if_pos g1]
    exact Kept.same hg hs
  · by_cases g2 : digit < 0 ∨ digit > 7
    · simp only [setChar, if_neg g1, if_pos g2]
      exact Kept.same hg hs
    · exact (kept_of_store hg hs
        (setChar_eff charTable s addr digit value dp hg.2.1 hg.2.2.1 hg.2.2.2 (by omega)
          (by omega) (by omega) (by omega))
        (by omega) (by omega) (by omega) (by omega)).weaken (fun d r h => Or.inl h)

/-- `clearDisplay` on a device of the chain brings its eight rows in step. -/
theorem clearDisplay_kept_rows {S : Nat → Nat → Prop} (s : State) (addr : Int)
    (hg : Good s) (hs : SyncOn S s) (ha0 : 0 ≤ addr) (ha : addr < s.maxDevices) :
    Kept (fun d r => S d r ∨ (d : Int) = addr) s (clearDisplay s addr) := by
  have g1 : ¬ (addr < 0 ∨ addr ≥ s.maxDevices) := by omega
  simp only [clearDisplay, if_neg g1]
  have h := foldl_range_induct
    (fun k t => Kept (fun d r => S d r ∨ ((d : Int) = addr ∧ r < k)) s t)
    (fun t (i : Nat) =>
      spiTransfer (stStatus t (addr * 8 + (i : Int)) 0) addr (toByte ((i : Int) + 1))
        (ldStatus (stStatus t (addr * 8 + (i : Int)) 0) (addr * 8 + (i : Int))))
    8 s ((Kept.same hg hs).weaken (fun d r h => by
      rcases h with h | h
      · exact h
      · omega))
    (by
      intro i hi t ht
      have hm := ht.2.1
      have e1 : toByte ((i : Int) + 1) = ((i : Int) + 1).toNat := by unfold toByte; omega
      have he := store_transfer_eff t addr (i : Int) (toByte ((i : Int) + 1)) 0 ht.1.1 ht.1.2.1
        ht.1.2.2.1 ht.1.2.2.2 ha0 (by rw [hm]; exact ha) (by omega) (by omega)
      beta_reduce
      rw [e1] at he ⊢
      have hk := kept_of_store ht.1 ht.2.2 he ha0 (by rw [hm]; exact ha) (by omega) (by omega)
      exact (ht.andThen hk).weaken (fun d r h => by
        rcases h with h | h
        · exact Or.inl (Or.inl h)
        · by_cases hr : r = i
          · exact Or.inr ⟨h.1, by omega⟩
          · exact Or.inl (Or.inr ⟨h.1, by omega⟩)))
  refine ⟨h.1, h.2.1, ?_⟩
  intro d r hd hr hS
  apply h.2.2 d r hd hr
  rcases hS with hS | hS
  · exact Or.inl hS
  · exact Or.inr ⟨hS, by omega⟩

theorem clearDisplay_kept {S : Nat → Nat → Prop} (s : State) (addr : Int)
    (hg : Good s) (hs : SyncOn S s) : Kept S s (clearDisplay s addr) := by
  by_cases g1 : addr < 0 ∨ addr ≥ s.maxDevices
  · simp only [clearDisplay, if_pos g1]
    exact Kept.same hg hs
  · exact (clearDisplay_kept_rows s addr hg hs (by omega) (by omega)).weaken
      (fun d r h => Or.inl h)

/-- A loop whose steps keep shadow and hardware in step keeps them in step. -/
theorem foldl_kept {α : Type} {S : Nat → Nat → Prop} (f : State → α → State) (l : List α)
    (s : State) (hg : Good s) (hs : SyncOn S s)
    (hf : ∀ t a, Good t → SyncOn S t → Kept S t (f t a)) : Kept S s (l.foldl f s) := by
  apply foldl_preserves (fun t => Kept S s t) f
  · intro t a ht
    exact ht.andThen (hf t a ht.1 ht.2.2)
  · exact Kept.same hg hs

theorem setColumn_kept {S : Nat → Nat → Prop} (s : State) (addr col : Int) (value : Nat)
    (hg : Good s) (hs : SyncOn S s) : Kept S s (setColumn s addr col value) := by
  unfold setColumn
  split
  · exact Kept.same hg hs
  · split
    · exact Kept.same hg hs
    · exact foldl_kept _ _ s hg hs (fun t a hgt hst => setLed_kept t addr _ col _ hgt hst)

theorem printChar_kept {S : Nat → Nat → Prop} (sRow0 : List Nat) (s : State)
    (addr pos c : Int) (hg : Good s) (hs : SyncOn S s) :
    Kept S s (printChar sRow0 s addr pos c) := by
  unfold printChar
  exact foldl_kept _ _ s hg hs (fun t a hgt hst => setRow_kept t addr _ _ hgt hst)

theorem printStringLoop_kept {S : Nat → Nat → Prop} (sRow0 : Nat → List Nat)
    (addr pos : Int) (string : List Int) (i : Nat) (s : State) (hg : Good s)
    (hs : SyncOn S s) : Kept S s (printStringLoop sRow0 addr pos string i s) := by
  induction string generalizing i s with
  | nil => exact Kept.same hg hs
  | cons ch rest ih =>
    unfold printStringLoop
    split
    · exact Kept.same hg hs
    · have h1 := printChar_kept (sRow0 i) s addr (6 * (i : Int) + pos) ch hg hs
      exact h1.andThen (ih (i + 1) _ h1.1 h1.2.2)

theorem printString_kept {S : Nat → Nat → Prop} (sRow0 : Nat → List Nat) (s : State)
    (addr pos : Int) (string : List Int) (hg : Good s) (hs : SyncOn S s) :
    Kept S s (printString sRow0 s addr pos string) :=
  printStringLoop_kept sRow0 addr pos string 0 s hg hs

theorem emit_delay_kept {S : Nat → Nat → Prop} (s : State) (tDelay : Int) (hg : Good s)
    (hs : SyncOn S s) : Kept S s (emit s (Event.delay tDelay)) :=
  ⟨hg.emit _, Eq.refl _, hs.emit_delay tDelay⟩

theorem printStringScroll_kept {S : Nat → Nat → Prop} (sRow0 : Nat → Nat → List Nat)
    (s : State) (addr pos : Int) (string : List Int) (tDelay sentido : Int) (hg : Good s)
    (hs : SyncOn S s) :
    Kept S s (printStringScroll sRow0 s addr pos string tDelay sentido) := by
  unfold printStringScroll
  simp only []
  split
  · exact foldl_kept _ _ s hg hs (fun t i hgt hst =>
      (printString_kept (sRow0 i) t addr _ string hgt hst).andThen
        (emit_delay_kept _ tDelay (printString_kept (sRow0 i) t addr _ string hgt hst).1
          (printString_kept (sRow0 i) t addr _ string hgt hst).2.2))
  · split
    · exact foldl_kept _ _ s hg hs (fun t i hgt hst =>
        (printString_kept (sRow0 i) t addr _ string hgt hst).andThen
          (emit_delay_kept _ tDelay (printString_kept (sRow0 i) t addr _ string hgt hst).1
            (printString_kept (sRow0 i) t addr _ string hgt hst).2.2))
    · exact Kept.same hg hs

theorem call_kept {S : Nat → Nat → Prop} (charTable : Nat → Nat) (s : State) (c : Call)
    (hg : Good s) (hs : SyncOn S s) : Kept S s (call charTable s c) := by
  cases c with
  | shutdown addr b => exact shutdown_kept s addr b hg hs
  | setScanLimit addr limit => exact setScanLimit_kept s addr limit hg hs
  | setIntensity addr intensity => exact setIntensity_kept s addr intensity hg hs
  | clearDisplay addr => exact clearDisplay_kept s addr hg hs
  | setLed addr row column state => exact setLed_kept s addr row column state hg hs
  | setRow addr row value => exact setRow_kept s addr row value hg hs
  | setColumn addr col value => exact setColumn_kept s addr col value hg hs
  | setDigit addr digit value dp => exact setDigit_kept charTable s addr digit value dp hg hs
  | setChar addr digit value dp => exact setChar_kept charTable s addr digit value dp hg hs
  | printChar sRow0 addr pos c => exact printChar_kept sRow0 s addr pos c hg hs
  | printString sRow0 addr pos string => exact printString_kept sRow0 s addr pos string hg hs
  | printStringScroll sRow0 addr pos string tDelay sentido =>
    exact printStringScroll_kept sRow0 s addr pos string tDelay sentido hg hs

/-- The constructor leaves a good state with shadow and hardware in step on
every row of every device of the chain. -/
theorem LedControl_kept (status0 spidata0 : List Nat) (dataPin clkPin csPin numDevices : Int)
    (h64 : status0.length = 64) (h16 : spidata0.length = 16) :
    Good (LedControl status0 spidata0 dataPin clkPin csPin numDevices)
    ∧ SyncOn (fun _ _ => True) (LedControl status0 spidata0 dataPin clkPin csPin numDevices) := by
  rw [LedControl_eq status0 spidata0 dataPin clkPin csPin numDevices h64]
  have hN1 : (1 : Int) ≤ if numDevices ≤ 0 ∨ numDevices > 8 then 8 else numDevices := by
    split <;> omega
  have hN8 : (if numDevices ≤ 0 ∨ numDevices > 8 then 8 else numDevices) ≤ (8 : Int) := by
    split <;> omega
  generalize (if numDevices ≤ 0 ∨ numDevices > 8 then (8 : Int) else numDevices) = N
    at hN1 hN8
  have hgb : Good
      { SPI_MOSI := dataPin, SPI_CLK := clkPin, SPI_CS := csPin, maxDevices := N,
        status := List.replicate 64 0, spidata := spidata0,
        log := [Event.pinMode dataPin, Event.pinMode clkPin, Event.pinMode csPin,
          Event.digitalWrite csPin true],
        fault := false } := ⟨by simp, h16, hN1, hN8⟩
  have h := foldl_range_induct
    (fun i t => Kept (fun d _ => d < i)
      { SPI_MOSI := dataPin, SPI_CLK := clkPin, SPI_CS := csPin, maxDevices := N,
        status := List.replicate 64 0, spidata := spidata0,
        log := [Event.pinMode dataPin, Event.pinMode clkPin, Event.pinMode csPin,
          Event.digitalWrite csPin true],
        fault := false } t)
    (fun s (i : Nat) =>
      shutdown (clearDisplay (spiTransfer (setScanLimit
        (spiTransfer s (i : Int) OP_DISPLAYTEST 0) (i : Int) 7)
        (i : Int) OP_DECODEMODE 0) (i : Int)) (i : Int) true)
    N.toNat _
    (Kept.same hgb (fun d r _ _ hS => absurd hS (Nat.not_lt_zero d)))
    (by
      intro i hi t ht
      have hiN : (i : Int) < N := by omega
      have hm : t.maxDevices = N := ht.2.1
      have k1 := spiTransfer_kept t (i : Int) OP_DISPLAYTEST 0 ht.1 ht.2.2 (by omega)
        (by rw [hm]; exact hiN) (by decide)
      have k2 := setScanLimit_kept _ (i : Int) 7 k1.1 k1.2.2
      have m2 : (setScanLimit (spiTransfer t (i : Int) OP_DISPLAYTEST 0) (i : Int) 7).maxDevices
          = N := by rw [k2.2.1, k1.2.1, hm]
      have k3 := spiTransfer_kept _ (i : Int) OP_DECODEMODE 0 k2.1 k2.2.2 (by omega)
        (by rw [m2]; exact hiN) (by decide)
      have m3 := k3.2.1.trans m2
      have k4 := clearDisplay_kept_rows _ (i : Int) k3.1 k3.2.2 (by omega)
        (by rw [m3]; exact hiN)
      have k5 := shutdown_kept _ (i : Int) true k4.1 k4.2.2
      refine ⟨k5.1, ?_, ?_⟩
      · rw [k5.2.1, k4.2.1, m3]
      · exact k5.2.2.mono (fun d r h => by
          by_cases hd : d = i
          · exact Or.inr (by omega)
          · exact Or.inl (by omega)))
  refine ⟨h.1, ?_⟩
  intro d r hd hr _
  have hm : _ = N := h.2.1
  rw [hm] at hd
  exact h.2.2 d r (by rw [hm]; exact hd) hr (by omega)

/-- Every state of a driver object is good and has shadow and hardware in step. -/
theorem Reachable.kept {charTable : Nat → Nat} {s : State} (h : Reachable charTable s) :
    Good s ∧ SyncOn (fun _ _ => True) s := by
  induction h with
  | construct status0 spidata0 dataPin clkPin csPin numDevices h64 h16 =>
    exact LedControl_kept status0 spidata0 dataPin clkPin csPin numDevices h64 h16
  | step s c _ ih =>
    have hk := call_kept charTable s c ih.1 ih.2
    exact ⟨hk.1, hk.2.2⟩

/-! ## Array indices -/

theorem setRow_maxDevices (s : State) (addr row : Int) (value : Nat) :
    (setRow s addr row value).maxDevices = s.maxDevices := by
  unfold setRow
  split
  · rfl
  · split
    · rfl
    · simp only []
      rw [spiTransfer_maxDevices, stStatus_maxDevices]

theorem setLed_maxDevices (s : State) (addr row column : Int) (state : Bool) :
    (setLed s addr row column state).maxDevices = s.maxDevices := by
  unfold setLed
  split
  · rfl
  · split
    · rfl
    · simp only []
      rw [spiTransfer_maxDevices]
      split <;> rw [stStatus_maxDevices]

theorem printChar_maxDevices (sRow0 : List Nat) (s : State) (addr pos c : Int) :
    (printChar sRow0 s addr pos c).maxDevices = s.maxDevices := by
  unfold printChar
  simp only []
  apply foldl_preserves (fun t => t.maxDevices = s.maxDevices)
  · intro t a ht
    rw [setRow_maxDevices, ht]
  · rfl

theorem printStringLoop_maxDevices (sRow0 : Nat → List Nat) (addr pos : Int)
    (string : List Int) (i : Nat) (s : State) :
    (printStringLoop sRow0 addr pos string i s).maxDevices = s.maxDevices := by
  induction string generalizing i s with
  | nil => rfl
  | cons ch rest ih =>
    unfold printStringLoop
    split
    · rfl
    · rw [ih, printChar_maxDevices]

theorem printString_maxDevices (sRow0 : Nat → List Nat) (s : State) (addr pos : Int)
    (string : List Int) :
    (printString sRow0 s addr pos string).maxDevices = s.maxDevices :=
  printStringLoop_maxDevices sRow0 addr pos string 0 s

/-- Every access of a loop has a property that every access of each round has,
the rounds being entered in states that satisfy an invariant of the body. -/
theorem loopAccesses_forall {α : Type} (P : Access → Prop) (inv : State → Prop)
    (f : State → α → State) (g : State → α → List Access) (l : List α) (s : State)
    (h0 : inv s) (hf : ∀ t a, inv t → inv (f t a))
    (hg : ∀ t a, a ∈ l → inv t → ∀ x ∈ g t a, P x) :
    ∀ x ∈ loopAccesses f g l s, P x := by
  induction l generalizing s with
  | nil =>
    intro x hx
    simp [loopAccesses] at hx
  | cons a l ih =>
    intro x hx
    rw [loopAccesses, List.mem_append] at hx
    rcases hx with hx | hx
    · exact hg s a (List.mem_cons_self a l) h0 x hx
    · exact ih (f s a) (hf s a h0)
        (fun t b hb ht => hg t b (List.mem_cons_of_mem a hb) ht) x hx

/-- The accesses of `spiTransfer` called for a device of the chain are in
bounds. -/
theorem spiTransferAccesses_inBounds (N addr : Int) (h1 : 1 ≤ N) (h8 : N ≤ 8)
    (ha0 : 0 ≤ addr) (ha : addr < N) :
    ∀ x ∈ spiTransferAccesses N addr, InBounds N x := by
  intro x hx
  simp only [spiTransferAccesses, List.mem_append, List.mem_cons, List.mem_singleton,
    List.mem_map, List.mem_range, List.mem_reverse, List.mem_range', List.not_mem_nil,
    or_false] at hx
  rcases hx with ((hx | ⟨i, hi, hx⟩) | (hx | hx)) | ⟨i, hi, hx⟩
  · subst hx
    exact ⟨ha0, ha⟩
  · subst hx
    simp only [InBounds]
    omega
  · subst hx
    simp only [InBounds]
    omega
  · subst hx
    simp only [InBounds]
    omega
  · subst hx
    simp only [InBounds]
    obtain ⟨j, hj, rfl⟩ := hi
    omega

theorem shutdownAccesses_inBounds (s : State) (addr : Int) (b : Bool)
    (h1 : 1 ≤ s.maxDevices) (h8 : s.maxDevices ≤ 8) :
    ∀ x ∈ shutdownAccesses s addr b, InBounds s.maxDevices x := by
  unfold shutdownAccesses
  split
  · intro x hx
    simp at hx
  · split <;> exact spiTransferAccesses_inBounds _ addr h1 h8 (by omega) (by omega)

theorem setScanLimitAccesses_inBounds (s : State) (addr limit : Int)
    (h1 : 1 ≤ s.maxDevices) (h8 : s.maxDevices ≤ 8) :
    ∀ x ∈ setScanLimitAccesses s addr limit, InBounds s.maxDevices x := by
  unfold setScanLimitAccesses
  split
  · intro x hx
    simp at hx
  · split
    · exact spiTransferAccesses_inBounds _ addr h1 h8 (by omega) (by omega)
    · intro x hx
      simp at hx

theorem setIntensityAccesses_inBounds (s : State) (addr intensity : Int)
    (h1 : 1 ≤ s.maxDevices) (h8 : s.maxDevices ≤ 8) :
    ∀ x ∈ setIntensityAccesses s addr intensity, InBounds s.maxDevices x := by
  unfold setIntensityAccesses
  split
  · intro x hx
    simp at hx
  · split
    · exact spiTransferAccesses_inBounds _ addr h1 h8 (by omega) (by omega)
    · intro x hx
      simp at hx

theorem setRowAccesses_inBounds (s : State) (addr row : Int)
    (h1 : 1 ≤ s.maxDevices) (h8 : s.maxDevices ≤ 8) :
    ∀ x ∈ setRowAccesses s addr row, InBounds s.maxDevices x := by
  unfold setRowAccesses
  split
  · intro x hx
    simp at hx
  · split
    · intro x hx
      simp at hx
    · intro x hx
      simp only [List.mem_append, List.mem_cons, List.mem_singleton, List.not_mem_nil,
        or_false] at hx
      rcases hx with (hx | hx) | hx
      · subst hx
        simp only [InBounds]
        omega
      · subst hx
        simp only [InBounds]
        omega
      · exact spiTransferAccesses_inBounds _ addr h1 h8 (by omega) (by omega) x hx

theorem setLedAccesses_inBounds (s : State) (addr row column : Int) (state : Bool)
    (h1 : 1 ≤ s.maxDevices) (h8 : s.maxDevices ≤ 8) :
    ∀ x ∈ setLedAccesses s addr row column state, InBounds s.maxDevices x := by
  unfold setLedAccesses
  split
  · intro x hx
    simp at hx
  · split
    · intro x hx
      simp at hx
    · intro x hx
      simp only [ite_self, List.mem_append, List.mem_cons, List.mem_singleton,
        List.not_mem_nil, or_false] at hx
      rcases hx with ((hx | hx) | hx) | hx
      · subst hx
        simp only [InBounds]
        omega
      · subst hx
        simp only [InBounds]
        omega
      · subst hx
        simp only [InBounds]
        omega
      · exact spiTransferAccesses_inBounds _ addr h1 h8 (by omega) (by omega) x hx

theorem setDigitAccesses_inBounds (s : State) (addr digit : Int) (value : Nat)
    (h1 : 1 ≤ s.maxDevices) (h8 : s.maxDevices ≤ 8) :
    ∀ x ∈ setDigitAccesses s addr digit value, InBounds s.maxDevices x := by
  unfold setDigitAccesses
  split
  · intro x hx
    simp at hx
  · split
    · intro x hx
      simp at hx
    · intro x hx
      simp only [List.mem_append, List.mem_singleton] at hx
      rcases hx with hx | hx
      · subst hx
        simp only [InBounds]
        omega
      · exact spiTransferAccesses_inBounds _ addr h1 h8 (by omega) (by omega) x hx

theorem setCharAccesses_inBounds (s : State) (addr digit : Int)
    (h1 : 1 ≤ s.maxDevices) (h8 : s.maxDevices ≤ 8) :
    ∀ x ∈ setCharAccesses s addr digit, InBounds s.maxDevices x := by
  unfold setCharAccesses
  split
  · intro x hx
    simp at hx
  · split
    · intro x hx
      simp at hx
    · intro x hx
      simp only [List.mem_append, List.mem_singleton] at hx
      rcases hx with hx | hx
      · subst hx
        simp only [InBounds]
        omega
      · exact spiTransferAccesses_inBounds _ addr h1 h8 (by omega) (by omega) x hx

theorem clearDisplayAccesses_inBounds (s : State) (addr : Int)
    (h1 : 1 ≤ s.maxDevices) (h8 : s.maxDevices ≤ 8) :
    ∀ x ∈ clearDisplayAccesses s addr, InBounds s.maxDevices x := by
  unfold clearDisplayAccesses
  split
  · intro x hx
    simp at hx
  · simp only []
    apply loopAccesses_forall (InBounds s.maxDevices) (fun t => t.maxDevices = s.maxDevices)
    · rfl
    · intro t a ht
      rw [spiTransfer_maxDevices, stStatus_maxDevices, ht]
    · intro t i hi ht x hx
      rw [List.mem_range] at hi
      simp only [List.mem_append, List.mem_cons, List.mem_singleton, List.not_mem_nil,
        or_false] at hx
      rcases hx with (hx | hx) | hx
      · subst hx
        simp only [InBounds]
        omega
      · subst hx
        simp only [InBounds]
        omega
      · rw [ht] at hx
        exact spiTransferAccesses_inBounds _ addr h1 h8 (by omega) (by omega) x hx

theorem setColumnAccesses_inBounds (s : State) (addr col : Int) (value : Nat)
    (h1 : 1 ≤ s.maxDevices) (h8 : s.maxDevices ≤ 8) :
    ∀ x ∈ setColumnAccesses s addr col value, InBounds s.maxDevices x := by
  unfold setColumnAccesses
  split
  · intro x hx
    simp at hx
  · split
    · intro x hx
      simp at hx
    · apply loopAccesses_forall (InBounds s.maxDevices) (fun t => t.maxDevices = s.maxDevices)
      · rfl
      · intro t a ht
        rw [setLed_maxDevices, ht]
      · intro t i _ ht x hx
        have := setLedAccesses_inBounds t addr (i : Int) col _ (by rw [ht]; exact h1)
          (by rw [ht]; exact h8) x hx
        rw [ht] at this
        exact this

theorem printCharAccesses_inBounds (sRow0 : List Nat) (s : State) (addr pos c : Int)
    (h1 : 1 ≤ s.maxDevices) (h8 : s.maxDevices ≤ 8) :
    ∀ x ∈ printCharAccesses sRow0 s addr pos c, InBounds s.maxDevices x := by
  unfold printCharAccesses
  apply loopAccesses_forall (InBounds s.maxDevices) (fun t => t.maxDevices = s.maxDevices)
  · rfl
  · intro t a ht
    rw [setRow_maxDevices, ht]
  · intro t i _ ht x hx
    have := setRowAccesses_inBounds t addr (pos + (i : Int)) (by rw [ht]; exact h1)
      (by rw [ht]; exact h8) x hx
    rw [ht] at this
    exact this

theorem printStringLoopAccesses_inBounds (sRow0 : Nat → List Nat) (addr pos : Int)
    (string : List Int) (i : Nat) (s : State) (h1 : 1 ≤ s.maxDevices) (h8 : s.maxDevices ≤ 8) :
    ∀ x ∈ printStringLoopAccesses sRow0 addr pos string i s, InBounds s.maxDevices x := by
  induction string generalizing i s with
  | nil =>
    intro x hx
    simp [printStringLoopAccesses] at hx
  | cons ch rest ih =>
    intro x hx
    unfold printStringLoopAccesses at hx
    split at hx
    · simp at hx
    · rw [List.mem_append] at hx
      rcases hx with hx | hx
      · exact printCharAccesses_inBounds _ s addr _ ch h1 h8 x hx
      · have hm := printChar_maxDevices (sRow0 i) s addr (6 * (i : Int) + pos) ch
        have := ih (i + 1) _ (by rw [hm]; exact h1) (by rw [hm]; exact h8) x hx
        rw [hm] at this
        exact this

theorem printStringAccesses_inBounds (sRow0 : Nat → List Nat) (s : State) (addr pos : Int)
    (string : List Int) (h1 : 1 ≤ s.maxDevices) (h8 : s.maxDevices ≤ 8) :
    ∀ x ∈ printStringAccesses sRow0 s addr pos string, InBounds s.maxDevices x :=
  printStringLoopAccesses_inBounds sRow0 addr pos string 0 s h1 h8

theorem printStringScrollAccesses_inBounds (sRow0 : Nat → Nat → List Nat) (s : State)
    (addr pos : Int) (string : List Int) (tDelay sentido : Int)
    (h1 : 1 ≤ s.maxDevices) (h8 : s.maxDevices ≤ 8) :
    ∀ x ∈ printStringScrollAccesses sRow0 s addr pos string tDelay sentido,
      InBounds s.maxDevices x := by
  unfold printStringScrollAccesses
  simp only []
  split
  · apply loopAccesses_forall (InBounds s.maxDevices) (fun t => t.maxDevices = s.maxDevices)
    · rfl
    · intro t a ht
      rw [emit_maxDevices, printString_maxDevices, ht]
    · intro t i _ ht x hx
      have := printStringAccesses_inBounds (sRow0 i) t addr _ string (by rw [ht]; exact h1)
        (by rw [ht]; exact h8) x hx
      rw [ht] at this
      exact this
  · split
    · apply loopAccesses_forall (InBounds s.maxDevices) (fun t => t.maxDevices = s.maxDevices)
      · rfl
      · intro t a ht
        rw [emit_maxDevices, printString_maxDevices, ht]
      · intro t i _ ht x hx
        have := printStringAccesses_inBounds (sRow0 i) t addr _ string (by rw [ht]; exact h1)
          (by rw [ht]; exact h8) x hx
        rw [ht] at this
        exact this
    · intro x hx
      simp at hx

theorem callAccesses_inBounds (s : State) (c : Call)
    (h1 : 1 ≤ s.maxDevices) (h8 : s.maxDevices ≤ 8) :
    ∀ x ∈ callAccesses s c, InBounds s.maxDevices x := by
  cases c with
  | shutdown addr b => exact shutdownAccesses_inBounds s addr b h1 h8
  | setScanLimit addr limit => exact setScanLimitAccesses_inBounds s addr limit h1 h8
  | setIntensity addr intensity => exact setIntensityAccesses_inBounds s addr intensity h1 h8
  | clearDisplay addr => exact clearDisplayAccesses_inBounds s addr h1 h8
  | setLed addr row column state => exact setLedAccesses_inBounds s addr row column state h1 h8
  | setRow addr row value => exact setRowAccesses_inBounds s addr row h1 h8
  | setColumn addr col value => exact setColumnAccesses_inBounds s addr col value h1 h8
  | setDigit addr digit value dp => exact setDigitAccesses_inBounds s addr digit value h1 h8
  | setChar addr digit value dp => exact setCharAccesses_inBounds s addr digit h1 h8
  | printChar sRow0 addr pos c => exact printCharAccesses_inBounds sRow0 s addr pos c h1 h8
  | printString sRow0 addr pos string =>
    exact printStringAccesses_inBounds sRow0 s addr pos string h1 h8
  | printStringScroll sRow0 addr pos string tDelay sentido =>
    exact printStringScrollAccesses_inBounds sRow0 s addr pos string tDelay sentido h1 h8

theorem LedControlAccesses_inBounds (status0 spidata0 : List Nat)
    (dataPin clkPin csPin numDevices : Int) :
    ∀ x ∈ LedControlAccesses status0 spidata0 dataPin clkPin csPin numDevices,
      InBounds (if 1 ≤ numDevices ∧ numDevices ≤ 8 then numDevices else 8) x := by
  have hclamp : (if numDevices ≤ 0 ∨ numDevices > 8 then (8 : Int) else numDevices)
      = if 1 ≤ numDevices ∧ numDevices ≤ 8 then numDevices else 8 := by
    split <;> split <;> omega
  have hN1 : (1 : Int) ≤ if 1 ≤ numDevices ∧ numDevices ≤ 8 then numDevices else 8 := by
    split <;> omega
  have hN8 : (if 1 ≤ numDevices ∧ numDevices ≤ 8 then numDevices else 8) ≤ (8 : Int) := by
    split <;> omega
  unfold LedControlAccesses
  simp only [emit, hclamp]
  generalize (if 1 ≤ numDevices ∧ numDevices ≤ 8 then numDevices else 8) = N at hN1 hN8
  intro x hx
  rw [List.mem_append] at hx
  rcases hx with hx | hx
  · simp only [List.mem_map, List.mem_range] at hx
    obtain ⟨i, hi, rfl⟩ := hx
    simp only [InBounds]
    omega
  · revert x
    apply loopAccesses_forall (InBounds N) (fun t => t.maxDevices = N)
    · apply foldl_preserves (fun t => t.maxDevices = N)
      · intro t a ht
        rw [stStatus_maxDevices, ht]
      · rfl
    · intro t a ht
      rw [shutdown_maxDevices, clearDisplay_maxDevices, spiTransfer_maxDevices,
        setScanLimit_maxDevices, spiTransfer_maxDevices, ht]
    · intro t i hi ht x hx
      have m1 : (spiTransfer t (i : Int) OP_DISPLAYTEST 0).maxDevices = N := by
        rw [spiTransfer_maxDevices, ht]
      have m2 : (setScanLimit (spiTransfer t (i : Int) OP_DISPLAYTEST 0) (i : Int) 7).maxDevices
          = N := by rw [setScanLimit_maxDevices, m1]
      have m3 : (spiTransfer (setScanLimit (spiTransfer t (i : Int) OP_DISPLAYTEST 0)
          (i : Int) 7) (i : Int) OP_DECODEMODE 0).maxDevices = N := by
        rw [spiTransfer_maxDevices, m2]
      have m4 : (clearDisplay (spiTransfer (setScanLimit (spiTransfer t (i : Int)
          OP_DISPLAYTEST 0) (i : Int) 7) (i : Int) OP_DECODEMODE 0) (i : Int)).maxDevices
          = N := by rw [clearDisplay_maxDevices, m3]
      rw [List.mem_range] at hi
      have hiN : (i : Int) < N := by omega
      simp only [List.mem_append] at hx
      rcases hx with (((hx | hx) | hx) | hx) | hx
      · rw [ht] at hx
        exact spiTransferAccesses_inBounds N _ hN1 hN8 (by omega) hiN x hx
      · have := setScanLimitAccesses_inBounds _ (i : Int) 7 (by rw [m1]; exact hN1)
          (by rw [m1]; exact hN8) x hx
        rw [m1] at this
        exact this
      · rw [m2] at hx
        exact spiTransferAccesses_inBounds N _ hN1 hN8 (by omega) hiN x hx
      · have := clearDisplayAccesses_inBounds _ (i : Int) (by rw [m3]; exact hN1)
          (by rw [m3]; exact hN8) x hx
        rw [m3] at this
        exact this
      · have := shutdownAccesses_inBounds _ (i : Int) true (by rw [m4]; exact hN1)
          (by rw [m4]; exact hN8) x hx
        rw [m4] at this
        exact this

/-! ## No store outside the arrays -/

theorem Safe.start {s : State} (hg : Good s) : Safe s s := ⟨hg, Eq.refl _, Eq.refl _⟩

theorem Safe.chain {s t u : State} (h1 : Safe s t) (h2 : Safe t u) : Safe s u :=
  ⟨h2.1, h2.2.1.trans h1.2.1, h2.2.2.trans h1.2.2⟩

theorem safe_of_eff {s t : State} {st : List Nat} {ev : List Event} (hg : Good s)
    (h : Eff s t st ev) (hst : st.length = 64) : Safe s t := by
  refine ⟨⟨?_, h.2.2.2.2.2.1, ?_, ?_⟩, h.2.2.2.1, h.2.2.2.2.2.2.2⟩
  · rw [h.2.2.2.2.1, hst]
  · rw [h.2.2.2.1]; exact hg.2.2.1
  · rw [h.2.2.2.1]; exact hg.2.2.2

theorem shutdown_safe (s : State) (addr : Int) (b : Bool) (hg : Good s) :
    Safe s (shutdown s addr b) := by
  by_cases g1 : addr < 0 ∨ addr ≥ s.maxDevices
  · simp only [shutdown, if_pos g1]
    exact Safe.start hg
  · exact safe_of_eff hg
      (shutdown_eff s addr b hg.2.1 hg.2.2.1 hg.2.2.2 (by omega) (by omega)) hg.1

theorem setScanLimit_safe (s : State) (addr limit : Int) (hg : Good s) :
    Safe s (setScanLimit s addr limit) := by
  by_cases g1 : addr < 0 ∨ addr ≥ s.maxDevices
  · simp only [setScanLimit, if_pos g1]
    exact Safe.start hg
  · exact safe_of_eff hg
      (setScanLimit_eff s addr limit hg.2.1 hg.2.2.1 hg.2.2.2 (by omega) (by omega)) hg.1

theorem setIntensity_safe (s : State) (addr intensity : Int) (hg : Good s) :
    Safe s (setIntensity s addr intensity) := by
  by_cases g1 : addr < 0 ∨ addr ≥ s.maxDevices
  · simp only [setIntensity, if_pos g1]
    exact Safe.start hg
  · have g2 : intensity ≥ 0 ∨ intensity < 16 := by omega
    simp only [setIntensity, if_neg g1, if_pos g2]
    exact safe_of_eff hg
      (spiTransfer_eff s addr _ _ hg.2.1 hg.2.2.1 hg.2.2.2 (by omega) (by omega)) hg.1

theorem clearDisplay_safe (s : State) (addr : Int) (hg : Good s) :
    Safe s (clearDisplay s addr) := by
  by_cases g1 : addr < 0 ∨ addr ≥ s.maxDevices
  · simp only [clearDisplay, if_pos g1]
    exact Safe.start hg
  · exact safe_of_eff hg
      (clearDisplay_eff s addr hg.1 hg.2.1 hg.2.2.1 hg.2.2.2 (by omega) (by omega))
      (by rw [storeRows_length, hg.1])

theorem setLed_safe (s : State) (addr row column : Int) (state : Bool) (hg : Good s) :
    Safe s (setLed s addr row column state) := by
  by_cases g1 : addr < 0 ∨ addr ≥ s.maxDevices
  · simp only [setLed, if_pos g1]
    exact Safe.start hg
  · by_cases g2 : row < 0 ∨ row > 7 ∨ column < 0 ∨ column > 7
    · simp only [setLed, if_neg g1, if_pos g2]
      exact Safe.start hg
    · exact safe_of_eff hg
        (setLed_eff s addr row column state hg.1 hg.2.1 hg.2.2.1 hg.2.2.2 (by omega)
          (by omega) (by omega) (by omega) (by omega) (by omega))
        (by rw [List.length_set, hg.1])

theorem setRow_safe (s : State) (addr row : Int) (value : Nat) (hg : Good s) :
    Safe s (setRow s addr row value) := by
  by_cases g1 : addr < 0 ∨ addr ≥ s.maxDevices
  · simp only [setRow, if_pos g1]
    exact Safe.start hg
  · by_cases g2 : row < 0 ∨ row > 7
    · simp only [setRow, if_neg g1, if_pos g2]
      exact Safe.start hg
    · exact safe_of_eff hg
        (setRow_eff s addr row value hg.1 hg.2.1 hg.2.2.1 hg.2.2.2 (by omega) (by omega)
          (by omega) (by omega))
        (by rw [List.length_set, hg.1])

theorem setColumn_safe (s : State) (addr col : Int) (value : Nat) (hg : Good s) :
    Safe s (setColumn s addr col value) := by
  by_cases g1 : addr < 0 ∨ addr ≥ s.maxDevices
  · simp only [setColumn, if_pos g1]
    exact Safe.start hg
  · by_cases g2 : col < 0 ∨ col > 7
    · simp only [setColumn, if_neg g1, if_pos g2]
      exact Safe.start hg
    · exact safe_of_eff hg
        (setColumn_eff s addr col value hg.1 hg.2.1 hg.2.2.1 hg.2.2.2 (by omega) (by omega)
          (by omega) (by omega))
        (by rw [storeRows_length, hg.1])

theorem setDigit_safe (charTable : Nat → Nat) (s : State) (addr digit : Int) (value : Nat)
    (dp : Bool) (hg : Good s) : Safe s (setDigit charTable s addr digit value dp) := by
  by_cases g1 : addr < 0 ∨ addr ≥ s.maxDevices
  · simp only [setDigit, if_pos g1]
    exact Safe.start hg
  · by_cases g2 : digit < 0 ∨ digit > 7 ∨ value > 15
    · simp only [setDigit, if_neg g1, if_pos g2]
      exact Safe.start hg
    · exact safe_of_eff hg
        (setDigit_eff charTable s addr digit value dp hg.2.1 hg.2.2.1 hg.2.2.2 (by omega)
          (by omega) (by omega) (by omega) (by omega))
        (by rw [List.length_set, hg.1])

theorem setChar_safe (charTable : Nat → Nat) (s : State) (addr digit value : Int)
    (dp : Bool) (hg : Good s) : Safe s (setChar charTable s addr digit value dp) := by
  by_cases g1 : addr < 0 ∨ addr ≥ s.maxDevices
  · simp only [setChar, if_pos g1]
    exact Safe.start hg
  · by_cases g2 : digit < 0 ∨ digit > 7
    · simp only [setChar, if_neg g1, if_pos g2]
      exact Safe.start hg
    · exact safe_of_eff hg
        (setChar_eff charTable s addr digit value dp hg.2.1 hg.2.2.1 hg.2.2.2 (by omega)
          (by omega) (by omega) (by omega))
        (by rw [List.length_set, hg.1])

theorem printChar_safe (sRow0 : List Nat) (s : State) (addr pos c : Int) (hg : Good s) :
    Safe s (printChar sRow0 s addr pos c) := by
  by_cases g1 : addr < 0 ∨ addr ≥ s.maxDevices
  · rw [printChar_out sRow0 s addr pos c g1]
    exact Safe.start hg
  · exact safe_of_eff hg (printChar_wr sRow0 s addr pos c hg (by omega) (by omega))
      (by rw [applyWrites_length, hg.1])

theorem printString_safe (sRow0 : Nat → List Nat) (s : State) (addr pos : Int)
    (string : List Int) (hg : Good s) : Safe s (printString sRow0 s addr pos string) := by
  by_cases g1 : addr < 0 ∨ addr ≥ s.maxDevices
  · rw [printString_out sRow0 s addr pos string g1]
    exact Safe.start hg
  · exact safe_of_eff hg (printString_wr sRow0 s addr pos string hg (by omega) (by omega))
      (by rw [applyWrites_length, hg.1])

theorem foldl_safe {α : Type} (f : State → α → State) (l : List α) (s : State) (hg : Good s)
    (hf : ∀ t a, Good t → Safe t (f t a)) : Safe s (l.foldl f s) := by
  apply foldl_preserves (fun t => Safe s t) f
  · intro t a ht
    exact ht.chain (hf t a ht.1)
  · exact Safe.start hg

theorem printStringScroll_safe (sRow0 : Nat → Nat → List Nat) (s : State) (addr pos : Int)
    (string : List Int) (tDelay sentido : Int) (hg : Good s) :
    Safe s (printStringScroll sRow0 s addr pos string tDelay sentido) := by
  unfold printStringScroll
  simp only []
  split
  · exact foldl_safe _ _ s hg (fun t i hgt => printString_safe (sRow0 i) t addr _ string hgt)
  · split
    · exact foldl_safe _ _ s hg (fun t i hgt => printString_safe (sRow0 i) t addr _ string hgt)
    · exact Safe.start hg

theorem call_safe (charTable : Nat → Nat) (s : State) (c : Call) (hg : Good s) :
    Safe s (call charTable s c) := by
  cases c with
  | shutdown addr b => exact shutdown_safe s addr b hg
  | setScanLimit addr limit => exact setScanLimit_safe s addr limit hg
  | setIntensity addr intensity => exact setIntensity_safe s addr intensity hg
  | clearDisplay addr => exact clearDisplay_safe s addr hg
  | setLed addr row column state => exact setLed_safe s addr row column state hg
  | setRow addr row value => exact setRow_safe s addr row value hg
  | setColumn addr col value => exact setColumn_safe s addr col value hg
  | setDigit addr digit value dp => exact setDigit_safe charTable s addr digit value dp hg
  | setChar addr digit value dp => exact setChar_safe charTable s addr digit value dp hg
  | printChar sRow0 addr pos c => exact printChar_safe sRow0 s addr pos c hg
  | printString sRow0 addr pos string => exact printString_safe sRow0 s addr pos string hg
  | printStringScroll sRow0 addr pos string tDelay sentido =>
    exact printStringScroll_safe sRow0 s addr pos string tDelay sentido hg

/-- The constructor makes no store outside an array. -/
theorem LedControl_fault (status0 spidata0 : List Nat) (dataPin clkPin csPin numDevices : Int)
    (h64 : status0.length = 64) (h16 : spidata0.length = 16) :
    (LedControl status0 spidata0 dataPin clkPin csPin numDevices).fault = false := by
  rw [LedControl_eq status0 spidata0 dataPin clkPin csPin numDevices h64]
  have hN1 : (1 : Int) ≤ if numDevices ≤ 0 ∨ numDevices > 8 then 8 else numDevices := by
    split <;> omega
  have hN8 : (if numDevices ≤ 0 ∨ numDevices > 8 then 8 else numDevices) ≤ (8 : Int) := by
    split <;> omega
  generalize (if numDevices ≤ 0 ∨ numDevices > 8 then (8 : Int) else numDevices) = N
    at hN1 hN8
  have hgb : Good
      { SPI_MOSI := dataPin, SPI_CLK := clkPin, SPI_CS := csPin, maxDevices := N,
        status := List.replicate 64 0, spidata := spidata0,
        log := [Event.pinMode dataPin, Event.pinMode clkPin, Event.pinMode csPin,
          Event.digitalWrite csPin true],
        fault := false } := ⟨by simp, h16, hN1, hN8⟩
  have h := foldl_range_induct
    (fun _ t => Safe
      { SPI_MOSI := dataPin, SPI_CLK := clkPin, SPI_CS := csPin, maxDevices := N,
        status := List.replicate 64 0, spidata := spidata0,
        log := [Event.pinMode dataPin, Event.pinMode clkPin, Event.pinMode csPin,
          Event.digitalWrite csPin true],
        fault := false } t)
    (fun s (i : Nat) =>
      shutdown (clearDisplay (spiTransfer (setScanLimit
        (spiTransfer s (i : Int) OP_DISPLAYTEST 0) (i : Int) 7)
        (i : Int) OP_DECODEMODE 0) (i : Int)) (i : Int) true)
    N.toNat _ (Safe.start hgb)
    (by
      intro i hiN t ht
      have hgt := ht.1
      have hm : t.maxDevices = N := ht.2.1
      have hi : (i : Int) < t.maxDevices := by rw [hm]; omega
      have k1 := safe_of_eff hgt (spiTransfer_eff t (i : Int) OP_DISPLAYTEST 0 hgt.2.1
        hgt.2.2.1 hgt.2.2.2 (by omega) hi) hgt.1
      have k2 := setScanLimit_safe _ (i : Int) 7 k1.1
      have m2 := k2.2.1.trans k1.2.1
      have k3 := safe_of_eff k2.1 (spiTransfer_eff _ (i : Int) OP_DECODEMODE 0 k2.1.2.1
        k2.1.2.2.1 k2.1.2.2.2 (by omega) (by rw [m2]; exact hi)) k2.1.1
      have k4 := clearDisplay_safe _ (i : Int) k3.1
      have k5 := shutdown_safe _ (i : Int) true k4.1
      exact ht.chain ((((k1.chain k2).chain k3).chain k4).chain k5))
  exact h.2.2

/-! ## Recorded runs and the functions they record -/

theorem foldl_traced {α : Type} (fT : Traced → α → Traced) (f : State → α → State)
    (g : State → α → List Access)
    (h : ∀ t a, fT t a = ⟨f t.state a, t.accesses ++ g t.state a⟩) (l : List α) (t : Traced) :
    l.foldl fT t = ⟨l.foldl f t.state, t.accesses ++ loopAccesses f g l t.state⟩ := by
  induction l generalizing t with
  | nil => simp [loopAccesses]
  | cons a l ih =>
    rw [List.foldl_cons, ih, h]
    simp [loopAccesses, List.append_assoc]

theorem loopAccesses_const {α : Type} (f : State → α → State) (g : α → Access) (l : List α)
    (s : State) : loopAccesses f (fun _ a => [g a]) l s = l.map g := by
  induction l generalizing s with
  | nil => rfl
  | cons a l ih => simp [loopAccesses, ih]

theorem spiTransferT_eq (t : Traced) (addr : Int) (opcode data : Nat) :
    spiTransferT t addr opcode data
      = ⟨spiTransfer t.state addr opcode data,
          t.accesses ++ spiTransferAccesses t.state.maxDevices addr⟩ := by
  unfold spiTransferT spiTransfer spiTransferAccesses
  have h1 := foldl_traced (fun t (i : Nat) => stSpidataT t (i : Int) 0)
    (fun s (i : Nat) => stSpidata s (i : Int) 0) (fun _ (i : Nat) => [Access.stSpidata (i : Int)])
    (fun t a => by simp [stSpidataT, record])
  have h2 := foldl_traced
    (fun t (i : Nat) =>
      emitT (ldSpidataT t ((i : Int) - 1)).2
        (.shiftOut (ldSpidataT t ((i : Int) - 1)).2.state.SPI_MOSI
          (ldSpidataT t ((i : Int) - 1)).2.state.SPI_CLK (ldSpidataT t ((i : Int) - 1)).1))
    (fun s (i : Nat) => emit s (.shiftOut s.SPI_MOSI s.SPI_CLK (ldSpidata s ((i : Int) - 1))))
    (fun _ (i : Nat) => [Access.ldSpidata ((i : Int) - 1)])
    (fun t a => by simp [ldSpidataT, emitT, record])
  simp only [h1, h2, loopAccesses_const]
  simp [stSpidataT, emitT, record, stSpidata_maxDevices]

theorem shutdownT_eq (t : Traced) (addr : Int) (b : Bool) :
    shutdownT t addr b
      = ⟨shutdown t.state addr b, t.accesses ++ shutdownAccesses t.state addr b⟩ := by
  unfold shutdownT shutdown shutdownAccesses
  split
  · simp
  · split <;> exact spiTransferT_eq _ _ _ _

theorem setScanLimitT_eq (t : Traced) (addr limit : Int) :
    setScanLimitT t addr limit
      = ⟨setScanLimit t.state addr limit, t.accesses ++ setScanLimitAccesses t.state addr limit⟩ := by
  unfold setScanLimitT setScanLimit setScanLimitAccesses
  split
  · simp
  · split
    · exact spiTransferT_eq _ _ _ _
    · simp

theorem setIntensityT_eq (t : Traced) (addr intensity : Int) :
    setIntensityT t addr intensity
      = ⟨setIntensity t.state addr intensity,
          t.accesses ++ setIntensityAccesses t.state addr intensity⟩ := by
  unfold setIntensityT setIntensity setIntensityAccesses
  split
  · simp
  · split
    · exact spiTransferT_eq _ _ _ _
    · simp

theorem setRowT_eq (t : Traced) (addr row : Int) (value : Nat) :
    setRowT t addr row value
      = ⟨setRow t.state addr row value, t.accesses ++ setRowAccesses t.state addr row⟩ := by
  unfold setRowT setRow setRowAccesses
  split
  · simp
  · split
    · simp
    · simp [spiTransferT_eq, stStatusT, ldStatusT, record, stStatus_maxDevices]

theorem setLedT_eq (t : Traced) (addr row column : Int) (state : Bool) :
    setLedT t addr row column state
      = ⟨setLed t.state addr row column state,
          t.accesses ++ setLedAccesses t.state addr row column state⟩ := by
  unfold setLedT setLed setLedAccesses
  split
  · simp
  · split
    · simp
    · cases state <;>
        simp [spiTransferT_eq, stStatusT, ldStatusT, record, stStatus_maxDevices]

theorem setDigitT_eq (charTable : Nat → Nat) (t : Traced) (addr digit : Int) (value : Nat)
    (dp : Bool) :
    setDigitT charTable t addr digit value dp
      = ⟨setDigit charTable t.state addr digit value dp,
          t.accesses ++ setDigitAccesses t.state addr digit value⟩ := by
  unfold setDigitT setDigit setDigitAccesses
  split
  · simp
  · split
    · simp
    · simp [spiTransferT_eq, stStatusT, record, stStatus_maxDevices]

theorem setCharT_eq (charTable : Nat → Nat) (t : Traced) (addr digit value : Int) (dp : Bool) :
    setCharT charTable t addr digit value dp
      = ⟨setChar charTable t.state addr digit value dp,
          t.accesses ++ setCharAccesses t.state addr digit⟩ := by
  unfold setCharT setChar setCharAccesses
  split
  · simp
  · split
    · simp
    · simp [spiTransferT_eq, stStatusT, record, stStatus_maxDevices]

theorem clearDisplayT_eq (t : Traced) (addr : Int) :
    clearDisplayT t addr
      = ⟨clearDisplay t.state addr, t.accesses ++ clearDisplayAccesses t.state addr⟩ := by
  unfold clearDisplayT clearDisplay clearDisplayAccesses
  split
  · simp
  · exact foldl_traced _ _ _
      (fun t a => by simp [spiTransferT_eq, stStatusT, ldStatusT, record, stStatus_maxDevices])
      _ _

theorem setColumnT_eq (t : Traced) (addr col : Int) (value : Nat) :
    setColumnT t addr col value
      = ⟨setColumn t.state addr col value, t.accesses ++ setColumnAccesses t.state addr col value⟩ := by
  unfold setColumnT setColumn setColumnAccesses
  split
  · simp
  · split
    · simp
    · exact foldl_traced _ _ _ (fun t a => by simp [setLedT_eq]) _ _

theorem printCharT_eq (sRow0 : List Nat) (t : Traced) (addr pos c : Int) :
    printCharT sRow0 t addr pos c
      = ⟨printChar sRow0 t.state addr pos c,
          t.accesses ++ printCharAccesses sRow0 t.state addr pos c⟩ := by
  unfold printCharT printChar printCharAccesses charRows
  cases glyphCases.lookup c <;>
    exact foldl_traced _ _ _ (fun t a => by simp [setRowT_eq]) _ _

theorem printStringLoopT_eq (sRow0 : Nat → List Nat) (addr pos : Int) (string : List Int)
    (i : Nat) (t : Traced) :
    printStringLoopT sRow0 addr pos string i t
      = ⟨printStringLoop sRow0 addr pos string i t.state,
          t.accesses ++ printStringLoopAccesses sRow0 addr pos string i t.state⟩ := by
  induction string generalizing i t with
  | nil => simp [printStringLoopT, printStringLoop, printStringLoopAccesses]
  | cons ch rest ih =>
    unfold printStringLoopT printStringLoop printStringLoopAccesses
    split
    · simp
    · rw [ih, printCharT_eq]
      simp [List.append_assoc]

theorem printStringT_eq (sRow0 : Nat → List Nat) (t : Traced) (addr pos : Int)
    (string : List Int) :
    printStringT sRow0 t addr pos string
      = ⟨printString sRow0 t.state addr pos string,
          t.accesses ++ printStringAccesses sRow0 t.state addr pos string⟩ :=
  printStringLoopT_eq sRow0 addr pos string 0 t

theorem printStringScrollT_eq (sRow0 : Nat → Nat → List Nat) (t : Traced) (addr pos : Int)
    (string : List Int) (tDelay sentido : Int) :
    printStringScrollT sRow0 t addr pos string tDelay sentido
      = ⟨printStringScroll sRow0 t.state addr pos string tDelay sentido,
          t.accesses ++ printStringScrollAccesses sRow0 t.state addr pos string tDelay sentido⟩ := by
  unfold printStringScrollT printStringScroll printStringScrollAccesses
  split
  · exact foldl_traced _ _ _ (fun t a => by simp [printStringT_eq, emitT]) _ _
  · split
    · exact foldl_traced _ _ _ (fun t a => by simp [printStringT_eq, emitT]) _ _
    · simp

theorem callT_eq (charTable : Nat → Nat) (t : Traced) (c : Call) :
    callT charTable t c = ⟨call charTable t.state c, t.accesses ++ callAccesses t.state c⟩ := by
  cases c with
  | shutdown addr b => exact shutdownT_eq t addr b
  | setScanLimit addr limit => exact setScanLimitT_eq t addr limit
  | setIntensity addr intensity => exact setIntensityT_eq t addr intensity
  | clearDisplay addr => exact clearDisplayT_eq t addr
  | setLed addr row column state => exact setLedT_eq t addr row column state
  | setRow addr row value => exact setRowT_eq t addr row value
  | setColumn addr col value => exact setColumnT_eq t addr col value
  | setDigit addr digit value dp => exact setDigitT_eq charTable t addr digit value dp
  | setChar addr digit value dp => exact setCharT_eq charTable t addr digit value dp
  | printChar sRow0 addr pos c => exact printCharT_eq sRow0 t addr pos c
  | printString sRow0 addr pos string => exact printStringT_eq sRow0 t addr pos string
  | printStringScroll sRow0 addr pos string tDelay sentido =>
    exact printStringScrollT_eq sRow0 t addr pos string tDelay sentido

theorem stStatus_loop_eq (l : List Nat) (t : Traced) :
    l.foldl (fun t (i : Nat) => stStatusT t (i : Int) 0x00) t
      = ⟨l.foldl (fun s (i : Nat) => stStatus s (i : Int) 0x00) t.state,
          t.accesses ++ l.map (fun (i : Nat) => Access.stStatus (i : Int))⟩ := by
  rw [foldl_traced (fun t (i : Nat) => stStatusT t (i : Int) 0x00)
    (fun s (i : Nat) => stStatus s (i : Int) 0x00) (fun _ (i : Nat) => [Access.stStatus (i : Int)])
    (fun t a => by simp [stStatusT, record]), loopAccesses_const]

theorem foldl_stStatus_maxDevices (l : List Nat) (s : State) :
    (l.foldl (fun s (i : Nat) => stStatus s (i : Int) 0x00) s).maxDevices = s.maxDevices := by
  induction l generalizing s with
  | nil => rfl
  | cons a l ih => rw [List.foldl_cons, ih, stStatus_maxDevices]

theorem LedControlT_eq (status0 spidata0 : List Nat) (dataPin clkPin csPin numDevices : Int) :
    LedControlT status0 spidata0 dataPin clkPin csPin numDevices
      = ⟨LedControl status0 spidata0 dataPin clkPin csPin numDevices,
          LedControlAccesses status0 spidata0 dataPin clkPin csPin numDevices⟩ := by
  unfold LedControlT LedControl LedControlAccesses
  simp only [stStatus_loop_eq]
  rw [foldl_traced _
    (fun s (i : Nat) =>
      let s := spiTransfer s (i : Int) OP_DISPLAYTEST 0
      let s := setScanLimit s (i : Int) 7
      let s := spiTransfer s (i : Int) OP_DECODEMODE 0
      let s := clearDisplay s (i : Int)
      shutdown s (i : Int) true)
    (fun s (i : Nat) =>
      spiTransferAccesses s.maxDevices (i : Int)
        ++ setScanLimitAccesses (spiTransfer s (i : Int) OP_DISPLAYTEST 0) (i : Int) 7
        ++ spiTransferAccesses
            (setScanLimit (spiTransfer s (i : Int) OP_DISPLAYTEST 0) (i : Int) 7).maxDevices
            (i : Int)
        ++ clearDisplayAccesses
            (spiTransfer (setScanLimit (spiTransfer s (i : Int) OP_DISPLAYTEST 0) (i : Int) 7)
              (i : Int) OP_DECODEMODE 0) (i : Int)
        ++ shutdownAccesses
            (clearDisplay
              (spiTransfer (setScanLimit (spiTransfer s (i : Int) OP_DISPLAYTEST 0) (i : Int) 7)
                (i : Int) OP_DECODEMODE 0) (i : Int)) (i : Int) true)
    (fun t a => by
      simp [spiTransferT_eq, setScanLimitT_eq, clearDisplayT_eq, shutdownT_eq,
        List.append_assoc])]
  simp [emitT, emit, foldl_stStatus_maxDevices]

theorem callT_state (charTable : Nat → Nat) (s : State) (c : Call) :
    (callT charTable (startRun s) c).state = call charTable s c := by
  rw [callT_eq]
  rfl

theorem callT_inBounds (charTable : Nat → Nat) (s : State) (c : Call)
    (h1 : 1 ≤ s.maxDevices) (h8 : s.maxDevices ≤ 8) :
    ∀ x ∈ (callT charTable (startRun s) c).accesses, InBounds s.maxDevices x := by
  rw [callT_eq]
  intro x hx
  simp only [startRun, List.nil_append] at hx
  exact callAccesses_inBounds s c h1 h8 x hx

theorem LedControlT_state (status0 spidata0 : List Nat)
    (dataPin clkPin csPin numDevices : Int) :
    (LedControlT status0 spidata0 dataPin clkPin csPin numDevices).state
      = LedControl status0 spidata0 dataPin clkPin csPin numDevices := by
  rw [LedControlT_eq]

theorem LedControlT_inBounds (status0 spidata0 : List Nat)
    (dataPin clkPin csPin numDevices : Int) :
    ∀ x ∈ (LedControlT status0 spidata0 dataPin clkPin csPin numDevices).accesses,
      InBounds (if 1 ≤ numDevices ∧ numDevices ≤ 8 then numDevices else 8) x := by
  rw [LedControlT_eq]
  exact LedControlAccesses_inBounds status0 spidata0 dataPin clkPin csPin numDevices

/-! ## Seven-segment characters and unknown glyphs -/

/-- C11, the code at a character code above 127. With a table reading that
returns the index read, `setChar(0,0,(char)200,false)` stores and sends 200, the
entry at index 200 (beyond the 128 entries of the table), not the entry 32 of
the space character; the assignment `value=32` has no effect on the index. -/
theorem C11_setChar_high_code_reads_index :
    WF (sample 1 (List.replicate 64 0))
    ∧ shadow (setChar probeTable (sample 1 (List.replicate 64 0)) 0 0 200 false) 0 0 = 200
    ∧ (setChar probeTable (sample 1 (List.replicate 64 0)) 0 0 200 false).log
        = transaction (sample 1 (List.replicate 64 0)) 0 1 200
    ∧ probeTable 32 = 32 := by
  decide

/-- C12, the code at a character without a case. When the local array `sRow`
holds 0xFF bytes on entry, `printChar(0,0,c)` with the tilde (code 126), which
has no case in the switch, leaves 0xFF in rows 1..5 and 0 only in rows 0 and 6. -/
theorem C12_printChar_unrecognized_keeps_sRow :
    WF (sample 1 (List.replicate 64 0))
    ∧ glyphCases.lookup 126 = none
    ∧ (List.range 8).map (fun (r : Nat) =>
          shadow (printChar sRowFF (sample 1 (List.replicate 64 0)) 0 0 126) 0 (r : Int))
        = [0, 0xFF, 0xFF, 0xFF, 0xFF, 0xFF, 0, 0] := by
  decide

/-! ## Scrolling: the step sequence -/

/-- C13. Step sequence of `printStringScroll`, with `c` the number of characters
of the text before the first null: with direction less-than (code 60) it is
exactly `6*c+1` steps, step `i = 0 .. 6*c` being `printString(addr, pos-i, text)`
followed by one `delay(tDelay)`; with direction greater-than (code 62) exactly
`6*c+1` steps, step `i` being `printString(addr, pos-6*c+i, text)` followed by
one `delay(tDelay)`; in both cases the log gains exactly `6*c+1` calls of
`delay`. With any other direction the state is unchanged. -/
theorem C13_scroll_steps (sRow0 : Nat → Nat → List Nat) (s : State) (addr pos : Int)
    (string : List Int) (tDelay sentido : Int) :
    printStringScroll sRow0 s addr pos string tDelay 60
        = (List.range (6 * (string.takeWhile (fun ch => ch != 0)).length + 1)).foldl
            (fun t (i : Nat) =>
              emit (printString (sRow0 i) t addr (pos - (i : Int)) string)
                (Event.delay tDelay)) s
    ∧ countDelay (printStringScroll sRow0 s addr pos string tDelay 60).log
        = countDelay s.log + (6 * (string.takeWhile (fun ch => ch != 0)).length + 1)
    ∧ printStringScroll sRow0 s addr pos string tDelay 62
        = (List.range (6 * (string.takeWhile (fun ch => ch != 0)).length + 1)).foldl
            (fun t (i : Nat) =>
              emit (printString (sRow0 i) t addr
                  (pos - 6 * ((string.takeWhile (fun ch => ch != 0)).length : Int) + (i : Int))
                  string)
                (Event.delay tDelay)) s
    ∧ countDelay (printStringScroll sRow0 s addr pos string tDelay 62).log
        = countDelay s.log + (6 * (string.takeWhile (fun ch => ch != 0)).length + 1)
    ∧ (sentido ≠ 60 → sentido ≠ 62 →
        printStringScroll sRow0 s addr pos string tDelay sentido = s) := by
  rw [← countChars_eq]
  have en : (((countChars string : Nat) : Int) * 6 + 1).toNat = 6 * countChars string + 1 := by
    omega
  have e60 : printStringScroll sRow0 s addr pos string tDelay 60
      = (List.range (6 * countChars string + 1)).foldl
          (fun t (i : Nat) =>
            emit (printString (sRow0 i) t addr (pos - (i : Int)) string)
              (Event.delay tDelay)) s := by
    unfold printStringScroll
    simp only [if_pos, en]
    congr 1
    funext t i
    have : -(i : Int) + pos = pos - (i : Int) := by omega
    rw [this]
  have e62 : printStringScroll sRow0 s addr pos string tDelay 62
      = (List.range (6 * countChars string + 1)).foldl
          (fun t (i : Nat) =>
            emit (printString (sRow0 i) t addr
                (pos - 6 * ((countChars string : Nat) : Int) + (i : Int)) string)
              (Event.delay tDelay)) s := by
    unfold printStringScroll
    have h6 : ¬ ((62 : Int) = 60) := by decide
    simp only [if_neg h6, if_pos, en]
    congr 1
    funext t i
    have : -(((countChars string : Nat) : Int) * 6) + (i : Int) + pos
        = pos - 6 * ((countChars string : Nat) : Int) + (i : Int) := by omega
    rw [this]
  refine ⟨e60, ?_, e62, ?_, ?_⟩
  · rw [e60, foldl_countDelay (fun t i => printString (sRow0 i) t addr (pos - (i : Int)) string)
      tDelay (fun t i => printString_countDelay _ t addr _ string), List.length_range]
  · rw [e62, foldl_countDelay (fun t i => printString (sRow0 i) t addr
        (pos - 6 * ((countChars string : Nat) : Int) + (i : Int)) string)
      tDelay (fun t i => printString_countDelay _ t addr _ string), List.length_range]
  · intro h1 h2
    unfold printStringScroll
    simp only [if_neg h1, if_neg h2]

/-- C13, witness: direction less-than, the one-character text "A", position 0:
seven steps `i = 0 .. 6`, at the offsets `0 - i`, each followed by one delay. -/
theorem C13_scroll_steps_witness :
    printStringScroll sRowZero2 (sample 1 (List.replicate 64 0)) 0 0 [65, 0] 20 60
        = [0, 1, 2, 3, 4, 5, 6].foldl
            (fun t (i : Nat) =>
              emit (printString (sRowZero2 i) t 0 (0 - (i : Int)) [65, 0]) (Event.delay 20))
            (sample 1 (List.replicate 64 0))
    ∧ countDelay
        (printStringScroll sRowZero2 (sample 1 (List.replicate 64 0)) 0 0 [65, 0] 20 60).log
        = 7 :=
  have h := C13_scroll_steps sRowZero2 (sample 1 (List.replicate 64 0)) 0 0 [65, 0] 20 60
  have e : List.range (6 * (List.takeWhile (fun ch => ch != 0) [(65 : Int), 0]).length + 1)
      = [0, 1, 2, 3, 4, 5, 6] := by decide
  ⟨by rw [h.1, e], h.2.1.trans (by decide)⟩

/-! ## Shutdown and digits -/

/-- C14. Polarity of `shutdown`: for a device of the chain, `shutdown(addr,true)`
appends exactly one transaction to `addr` with opcode 12 and data 0,
`shutdown(addr,false)` exactly one with opcode 12 and data 1, and neither changes
the shadow array. -/
theorem C14_shutdown_polarity (s : State) (addr : Int) (hwf : WF s)
    (ha0 : 0 ≤ addr) (ha : addr < s.maxDevices) :
    (shutdown s addr true).log = s.log ++ transaction s addr 12 0
    ∧ (shutdown s addr true).status = s.status
    ∧ (shutdown s addr false).log = s.log ++ transaction s addr 12 1
    ∧ (shutdown s addr false).status = s.status := by
  have ht := shutdown_eff s addr true hwf.2.1 hwf.2.2.2.1 hwf.2.2.2.2 ha0 ha
  have hf := shutdown_eff s addr false hwf.2.1 hwf.2.2.2.1 hwf.2.2.2.2 ha0 ha
  exact ⟨ht.2.2.2.2.2.2.1, ht.2.2.2.2.1, hf.2.2.2.2.2.2.1, hf.2.2.2.2.1⟩

/-- C14, witness: device 1 of 3. -/
theorem C14_shutdown_polarity_witness :
    WF (sample 3 (List.replicate 64 0)) ∧ (0 : Int) ≤ 1
    ∧ (1 : Int) < (sample 3 (List.replicate 64 0)).maxDevices
    ∧ (shutdown (sample 3 (List.replicate 64 0)) 1 true).log
        = (sample 3 (List.replicate 64 0)).log
            ++ transaction (sample 3 (List.replicate 64 0)) 1 12 0
    ∧ (shutdown (sample 3 (List.replicate 64 0)) 1 false).log
        = (sample 3 (List.replicate 64 0)).log
            ++ transaction (sample 3 (List.replicate 64 0)) 1 12 1 :=
  have h := C14_shutdown_polarity (sample 3 (List.replicate 64 0)) 1
    (by decide) (by decide) (by decide)
  ⟨by decide, by decide, by decide, h.1, h.2.2.1⟩

/-- C15. Postcondition of `setDigit`, for a table of bytes: for a device of the
chain, a digit in 0..7 and a value in 0..15, the shadow byte of (addr,digit)
becomes the table entry for `value`, ORed with 0x80 when `dp` is true, every
other byte of the shadow array is unchanged, and the log grows by one
transaction to `addr` with opcode `digit+1` and that byte as data; with the
digit outside 0..7 or the value above 15 the state is unchanged. -/
theorem C15_setDigit_post (charTable : Nat → Nat) (s : State) (addr digit : Int)
    (value : Nat) (dp : Bool) (htab : ∀ i, charTable i < 256) (hwf : WF s)
    (ha0 : 0 ≤ addr) (ha : addr < s.maxDevices) :
    (0 ≤ digit ∧ digit ≤ 7 ∧ value ≤ 15 →
      shadow (setDigit charTable s addr digit value dp) addr digit
          = (if dp then charTable value ||| 0x80 else charTable value)
      ∧ (∀ i : Int, i ≠ addr * 8 + digit →
          ldStatus (setDigit charTable s addr digit value dp) i = ldStatus s i)
      ∧ (setDigit charTable s addr digit value dp).log
          = s.log ++ transaction s addr (digit + 1).toNat
              (if dp then charTable value ||| 0x80 else charTable value))
    ∧ (¬ (0 ≤ digit ∧ digit ≤ 7 ∧ value ≤ 15) →
        setDigit charTable s addr digit value dp = s) := by
  constructor
  · rintro ⟨hd0, hd, hv⟩
    have h := setDigit_eff charTable s addr digit value dp hwf.2.1 hwf.2.2.2.1
      hwf.2.2.2.2 ha0 ha hd0 hd hv
    have h8 := hwf.2.2.2.2
    have hmod : (charTable value ||| 0x80) % 256 = charTable value ||| 0x80 :=
      Nat.mod_eq_of_lt (or_0x80_lt _ (htab value))
    rw [hmod] at h
    have hld : ∀ i : Int, ldStatus (setDigit charTable s addr digit value dp) i
        = if i = addr * 8 + digit
          then (if dp then charTable value ||| 0x80 else charTable value)
          else ldStatus s i := by
      intro i
      rw [ldStatus_set s _ _ _ h.2.2.2.2.1 hwf.1 (by omega) i,
        toNat_index addr digit ha0 hd0]
    refine ⟨?_, ?_, h.2.2.2.2.2.2.1⟩
    · unfold shadow
      rw [hld, if_pos rfl]
    · intro i hi
      rw [hld, if_neg hi]
  · intro hn
    have g1 : ¬ (addr < 0 ∨ addr ≥ s.maxDevices) := by omega
    have g2 : digit < 0 ∨ digit > 7 ∨ value > 15 := by omega
    simp [setDigit, g1, g2]

/-- C15, witness: device 1 of 3, digit 2, value 7 with the decimal point, and
the table reading that returns the index. -/
theorem C15_setDigit_post_witness :
    WF (sample 3 (List.replicate 64 0)) ∧ (0 : Int) ≤ 1
    ∧ (1 : Int) < (sample 3 (List.replicate 64 0)).maxDevices
    ∧ shadow (setDigit probeTable (sample 3 (List.replicate 64 0)) 1 2 7 true) 1 2
        = (if true = true then probeTable 7 ||| 0x80 else probeTable 7) :=
  ⟨by decide, by decide, by decide,
    ((C15_setDigit_post probeTable (sample 3 (List.replicate 64 0)) 1 2 7 true
      (fun i => Nat.mod_lt i (by decide)) (by decide) (by decide) (by decide)).1
      (by decide)).1⟩

/-! ## Shadow and hardware -/

/-- C16. Shadow and hardware stay in step: in every state reached from
construction by calls of the public operations with arbitrary arguments, for
every device `d` of the chain and every row `r` in 0..7, the shadow byte of
(d,r) is the data byte of the most recent transaction in the log addressed to
`d` with opcode `r+1`. -/
theorem C16_shadow_sync (charTable : Nat → Nat) (s : State) (h : Reachable charTable s)
    (d r : Nat) (hd : (d : Int) < s.maxDevices) (hr : r ≤ 7) :
    lastData s d r = some (shadow s (d : Int) (r : Int)) := by
  have hs := h.kept.2 d r hd hr trivial
  unfold lastData
  rw [hs]

set_option maxRecDepth 100000 in
/-- C16, witness: a driver for 2 devices after `setRow(1,2,0x55)`; the last
transaction for row 2 of device 1 carried 0x55. -/
theorem C16_shadow_sync_witness :
    Reachable probeTable sampleRun ∧ ((1 : Nat) : Int) < sampleRun.maxDevices ∧ 2 ≤ 7
    ∧ lastData sampleRun 1 2 = some (shadow sampleRun ((1 : Nat) : Int) ((2 : Nat) : Int))
    ∧ shadow sampleRun 1 2 = 0x55 :=
  have hr : Reachable probeTable sampleRun :=
    Reachable.step _ (Call.setRow 1 2 0x55)
      (Reachable.construct (List.replicate 64 7) (List.replicate 16 9) 12 11 10 2
        (by decide) (by decide))
  ⟨hr, by decide, by decide, C16_shadow_sync probeTable sampleRun hr 1 2 (by decide) (by decide),
    by decide⟩

/-! ## Text on the dot matrix -/

/-- C17. Placement and clipping of `printChar`, for a device of the chain, any
position and a character with the case `g` in the switch: each row `pos+i` with
`0 <= i <= 6` that lies in 0..7 holds 0 when `i` is 0 or 6 and the `i`-th glyph
byte otherwise; the rows of the device outside `pos .. pos+6` and the bytes of
the other devices are unchanged; the log grows by one transaction (opcode
`pos+i+1`, data that byte) for each `i` in 0..6 with `0 <= pos+i <= 7`, in
ascending order, and by nothing else. -/
theorem C17_printChar_placement (sRow0 : List Nat) (s : State) (addr pos c : Int)
    (g : Glyph) (hwf : WF s) (ha0 : 0 ≤ addr) (ha : addr < s.maxDevices)
    (hl : sRow0.length = 7) (hc : glyphCases.lookup c = some g) :
    (∀ i : Nat, i ≤ 6 → 0 ≤ pos + (i : Int) → pos + (i : Int) ≤ 7 →
      shadow (printChar sRow0 s addr pos c) addr (pos + (i : Int))
        = if i = 0 ∨ i = 6 then 0 else glyphByte g i)
    ∧ (∀ r : Int, 0 ≤ r → r ≤ 7 → (r < pos ∨ r > pos + 6) →
        shadow (printChar sRow0 s addr pos c) addr r = shadow s addr r)
    ∧ (∀ j : Int, (j < addr * 8 ∨ j > addr * 8 + 7) →
        ldStatus (printChar sRow0 s addr pos c) j = ldStatus s j)
    ∧ (printChar sRow0 s addr pos c).log
        = s.log ++ ((List.range 7).filter
              (fun (i : Nat) => decide (0 ≤ pos + (i : Int) ∧ pos + (i : Int) ≤ 7))).flatMap
            (fun (i : Nat) => transaction s addr (pos + (i : Int) + 1).toNat
              (if i = 0 ∨ i = 6 then 0 else glyphByte g i)) := by
  have hg := hwf.good
  have h := printChar_wr sRow0 s addr pos c hg ha0 ha
  refine ⟨?_, ?_, ?_, ?_⟩
  · intro i hi h0 h7
    rw [h.shadow hg ha0 ha _ h0 h7, lastWrite_charWrites, if_pos (by omega)]
    have e : (pos + (i : Int) - pos).toNat = i := by omega
    rw [e, Option.getD_some, charRows_value sRow0 c g i hl hc hi]
  · intro r h0 h7 hout
    rw [h.shadow hg ha0 ha _ h0 h7, lastWrite_charWrites, if_neg (by omega), Option.getD_none]
  · intro j hj
    rw [h.ldStatus hg ha0 ha, if_neg (by omega)]
  · rw [h.2.2.2.2.2.2.1]
    unfold charWrites
    rw [writeEvents_map s addr pos (fun i => (charRows sRow0 c).getD i 0)]
    congr 1
    apply flatMap_congr_mem
    intro i hi
    have hi6 : i ≤ 6 := by
      have := (List.mem_filter.mp hi).1
      rw [List.mem_range] at this
      omega
    rw [charRows_value sRow0 c g i hl hc hi6]

/-- C17, witness: the letter A (code 65) at position 5 of device 1 of 3: rows 5,
6 and 7 are written, the other four rows of the character are dropped. -/
theorem C17_printChar_placement_witness :
    WF (sample 3 (List.replicate 64 0xFF)) ∧ (0 : Int) ≤ 1
    ∧ (1 : Int) < (sample 3 (List.replicate 64 0xFF)).maxDevices
    ∧ sRowFF.length = 7 ∧ glyphCases.lookup 65 = some (Glyph.mk 0x7C 0x12 0x11 0x12 0x7C)
    ∧ (printChar sRowFF (sample 3 (List.replicate 64 0xFF)) 1 5 65).log
        = transaction (sample 3 (List.replicate 64 0xFF)) 1 6 0
          ++ (transaction (sample 3 (List.replicate 64 0xFF)) 1 7 0x7C
          ++ (transaction (sample 3 (List.replicate 64 0xFF)) 1 8 0x12 ++ [])) :=
  ⟨by decide, by decide, by decide, by decide, by decide,
    (C17_printChar_placement sRowFF (sample 3 (List.replicate 64 0xFF)) 1 5 65
      (Glyph.mk 0x7C 0x12 0x11 0x12 0x7C) (by decide) (by decide) (by decide) (by decide)
      (by decide)).2.2.2⟩

/-- C18. Layout of `printString`, for a device of the chain, any position and a
text of `c` characters (before the first null) that all have a case in the
switch: the call is the calls `printChar(addr, pos+6*k, text[k])` for
`k = 0 .. c-1` in ascending order; afterwards a row `r` in 0..7 of the device
holds the `j`-th glyph byte of `text[k]` when `r-pos = 6*k+j` with `k < c` and
`1 <= j <= 5`, holds 0 when `r-pos = 6*k` with `k <= c` (for `c >= 1`), and is
unchanged otherwise, as are the bytes of the other devices. For the empty text
the state is unchanged. -/
theorem C18_printString_layout (sRow0 : Nat → List Nat) (s : State) (addr pos : Int)
    (string : List Int) (gl : Nat → Glyph) (hwf : WF s)
    (ha0 : 0 ≤ addr) (ha : addr < s.maxDevices) (hl : ∀ k, (sRow0 k).length = 7)
    (hc : ∀ k, k < countChars string → glyphCases.lookup (string.getD k 0) = some (gl k)) :
    printString sRow0 s addr pos string
        = (List.range (countChars string)).foldl
            (fun t (k : Nat) =>
              printChar (sRow0 k) t addr (pos + 6 * (k : Int)) (string.getD k 0)) s
    ∧ (∀ (r : Int) (k j : Nat), 0 ≤ r → r ≤ 7 → k < countChars string → 1 ≤ j → j ≤ 5 →
        r - pos = 6 * (k : Int) + (j : Int) →
        shadow (printString sRow0 s addr pos string) addr r = glyphByte (gl k) j)
    ∧ (∀ (r : Int) (k : Nat), 0 ≤ r → r ≤ 7 → 1 ≤ countChars string →
        k ≤ countChars string → r - pos = 6 * (k : Int) →
        shadow (printString sRow0 s addr pos string) addr r = 0)
    ∧ (∀ r : Int, 0 ≤ r → r ≤ 7 → (r < pos ∨ r > pos + 6 * (countChars string : Int)) →
        shadow (printString sRow0 s addr pos string) addr r = shadow s addr r)
    ∧ (∀ j : Int, (j < addr * 8 ∨ j > addr * 8 + 7) →
        ldStatus (printString sRow0 s addr pos string) j = ldStatus s j)
    ∧ (countChars string = 0 → printString sRow0 s addr pos string = s) := by
  have hg := hwf.good
  have h := printString_wr sRow0 s addr pos string hg ha0 ha
  have hfold : printString sRow0 s addr pos string
      = (List.range (countChars string)).foldl
          (fun t (k : Nat) =>
            printChar (sRow0 k) t addr (pos + 6 * (k : Int)) (string.getD k 0)) s := by
    unfold printString
    rw [printStringLoop_eq_foldl]
    congr 1
    funext t k
    rw [Nat.zero_add]
  refine ⟨hfold, ?_, ?_, ?_, ?_, ?_⟩
  · intro r k j h0 h7 hk h1 h5 hr
    rw [h.shadow hg ha0 ha r h0 h7,
      lastWrite_stringWrites_glyph sRow0 pos string 0 k j r hk h1 h5 (by omega),
      Option.getD_some, Nat.zero_add, charRows_glyph _ _ (gl k) j (hl k) (hc k hk) h1 h5]
  · intro r k h0 h7 hc1 hk hr
    rw [h.shadow hg ha0 ha r h0 h7,
      lastWrite_stringWrites_gap sRow0 pos string 0 k r hc1 hk (by omega), Option.getD_some]
  · intro r h0 h7 hout
    rw [h.shadow hg ha0 ha r h0 h7,
      lastWrite_stringWrites_out sRow0 pos string 0 r (by omega), Option.getD_none]
  · intro j hj
    rw [h.ldStatus hg ha0 ha, if_neg (by omega)]
  · intro h0
    rw [hfold, h0]
    rfl

/-- C18, witness: the text "Hi" at position -3 of device 1 of 3; row 0 holds
the third glyph byte of the letter H. -/
theorem C18_printString_layout_witness :
    WF (sample 3 (List.replicate 64 0xFF)) ∧ (0 : Int) ≤ 1
    ∧ (1 : Int) < (sample 3 (List.replicate 64 0xFF)).maxDevices
    ∧ countChars [72, 105, 0] = 2
    ∧ glyphCases.lookup 72 = some (Glyph.mk 0x7F 0x08 0x08 0x08 0x7F)
    ∧ shadow (printString sRowZero1 (sample 3 (List.replicate 64 0xFF)) 1 (-3) [72, 105, 0]) 1 0
        = glyphByte (Glyph.mk 0x7F 0x08 0x08 0x08 0x7F) 3 :=
  ⟨by decide, by decide, by decide, by decide, by decide,
    ((C18_printString_layout sRowZero1 (sample 3 (List.replicate 64 0xFF)) 1 (-3) [72, 105, 0]
      (fun k => ((glyphCases.lookup ([72, 105, 0].getD k 0)).getD (Glyph.mk 0 0 0 0 0)))
      (by decide) (by decide) (by decide) (fun _ => rfl)
      (fun k hk => by
        have hk2 : k < 2 := hk
        interval_cases k <;> decide)).2.1 0 0 3 (by decide) (by decide) (by decide)
        (by decide) (by decide) (by decide)).trans (by decide)⟩

/-! ## The display after a scroll -/

/-- C19. Left scroll ends with the text off the display: for a device of the
chain and a text of `c >= 1` characters, after
`printStringScroll(addr,0,text,tDelay,'<')` every row `r` of the device with
`0 <= r <= min(7, 6*c)` holds 0; for a text of at least 2 characters all 8 rows
of the device hold 0. -/
theorem C19_left_scroll_blank (sRow0 : Nat → Nat → List Nat) (s : State)
    (addr tDelay : Int) (string : List Int) (hwf : WF s)
    (ha0 : 0 ≤ addr) (ha : addr < s.maxDevices) (hc1 : 1 ≤ countChars string) :
    (∀ r : Int, 0 ≤ r → r ≤ 7 → r ≤ 6 * (countChars string : Int) →
      shadow (printStringScroll sRow0 s addr 0 string tDelay 60) addr r = 0)
    ∧ (2 ≤ countChars string → ∀ r : Int, 0 ≤ r → r ≤ 7 →
        shadow (printStringScroll sRow0 s addr 0 string tDelay 60) addr r = 0) := by
  have h := (scroll_left_rows sRow0 s addr 0 tDelay string (6 * countChars string + 1)
    hwf.good ha0 ha hc1).2.2
  rw [← printStringScroll_left] at h
  constructor
  · intro r h0 h7 hr
    exact h r h0 h7 (by omega) (by omega)
  · intro hc2 r h0 h7
    exact h r h0 h7 (by omega) (by omega)

/-- C19, witness: the text "Hi" scrolled left on device 1 of 3, from a display
whose 64 rows hold 0xFF. -/
theorem C19_left_scroll_blank_witness :
    WF (sample 3 (List.replicate 64 0xFF)) ∧ (0 : Int) ≤ 1
    ∧ (1 : Int) < (sample 3 (List.replicate 64 0xFF)).maxDevices
    ∧ 1 ≤ countChars [72, 105, 0]
    ∧ shadow (printStringScroll sRowZero2 (sample 3 (List.replicate 64 0xFF)) 1 0
        [72, 105, 0] 20 60) 1 7 = 0 :=
  ⟨by decide, by decide, by decide, by decide,
    (C19_left_scroll_blank sRowZero2 (sample 3 (List.replicate 64 0xFF)) 1 20 [72, 105, 0]
      (by decide) (by decide) (by decide) (by decide)).2 (by decide) 7 (by decide) (by decide)⟩

set_option maxRecDepth 100000 in
/-- C20, counterexample: after the right scroll of the one-character text "A" on
a blank one-device display, row 1 of the device holds 0x7C, the first glyph byte
of the letter A, not 0: the text ends displayed at position 0. -/
theorem C20_right_scroll_counterexample :
    WF (sample 1 (List.replicate 64 0)) ∧ countChars [65, 0] = 1
    ∧ glyphCases.lookup 65 = some (Glyph.mk 0x7C 0x12 0x11 0x12 0x7C)
    ∧ shadow (printStringScroll sRowZero2 (sample 1 (List.replicate 64 0)) 0 0 [65, 0] 20 62)
        0 1 = 0x7C := by
  decide

/-- C20, amended. Right scroll ends with the text displayed at position 0: for a
device of the chain and a text of `c >= 1` characters that all have a case in
the switch, after `printStringScroll(addr,0,text,tDelay,'>')` a row `r` in 0..7
of the device holds the `j`-th glyph byte of `text[k]` when `r = 6*k+j` with
`k < c` and `1 <= j <= 5`, and holds 0 when `r = 6*k` with `k <= c`. -/
theorem C20_right_scroll_final (sRow0 : Nat → Nat → List Nat) (s : State)
    (addr tDelay : Int) (string : List Int) (gl : Nat → Glyph) (hwf : WF s)
    (ha0 : 0 ≤ addr) (ha : addr < s.maxDevices) (hc1 : 1 ≤ countChars string)
    (hl : ∀ i k, (sRow0 i k).length = 7)
    (hc : ∀ k, k < countChars string → glyphCases.lookup (string.getD k 0) = some (gl k)) :
    (∀ (r : Int) (k j : Nat), 0 ≤ r → r ≤ 7 → k < countChars string → 1 ≤ j → j ≤ 5 →
      r = 6 * (k : Int) + (j : Int) →
      shadow (printStringScroll sRow0 s addr 0 string tDelay 62) addr r = glyphByte (gl k) j)
    ∧ (∀ (r : Int) (k : Nat), 0 ≤ r → r ≤ 7 → k ≤ countChars string → r = 6 * (k : Int) →
        shadow (printStringScroll sRow0 s addr 0 string tDelay 62) addr r = 0) := by
  have hg := hwf.good
  rw [printStringScroll_right, List.range_succ, List.foldl_append]
  simp only [List.foldl_cons, List.foldl_nil]
  have hgood := scroll_good sRow0
    (fun i => 0 - 6 * ((countChars string : Nat) : Int) + (i : Int)) s addr tDelay string
    (6 * countChars string) hg ha0 ha
  have e0 : (0 : Int) - 6 * ((countChars string : Nat) : Int)
      + ((6 * countChars string : Nat) : Int) = 0 := by
    push_cast
    omega
  generalize (List.range (6 * countChars string)).foldl (fun t (i : Nat) =>
      emit (printString (sRow0 i) t addr
        (0 - 6 * ((countChars string : Nat) : Int) + (i : Int)) string)
        (Event.delay tDelay)) s = t at hgood ⊢
  obtain ⟨hgt, hm⟩ := hgood
  rw [e0]
  have h := printString_wr (sRow0 (6 * countChars string)) t addr 0 string hgt ha0
    (by rw [hm]; exact ha)
  constructor
  · intro r k j h0 h7 hk h1 h5 hr
    rw [shadow_emit, h.shadow hgt ha0 (by rw [hm]; exact ha) r h0 h7,
      lastWrite_stringWrites_glyph _ 0 string 0 k j r hk h1 h5 (by omega),
      Option.getD_some, Nat.zero_add, charRows_glyph _ _ (gl k) j (hl _ k) (hc k hk) h1 h5]
  · intro r k h0 h7 hk hr
    rw [shadow_emit, h.shadow hgt ha0 (by rw [hm]; exact ha) r h0 h7,
      lastWrite_stringWrites_gap _ 0 string 0 k r hc1 hk (by omega), Option.getD_some]

/-- C20, witness: the text "A" scrolled right on device 1 of 3; row 3 ends with
the third glyph byte of the letter A. -/
theorem C20_right_scroll_final_witness :
    WF (sample 3 (List.replicate 64 0xFF)) ∧ (0 : Int) ≤ 1
    ∧ (1 : Int) < (sample 3 (List.replicate 64 0xFF)).maxDevices
    ∧ 1 ≤ countChars [65, 0]
    ∧ glyphCases.lookup 65 = some (Glyph.mk 0x7C 0x12 0x11 0x12 0x7C)
    ∧ shadow (printStringScroll sRowZero2 (sample 3 (List.replicate 64 0xFF)) 1 0
        [65, 0] 20 62) 1 3 = glyphByte (Glyph.mk 0x7C 0x12 0x11 0x12 0x7C) 3 :=
  ⟨by decide, by decide, by decide, by decide, by decide,
    (C20_right_scroll_final sRowZero2 (sample 3 (List.replicate 64 0xFF)) 1 20 [65, 0]
      (fun _ => Glyph.mk 0x7C 0x12 0x11 0x12 0x7C) (by decide) (by decide) (by decide)
      (by decide) (fun _ _ => rfl)
      (fun k hk => by
        have hk1 : k < 1 := hk
        interval_cases k
        decide)).1 3 0 3 (by decide) (by decide) (by decide) (by decide) (by decide)
        (by decide)⟩

/-! ## Array indices -/

/-- C21. Buffer indices stay in bounds. Take a good state (arrays of their
declared sizes, device count `N` in 1..8) and any call of a public operation
with arbitrary arguments, and run it with every array access and every call of
`spiTransfer` recorded where it happens. The run computes the state of the
call; every recorded load from and store to the shadow array has its index in
0..63; every recorded call of `spiTransfer` has `0 <= addr < N`; every recorded
store to and load from the transfer buffer has its index in `[0, 2*N)`, with
`2*N <= 16`; no store outside an array happens (the flag `fault` keeps its
value); and the state after the call is good again with the same `N`, so the
same holds for the next call. The same holds for the constructor on arrays of
the declared sizes, with `N` the clamped device count, and the state it leaves
is good. -/
theorem C21_indices_in_bounds (charTable : Nat → Nat) (s : State) (c : Call)
    (status0 spidata0 : List Nat) (dataPin clkPin csPin numDevices : Int)
    (hg : Good s) (h64 : status0.length = 64) (h16 : spidata0.length = 16) :
    ((callT charTable (startRun s) c).state = call charTable s c
      ∧ (∀ x ∈ (callT charTable (startRun s) c).accesses, InBounds s.maxDevices x)
      ∧ (call charTable s c).fault = s.fault
      ∧ Good (call charTable s c)
      ∧ (call charTable s c).maxDevices = s.maxDevices)
    ∧ ((LedControlT status0 spidata0 dataPin clkPin csPin numDevices).state
        = LedControl status0 spidata0 dataPin clkPin csPin numDevices
      ∧ (∀ x ∈ (LedControlT status0 spidata0 dataPin clkPin csPin numDevices).accesses,
          InBounds (if 1 ≤ numDevices ∧ numDevices ≤ 8 then numDevices else 8) x)
      ∧ (LedControl status0 spidata0 dataPin clkPin csPin numDevices).fault = false
      ∧ Good (LedControl status0 spidata0 dataPin clkPin csPin numDevices)) :=
  ⟨⟨callT_state charTable s c, callT_inBounds charTable s c hg.2.2.1 hg.2.2.2,
      (call_safe charTable s c hg).2.2, (call_safe charTable s c hg).1,
      (call_safe charTable s c hg).2.1⟩,
    ⟨LedControlT_state status0 spidata0 dataPin clkPin csPin numDevices,
      LedControlT_inBounds status0 spidata0 dataPin clkPin csPin numDevices,
      LedControl_fault status0 spidata0 dataPin clkPin csPin numDevices h64 h16,
      (LedControl_kept status0 spidata0 dataPin clkPin csPin numDevices h64 h16).1⟩⟩

set_option maxRecDepth 100000 in
/-- C21, witness: `setRow(1,5,0x3C)` on a chain of 3 devices. The recorded run
stores to and loads from `status[13]` (row 5 of device 1), calls `spiTransfer`
for device 1, zeroes `spidata[0..5]`, stores to `spidata[3]` and `spidata[2]`
and loads `spidata[5]` down to `spidata[0]`; each of these is in bounds, and
the flag `fault` stays false. -/
theorem C21_indices_in_bounds_witness :
    Good (sample 3 (List.replicate 64 0))
    ∧ (List.replicate 64 7).length = 64 ∧ (List.replicate 16 9).length = 16
    ∧ (callT probeTable (startRun (sample 3 (List.replicate 64 0)))
        (Call.setRow 1 5 0x3C)).accesses
        = [Access.stStatus 13, Access.ldStatus 13, Access.spiTransfer 1,
            Access.stSpidata 0, Access.stSpidata 1, Access.stSpidata 2, Access.stSpidata 3,
            Access.stSpidata 4, Access.stSpidata 5, Access.stSpidata 3, Access.stSpidata 2,
            Access.ldSpidata 5, Access.ldSpidata 4, Access.ldSpidata 3, Access.ldSpidata 2,
            Access.ldSpidata 1, Access.ldSpidata 0]
    ∧ InBounds 3 (Access.stStatus 13) ∧ InBounds 3 (Access.ldStatus 13)
    ∧ InBounds 3 (Access.spiTransfer 1) ∧ InBounds 3 (Access.stSpidata 3)
    ∧ InBounds 3 (Access.ldSpidata 5)
    ∧ (call probeTable (sample 3 (List.replicate 64 0)) (Call.setRow 1 5 0x3C)).fault = false :=
  have h := (C21_indices_in_bounds probeTable (sample 3 (List.replicate 64 0))
    (Call.setRow 1 5 0x3C) (List.replicate 64 7) (List.replicate 16 9)
    12 11 10 2 (WF.good (by decide)) (by decide) (by decide)).1
  ⟨WF.good (by decide), by decide, by decide, by decide,
    h.2.1 (Access.stStatus 13) (by decide), h.2.1 (Access.ldStatus 13) (by decide),
    h.2.1 (Access.spiTransfer 1) (by decide), h.2.1 (Access.stSpidata 3) (by decide),
    h.2.1 (Access.ldSpidata 5) (by decide), h.2.2.1⟩

end LedControl
